import Mathlib

/-!
# cline-meet: the Room aggregate

Shallow embedding of `backend/internal/domain/model/room.go`.

* `uuid.UUID` is a 128-bit value; it is embedded as a natural number and
  `uuid.Nil` is `0`.  The aggregate only ever compares UUIDs for equality.
* `time.Time` is an instant on one time line, embedded as an integer count of
  nanoseconds since the Unix epoch; `t.After(u)` is `u < t`.  A `time.Time`
  holds the seconds since January 1 of year 1 in an `int64` and the nanoseconds
  within the second; `Time.Add` follows the library's `Add`, whose seconds
  saturate at the ends of that range.  `NewRoom` adds 24 hours to a reading of
  `time.Now()`, far from those ends, where `Add` is the sum.
* `time.Duration` is an `int64` count of nanoseconds; the Go expression `a + b`
  on durations is `Duration.add`, which keeps the low 64 bits.
* Go's `error` is `Option String`: `none` is `nil`, `some msg` is
  `errors.New(msg)`.
* The methods have pointer receivers and mutate the room; each is embedded as a
  function returning the room after the call together with the returned error.
* `uuid.New()` and `time.Now()` are inputs of the embedding.  `AddParticipant`
  reads the clock twice (expiry check, then `JoinedAt`), so it takes both
  readings.
-/

namespace model

abbrev UUID := Nat

abbrev Time := Int

abbrev Duration := Int

/-- The constant `time.Hour`, in nanoseconds. -/
def Hour : Duration := 3600 * 1000000000

/-- The Go expression `a + b` on `time.Duration`: the 64-bit signed integer with the
low 64 bits of the sum. -/
def Duration.add (a b : Duration) : Duration :=
  (a + b + 2 ^ 63) % 2 ^ 64 - 2 ^ 63

/-- The Go quotient `a / b` of signed integers for a positive `b`: it truncates
toward zero. -/
def quoT (a b : Int) : Int :=
  if 0 ≤ a then a / b else -((-a) / b)

/-- The Go remainder `a % b` of signed integers for a positive `b`: it has the sign
of `a`. -/
def remT (a b : Int) : Int :=
  if 0 ≤ a then a % b else -((-a) % b)

/-- The seconds from January 1 of year 1 to the Unix epoch (`unixToInternal`). -/
def unixToInternal : Int := 62135596800

/-- The seconds field of a `time.Time`: seconds since January 1 of year 1. -/
def Time.sec (t : Time) : Int :=
  t / 1000000000 + unixToInternal

/-- The nanoseconds field of a `time.Time`, from 0 to 999,999,999. -/
def Time.nsec (t : Time) : Int :=
  t % 1000000000

/-- The instant with the given seconds and nanoseconds fields. -/
def Time.ofFields (sec nsec : Int) : Time :=
  (sec - unixToInternal) * 1000000000 + nsec

/-- A `time.Time` value: its seconds field is an `int64`. -/
def Time.ok (t : Time) : Prop :=
  -2 ^ 63 ≤ Time.sec t ∧ Time.sec t ≤ 2 ^ 63 - 1

instance (t : Time) : Decidable (Time.ok t) :=
  inferInstanceAs (Decidable (-2 ^ 63 ≤ Time.sec t ∧ Time.sec t ≤ 2 ^ 63 - 1))

/-- The library method `addSec`: the seconds field after adding `d` seconds in
64-bit arithmetic, set to the largest or the negated largest `int64` when the sum
overflows. -/
def addSec (sec d : Int) : Int :=
  if (sec < (sec + d + 2 ^ 63) % 2 ^ 64 - 2 ^ 63 ↔ 0 < d) then
    (sec + d + 2 ^ 63) % 2 ^ 64 - 2 ^ 63
  else if 0 < d then
    2 ^ 63 - 1
  else
    -(2 ^ 63 - 1)

/-- The library method `Time.Add`: whole seconds and nanoseconds of `d` are added
to the two fields, a nanosecond carry or borrow moves one second, and the
seconds go through `addSec`. -/
def Time.Add (t : Time) (d : Duration) : Time :=
  let dsec := quoT d 1000000000
  let nsec := Time.nsec t + remT d 1000000000
  if 1000000000 ≤ nsec then
    Time.ofFields (addSec (Time.sec t) (dsec + 1)) (nsec - 1000000000)
  else if nsec < 0 then
    Time.ofFields (addSec (Time.sec t) (dsec - 1)) (nsec + 1000000000)
  else
    Time.ofFields (addSec (Time.sec t) dsec) nsec

/-- A participant in a room. -/
structure Participant where
  UserID : UUID
  IsHost : Bool
  IsMuted : Bool
  JoinedAt : Time
  deriving DecidableEq, Repr

/-- A meeting room. -/
structure Room where
  ID : UUID
  Name : String
  HostID : UUID
  IsWaitingRoom : Bool
  CreatedAt : Time
  ExpiresAt : Time
  Participants : List Participant
  MaxCapacity : Int
  deriving DecidableEq, Repr

/-- The function `NewRoom`; `id` is the value of `uuid.New()` and `now` the value
of `time.Now()`. -/
def NewRoom (id : UUID) (now : Time) (name : String) (hostID : UUID)
    (isWaitingRoom : Bool) : Room :=
  { ID := id
    Name := name
    HostID := hostID
    IsWaitingRoom := isWaitingRoom
    CreatedAt := now
    ExpiresAt := now + 24 * Hour
    Participants := []
    MaxCapacity := 10 }

/-- The loop `for _, p := range ps { if p.UserID == userID { return ... } }`
opening `AddParticipant`: `true` when the loop returns from its body. -/
def alreadyIn : List Participant → UUID → Bool
  | [], _ => false
  | p :: ps, userID => if p.UserID = userID then true else alreadyIn ps userID

/-- The loop `for i, p := range ps { if p.UserID == userID { return i } }`
shared by `RemoveParticipant` and `GetParticipant`, started at index `i`:
the index at which the loop body returns, if it does. -/
def findFrom : List Participant → UUID → Nat → Option Nat
  | [], _, _ => none
  | p :: ps, userID, i => if p.UserID = userID then some i else findFrom ps userID (i + 1)

/-- The assignment `p.IsMuted = b` through the pointer `&ps[i]`. -/
def storeMuted : List Participant → Nat → Bool → List Participant
  | [], _, _ => []
  | p :: ps, 0, b => { p with IsMuted := b } :: ps
  | p :: ps, i + 1, b => p :: storeMuted ps i b

namespace Room

/-- The method `AddParticipant`; `now` is the clock reading of the expiry check and
`joinedAt` the later reading stored in the new participant. -/
def AddParticipant (r : Room) (userID : UUID) (now joinedAt : Time) :
    Room × Option String :=
  if alreadyIn r.Participants userID then
    (r, some "user already in room")
  else if (r.Participants.length : Int) ≥ r.MaxCapacity then
    (r, some "room is full")
  else if r.ExpiresAt < now then
    (r, some "room has expired")
  else
    ({ r with
        Participants := r.Participants ++
          [{ UserID := userID
             IsHost := decide (userID = r.HostID)
             IsMuted := false
             JoinedAt := joinedAt }] }, none)

/-- The method `RemoveParticipant`: at the first index `i` whose entry has the
user ID the roster becomes `append(ps[:i], ps[i+1:]...)`. -/
def RemoveParticipant (r : Room) (userID : UUID) : Room × Option String :=
  match findFrom r.Participants userID 0 with
  | some i =>
    ({ r with Participants := r.Participants.take i ++ r.Participants.drop (i + 1) }, none)
  | none => (r, some "participant not found")

/-- The method `GetParticipant`; the returned pointer `&r.Participants[i]` is the
index `i`. -/
def GetParticipant (r : Room) (userID : UUID) : Except String Nat :=
  match findFrom r.Participants userID 0 with
  | some i => .ok i
  | none => .error "participant not found"

/-- The method `MuteParticipant`. -/
def MuteParticipant (r : Room) (hostID targetUserID : UUID) : Room × Option String :=
  if hostID ≠ r.HostID then
    (r, some "only host can mute participants")
  else
    match r.GetParticipant targetUserID with
    | .error err => (r, some err)
    | .ok i => ({ r with Participants := storeMuted r.Participants i true }, none)

/-- The method `UnmuteParticipant`. -/
def UnmuteParticipant (r : Room) (userID : UUID) : Room × Option String :=
  match r.GetParticipant userID with
  | .error err => (r, some err)
  | .ok i => ({ r with Participants := storeMuted r.Participants i false }, none)

/-- The method `IsHost`. -/
def IsHost (r : Room) (userID : UUID) : Bool :=
  decide (r.HostID = userID)

/-- The method `IsParticipant`: `err == nil` for the error of `GetParticipant`. -/
def IsParticipant (r : Room) (userID : UUID) : Bool :=
  match r.GetParticipant userID with
  | .ok _ => true
  | .error _ => false

/-- The method `GetParticipantCount`. -/
def GetParticipantCount (r : Room) : Int :=
  (r.Participants.length : Int)

/-- The method `IsExpired`, at clock reading `now`. -/
def IsExpired (r : Room) (now : Time) : Bool :=
  decide (r.ExpiresAt < now)

/-- The method `IsFull`. -/
def IsFull (r : Room) : Bool :=
  decide ((r.Participants.length : Int) ≥ r.MaxCapacity)

/-- The method `ExtendExpiry`: `r.ExpiresAt = r.ExpiresAt.Add(duration)`. -/
def ExtendExpiry (r : Room) (duration : Duration) : Room :=
  { r with ExpiresAt := Time.Add r.ExpiresAt duration }

end Room

/-- One call of a mutating method of the aggregate, with its arguments and the
clock readings it makes. -/
inductive Call where
  | add (userID : UUID) (now joinedAt : Time)
  | remove (userID : UUID)
  | mute (hostID targetUserID : UUID)
  | unmute (userID : UUID)
  | extend (duration : Duration)
  deriving DecidableEq, Repr

/-- The room after a call and the error the call returned (`ExtendExpiry` returns
nothing). -/
def Room.call (r : Room) : Call → Room × Option String
  | .add userID now joinedAt => r.AddParticipant userID now joinedAt
  | .remove userID => r.RemoveParticipant userID
  | .mute hostID targetUserID => r.MuteParticipant hostID targetUserID
  | .unmute userID => r.UnmuteParticipant userID
  | .extend duration => (r.ExtendExpiry duration, none)

/-- The room after a finite sequence of calls, failing calls included. -/
def Room.calls (r : Room) : List Call → Room
  | [] => r
  | c :: cs => Room.calls (r.call c).1 cs

/-- Eleven adds of the pairwise distinct users 20, ..., 30, the host 20 first, read
at times 0, ..., 10. -/
def elevenAdds : List (UUID × Time × Time) :=
  [(20, 0, 0), (21, 1, 1), (22, 2, 2), (23, 3, 3), (24, 4, 4), (25, 5, 5),
   (26, 6, 6), (27, 7, 7), (28, 8, 8), (29, 9, 9), (30, 10, 10)]

/-- A run of `AddParticipant` calls, one per entry `(userID, now, joinedAt)`:
the room after the last call and the error of every call, in order. -/
def Room.addEach (r : Room) : List (UUID × Time × Time) → Room × List (Option String)
  | [] => (r, [])
  | (userID, now, joinedAt) :: rest =>
    let s := r.AddParticipant userID now joinedAt
    let t := Room.addEach s.1 rest
    (t.1, s.2 :: t.2)

/-- The roster invariant: at most `MaxCapacity` participants, no user ID twice. -/
def RosterInv (r : Room) : Prop :=
  (r.Participants.length : Int) ≤ r.MaxCapacity ∧ (r.Participants.map Participant.UserID).Nodup

instance (r : Room) : Decidable (RosterInv r) :=
  inferInstanceAs (Decidable ((r.Participants.length : Int) ≤ r.MaxCapacity ∧
    (r.Participants.map Participant.UserID).Nodup))

/-- A room of capacity 2 hosted by user 1, holding users 1 and 2, expiring at 100. -/
def fullRoom : Room :=
  { ID := 9
    Name := "standup"
    HostID := 1
    IsWaitingRoom := false
    CreatedAt := 0
    ExpiresAt := 100
    Participants :=
      [{ UserID := 1, IsHost := true, IsMuted := false, JoinedAt := 1 },
       { UserID := 2, IsHost := false, IsMuted := false, JoinedAt := 2 }]
    MaxCapacity := 2 }

/-- A room of capacity 10 hosted by user 1, holding users 1, 2 and 3, expiring at 100. -/
def openRoom : Room :=
  { ID := 8
    Name := "retro"
    HostID := 1
    IsWaitingRoom := true
    CreatedAt := 0
    ExpiresAt := 100
    Participants :=
      [{ UserID := 1, IsHost := true, IsMuted := false, JoinedAt := 1 },
       { UserID := 2, IsHost := false, IsMuted := true, JoinedAt := 2 },
       { UserID := 3, IsHost := false, IsMuted := false, JoinedAt := 3 }]
    MaxCapacity := 10 }

/-- The host-flag invariant: every roster entry has `IsHost = (UserID == HostID)`. -/
def HostFlagInv (r : Room) : Prop :=
  ∀ p ∈ r.Participants, p.IsHost = decide (p.UserID = r.HostID)

/-- The room `s` has the fields `HostID`, `ID`, `Name`, `IsWaitingRoom`, `CreatedAt`
and `MaxCapacity` of the room `r`. -/
def SameIdentity (r s : Room) : Prop :=
  s.HostID = r.HostID ∧ s.ID = r.ID ∧ s.Name = r.Name ∧
    s.IsWaitingRoom = r.IsWaitingRoom ∧ s.CreatedAt = r.CreatedAt ∧
    s.MaxCapacity = r.MaxCapacity

/-- A run of calls on a fresh room: the host 20 and user 21 join, the host mutes 21,
a stranger tries to mute the host, 21 unmutes, the room is extended, 22 joins
and 21 leaves. -/
def sampleCalls : List Call :=
  [.add 20 1 1, .add 21 2 2, .mute 20 21, .mute 21 20, .unmute 21,
   .extend Hour, .add 22 3 3, .remove 21]

end model

/-- The value `uuid.Nil`, the all-zero UUID. -/
abbrev uuid.Nil : model.UUID := 0

/-!
# The Message envelope and the User entity

Shallow embedding of `backend/internal/domain/message.go` and
`backend/internal/domain/user.go`.  `MessageType` is a Go string type; the
`Payload interface{}` field holds one of the payload structs of the package,
`nil`, or some other value, which is kept as an uninterpreted tag.
-/

namespace domain

abbrev MessageType := String

def MessageTypeWebRTCOffer : MessageType := "webrtc_offer"

def MessageTypeWebRTCAnswer : MessageType := "webrtc_answer"

def MessageTypeICECandidate : MessageType := "ice_candidate"

def MessageTypeJoinRoom : MessageType := "join_room"

def MessageTypeLeaveRoom : MessageType := "leave_room"

def MessageTypeUserJoined : MessageType := "user_joined"

def MessageTypeUserLeft : MessageType := "user_left"

def MessageTypeChatMessage : MessageType := "chat_message"

def MessageTypeMuteUser : MessageType := "mute_user"

def MessageTypeAdmitUser : MessageType := "admit_user"

def MessageTypeScreenShare : MessageType := "screen_share"

/-- The chat message payload. -/
structure ChatPayload where
  Message : String
  UserName : String
  deriving DecidableEq, Repr

/-- The WebRTC signaling payload; `Type_` is the field `Type`. -/
structure WebRTCPayload where
  SDP : String
  Type_ : String
  deriving DecidableEq, Repr

/-- The ICE candidate payload. -/
structure ICECandidatePayload where
  Candidate : String
  SDPMid : String
  SDPMLineIndex : Int
  deriving DecidableEq, Repr

/-- The control message payload. -/
structure ControlPayload where
  Action : String
  TargetID : model.UUID
  Reason : String
  deriving DecidableEq, Repr

/-- The dynamic value held by the field `Payload interface{}`. -/
inductive Payload where
  | nil
  | chat (p : ChatPayload)
  | webrtc (p : WebRTCPayload)
  | ice (p : ICECandidatePayload)
  | control (p : ControlPayload)
  | other (tag : String)
  deriving DecidableEq, Repr

/-- A real-time message; `Type_` is the field `Type`. -/
structure Message where
  ID : model.UUID
  Type_ : MessageType
  SenderUserID : model.UUID
  TargetUserID : model.UUID
  RoomID : model.UUID
  Payload : Payload
  Timestamp : model.Time
  deriving DecidableEq, Repr

/-- The function `NewMessage`; `id` is the value of `uuid.New()` and `now` the value
of `time.Now()`.  `TargetUserID` keeps its zero value. -/
def NewMessage (id : model.UUID) (now : model.Time) (msgType : MessageType)
    (senderID roomID : model.UUID) (payload : Payload) : Message :=
  { ID := id
    Type_ := msgType
    SenderUserID := senderID
    TargetUserID := uuid.Nil
    RoomID := roomID
    Payload := payload
    Timestamp := now }

/-- The function `NewChatMessage`. -/
def NewChatMessage (id : model.UUID) (now : model.Time) (senderID roomID : model.UUID)
    (message userName : String) : Message :=
  NewMessage id now MessageTypeChatMessage senderID roomID
    (.chat { Message := message, UserName := userName })

/-- The function `NewWebRTCOffer`. -/
def NewWebRTCOffer (id : model.UUID) (now : model.Time)
    (senderID targetID roomID : model.UUID) (sdp : String) : Message :=
  { NewMessage id now MessageTypeWebRTCOffer senderID roomID
      (.webrtc { SDP := sdp, Type_ := "offer" }) with TargetUserID := targetID }

/-- The function `NewWebRTCAnswer`. -/
def NewWebRTCAnswer (id : model.UUID) (now : model.Time)
    (senderID targetID roomID : model.UUID) (sdp : String) : Message :=
  { NewMessage id now MessageTypeWebRTCAnswer senderID roomID
      (.webrtc { SDP := sdp, Type_ := "answer" }) with TargetUserID := targetID }

/-- The function `NewICECandidate`. -/
def NewICECandidate (id : model.UUID) (now : model.Time)
    (senderID targetID roomID : model.UUID) (candidate sdpMid : String)
    (sdpMLineIndex : Int) : Message :=
  { NewMessage id now MessageTypeICECandidate senderID roomID
      (.ice { Candidate := candidate, SDPMid := sdpMid, SDPMLineIndex := sdpMLineIndex })
    with TargetUserID := targetID }

namespace Message

/-- The method `IsValid`: the guard on `Type` and `RoomID`, then the `switch` on
`Type`, its cases tried in order. -/
def IsValid (m : Message) : Bool :=
  if m.Type_ = "" ∨ m.RoomID = uuid.Nil then
    false
  else if m.Type_ = MessageTypeChatMessage then
    decide (m.SenderUserID ≠ uuid.Nil)
  else if m.Type_ = MessageTypeWebRTCOffer ∨ m.Type_ = MessageTypeWebRTCAnswer ∨
      m.Type_ = MessageTypeICECandidate then
    decide (m.SenderUserID ≠ uuid.Nil) && decide (m.TargetUserID ≠ uuid.Nil)
  else if m.Type_ = MessageTypeMuteUser ∨ m.Type_ = MessageTypeAdmitUser then
    decide (m.SenderUserID ≠ uuid.Nil)
  else
    true

/-- The method `IsDirectMessage`. -/
def IsDirectMessage (m : Message) : Bool :=
  decide (m.TargetUserID ≠ uuid.Nil)

/-- The method `IsBroadcastMessage`. -/
def IsBroadcastMessage (m : Message) : Bool :=
  if m.Type_ = MessageTypeChatMessage ∨ m.Type_ = MessageTypeUserJoined ∨
      m.Type_ = MessageTypeUserLeft then
    true
  else
    false

end Message

/-- A user in the system. -/
structure User where
  ID : model.UUID
  GoogleID : String
  Email : String
  Name : String
  AvatarURL : String
  CreatedAt : model.Time
  deriving DecidableEq, Repr

/-- The function `NewUser`; `id` is the value of `uuid.New()` and `now` the value of
`time.Now()`. -/
def NewUser (id : model.UUID) (now : model.Time) (googleID email name avatarURL : String) :
    User :=
  { ID := id
    GoogleID := googleID
    Email := email
    Name := name
    AvatarURL := avatarURL
    CreatedAt := now }

namespace User

/-- The method `IsValid`. -/
def IsValid (u : User) : Bool :=
  decide (u.Email ≠ "") && decide (u.Name ≠ "")

/-- The method `UpdateProfile`: the user after the two guarded assignments. -/
def UpdateProfile (u : User) (name avatarURL : String) : User :=
  let u1 := if name ≠ "" then { u with Name := name } else u
  if avatarURL ≠ "" then { u1 with AvatarURL := avatarURL } else u1

end User

/-- A chat message to room 7 from user 3. -/
def chatSample : Message :=
  NewChatMessage 100 5 3 7 "hello" "Ann"

/-- A user record with every field set. -/
def userSample : User :=
  NewUser 3 0 "google123" "test@example.com" "Original Name" "original-avatar.jpg"

end domain

/-!
# The orchestrators

Shallow embedding of `backend/internal/usecase/room.go`,
`backend/internal/usecase/message.go` and `backend/internal/usecase/user.go`.

* The collaborator interfaces of `domain/repository` and `domain/service` are
  structures holding, for each method, the answer the collaborator gives to a call
  with given arguments.  Every orchestrator method calls each collaborator method
  at most once, so this covers every implementation and every store state; the
  one exception is `LoginUser`, whose fall-back to `CreateUser` asks
  `GetByGoogleID` a second time and gets the same answer.
* An orchestrator method returns an `Outcome`: the returned value and error, and
  the collaborator calls it made, in order, with their arguments.
* `context.Context` is not modelled.  `fmt.Errorf("msg: %w", err)` is the string
  `msg ++ ": " ++ err`.
* `clock k` is the value of the `k`-th `time.Now()` of a call, counted from 0, in
  nanoseconds since the Unix epoch; `Unix()` is the floor of the division by
  `10^9`.  Values of `uuid.New()` are parameters.
* The orchestrators name the user and message types `model.User` and
  `model.Message`; they are the types `User` and `Message`, with `NewChatMessage`
  and `IsValid`, of `domain/user.go` and `domain/message.go`.
-/

namespace service

/-- An active user session. -/
structure UserSession where
  UserID : model.UUID
  ConnectionID : String
  RoomID : model.UUID
  IsHost : Bool
  IsMuted : Bool
  ServerPod : String
  LastSeen : Int
  deriving DecidableEq, Repr

/-- The interface `SessionManager`. -/
structure SessionManager where
  CreateSession : model.UUID → String → Option String
  GetSession : model.UUID → Except String UserSession
  UpdateSession : UserSession → Option String
  DeleteSession : model.UUID → Option String
  GetActiveUsers : model.UUID → Except String (List model.UUID)

/-- The interface `RealtimeNotifier`. -/
structure RealtimeNotifier where
  NotifyRoomJoined : model.UUID → model.UUID → String → Option String
  NotifyRoomLeft : model.UUID → model.UUID → String → Option String
  NotifyUserMuted : model.UUID → model.UUID → Bool → Option String
  BroadcastChatMessage : domain.Message → Option String
  SendDirectMessage : domain.Message → Option String
  NotifyRoomUpdate : model.Room → Option String

end service

namespace repository

/-- The interface `repository.Room`. -/
structure Room where
  Create : model.Room → Option String
  GetByID : model.UUID → Except String model.Room
  GetByHostID : model.UUID → Except String (List model.Room)
  Update : model.Room → Option String
  Delete : model.UUID → Option String
  GetActiveRooms : Except String (List model.Room)
  CleanupExpiredRooms : Option String

/-- The interface `repository.User`. -/
structure User where
  Create : domain.User → Option String
  GetByID : model.UUID → Except String domain.User
  GetByGoogleID : String → Except String domain.User
  GetByEmail : String → Except String domain.User
  Update : domain.User → Option String
  Delete : model.UUID → Option String

/-- The interface `repository.Message`. -/
structure Message where
  SaveChatMessage : domain.Message → Option String
  GetChatHistory : model.UUID → Int → Except String (List domain.Message)
  DeleteChatHistory : model.UUID → Option String

end repository

namespace usecase

/-- The 64-bit signed integer with the low 64 bits of `x`. -/
def wrapInt64 (x : Int) : Int :=
  (x + 2 ^ 63) % 2 ^ 64 - 2 ^ 63

/-- The error `fmt.Errorf(msg + ": %w", err)`. -/
def Errorf (msg err : String) : String :=
  msg ++ ": " ++ err

/-- A call of a collaborator method, with its arguments. -/
inductive Event where
  | userCreate (user : domain.User)
  | userGetByID (id : model.UUID)
  | userGetByGoogleID (googleID : String)
  | userGetByEmail (email : String)
  | userUpdate (user : domain.User)
  | userDelete (id : model.UUID)
  | roomCreate (room : model.Room)
  | roomGetByID (id : model.UUID)
  | roomGetByHostID (hostID : model.UUID)
  | roomUpdate (room : model.Room)
  | roomDelete (id : model.UUID)
  | saveChatMessage (message : domain.Message)
  | getChatHistory (roomID : model.UUID) (limit : Int)
  | deleteChatHistory (roomID : model.UUID)
  | getSession (userID : model.UUID)
  | updateSession (session : service.UserSession)
  | deleteSession (userID : model.UUID)
  | notifyRoomJoined (roomID userID : model.UUID) (userName : String)
  | notifyRoomLeft (roomID userID : model.UUID) (userName : String)
  | notifyUserMuted (roomID userID : model.UUID) (isMuted : Bool)
  | broadcastChatMessage (message : domain.Message)
  | sendDirectMessage (message : domain.Message)
  | notifyRoomUpdate (room : model.Room)
  deriving DecidableEq, Repr

/-- A write to the room store: `Create`, `Update` or `Delete`. -/
def Event.isRoomWrite : Event → Bool
  | .roomCreate _ => true
  | .roomUpdate _ => true
  | .roomDelete _ => true
  | _ => false

/-- A call of the session manager. -/
def Event.isSession : Event → Bool
  | .getSession _ => true
  | .updateSession _ => true
  | .deleteSession _ => true
  | _ => false

/-- A call of the real-time notifier. -/
def Event.isNotify : Event → Bool
  | .notifyRoomJoined _ _ _ => true
  | .notifyRoomLeft _ _ _ => true
  | .notifyUserMuted _ _ _ => true
  | .broadcastChatMessage _ => true
  | .sendDirectMessage _ => true
  | .notifyRoomUpdate _ => true
  | _ => false

/-- A call of the chat history store. -/
def Event.isHistory : Event → Bool
  | .saveChatMessage _ => true
  | .getChatHistory _ _ => true
  | .deleteChatHistory _ => true
  | _ => false

/-- What a call of an orchestrator method returns (`.ok v` with a nil error,
`.error msg` otherwise) and the collaborator calls it made, in order. -/
structure Outcome (α : Type) where
  ret : Except String α
  calls : List Event

/-- The orchestrator `usecase.Room`. -/
structure Room where
  roomRepo : repository.Room
  userRepo : repository.User
  realtimeNotifier : service.RealtimeNotifier
  sessionManager : service.SessionManager

/-- The orchestrator `usecase.Message`. -/
structure Message where
  messageRepo : repository.Message
  roomRepo : repository.Room
  userRepo : repository.User
  realtimeNotifier : service.RealtimeNotifier

namespace Room

/-- The method `CreateRoom`; `id` is the value of `uuid.New()` in `NewRoom`,
`clock 0` the reading of `NewRoom`, `clock 1` and `clock 2` those of
`AddParticipant`. -/
def CreateRoom (r : Room) (id : model.UUID) (clock : Nat → model.Time)
    (hostID : model.UUID) (name : String) (isWaitingRoom : Bool) : Outcome model.Room :=
  match r.userRepo.GetByID hostID with
  | .error err => ⟨.error (Errorf "host not found" err), [.userGetByID hostID]⟩
  | .ok _ =>
    let room := model.NewRoom id (clock 0) name hostID isWaitingRoom
    let added := room.AddParticipant hostID (clock 1) (clock 2)
    match added.2 with
    | some err => ⟨.error (Errorf "failed to add host to room" err), [.userGetByID hostID]⟩
    | none =>
      match r.roomRepo.Create added.1 with
      | some err =>
        ⟨.error (Errorf "failed to create room" err),
          [.userGetByID hostID, .roomCreate added.1]⟩
      | none => ⟨.ok added.1, [.userGetByID hostID, .roomCreate added.1]⟩

/-- The method `JoinRoom`; `clock 0` is the reading of `IsExpired`, `clock 1` and
`clock 2` those of `AddParticipant`, `clock 3` that of `LastSeen`. -/
def JoinRoom (r : Room) (clock : Nat → model.Time) (userID roomID : model.UUID) :
    Outcome Unit :=
  match r.userRepo.GetByID userID with
  | .error err => ⟨.error (Errorf "user not found" err), [.userGetByID userID]⟩
  | .ok user =>
    match r.roomRepo.GetByID roomID with
    | .error err =>
      ⟨.error (Errorf "room not found" err), [.userGetByID userID, .roomGetByID roomID]⟩
    | .ok room =>
      if room.IsExpired (clock 0) then
        ⟨.error "room has expired", [.userGetByID userID, .roomGetByID roomID]⟩
      else
        let added := room.AddParticipant userID (clock 1) (clock 2)
        match added.2 with
        | some err =>
          ⟨.error (Errorf "failed to add participant" err),
            [.userGetByID userID, .roomGetByID roomID]⟩
        | none =>
          match r.roomRepo.Update added.1 with
          | some err =>
            ⟨.error (Errorf "failed to update room" err),
              [.userGetByID userID, .roomGetByID roomID, .roomUpdate added.1]⟩
          | none =>
            ⟨.ok (),
              [.userGetByID userID, .roomGetByID roomID, .roomUpdate added.1,
               .updateSession
                 { UserID := userID
                   ConnectionID := ""
                   RoomID := roomID
                   IsHost := added.1.IsHost userID
                   IsMuted := false
                   ServerPod := ""
                   LastSeen := clock 3 / 1000000000 },
               .notifyRoomJoined roomID userID user.Name]⟩

/-- The method `LeaveRoom`. -/
def LeaveRoom (r : Room) (userID roomID : model.UUID) : Outcome Unit :=
  match r.userRepo.GetByID userID with
  | .error err => ⟨.error (Errorf "user not found" err), [.userGetByID userID]⟩
  | .ok user =>
    match r.roomRepo.GetByID roomID with
    | .error err =>
      ⟨.error (Errorf "room not found" err), [.userGetByID userID, .roomGetByID roomID]⟩
    | .ok room =>
      let removed := room.RemoveParticipant userID
      match removed.2 with
      | some err =>
        ⟨.error (Errorf "failed to remove participant" err),
          [.userGetByID userID, .roomGetByID roomID]⟩
      | none =>
        if removed.1.GetParticipantCount = 0 then
          match r.roomRepo.Delete roomID with
          | some err =>
            ⟨.error (Errorf "failed to delete empty room" err),
              [.userGetByID userID, .roomGetByID roomID, .roomDelete roomID]⟩
          | none =>
            ⟨.ok (),
              [.userGetByID userID, .roomGetByID roomID, .roomDelete roomID,
               .deleteSession userID, .notifyRoomLeft roomID userID user.Name]⟩
        else
          match r.roomRepo.Update removed.1 with
          | some err =>
            ⟨.error (Errorf "failed to update room" err),
              [.userGetByID userID, .roomGetByID roomID, .roomUpdate removed.1]⟩
          | none =>
            ⟨.ok (),
              [.userGetByID userID, .roomGetByID roomID, .roomUpdate removed.1,
               .deleteSession userID, .notifyRoomLeft roomID userID user.Name]⟩

/-- The method `GetRoom`; `clock 0` is the reading of `IsExpired`. -/
def GetRoom (r : Room) (clock : Nat → model.Time) (roomID : model.UUID) :
    Outcome model.Room :=
  match r.roomRepo.GetByID roomID with
  | .error err => ⟨.error (Errorf "room not found" err), [.roomGetByID roomID]⟩
  | .ok room =>
    if room.IsExpired (clock 0) then
      ⟨.error "room has expired", [.roomGetByID roomID]⟩
    else
      ⟨.ok room, [.roomGetByID roomID]⟩

/-- The loop of `GetUserRooms` over the rooms still to visit, `i` rooms having been
visited and `activeRooms` collected; the `i`-th iteration reads `clock i`. -/
def activeLoop (clock : Nat → model.Time) :
    List model.Room → Nat → List model.Room → List model.Room
  | [], _, activeRooms => activeRooms
  | room :: rest, i, activeRooms =>
    if !room.IsExpired (clock i) then
      activeLoop clock rest (i + 1) (activeRooms ++ [room])
    else
      activeLoop clock rest (i + 1) activeRooms

/-- The method `GetUserRooms`. -/
def GetUserRooms (r : Room) (clock : Nat → model.Time) (userID : model.UUID) :
    Outcome (List model.Room) :=
  match r.roomRepo.GetByHostID userID with
  | .error err => ⟨.error (Errorf "failed to get user rooms" err), [.roomGetByHostID userID]⟩
  | .ok rooms => ⟨.ok (activeLoop clock rooms 0 []), [.roomGetByHostID userID]⟩

/-- The method `ExtendRoomExpiry`; the duration `time.Duration(hours) * time.Hour` is
the product of two 64-bit signed integers, which keeps the low 64 bits. -/
def ExtendRoomExpiry (r : Room) (hostID roomID : model.UUID) (hours : Int) : Outcome Unit :=
  match r.roomRepo.GetByID roomID with
  | .error err => ⟨.error (Errorf "room not found" err), [.roomGetByID roomID]⟩
  | .ok room =>
    if !room.IsHost hostID then
      ⟨.error "only host can extend room expiry", [.roomGetByID roomID]⟩
    else
      let extended := room.ExtendExpiry (wrapInt64 (hours * model.Hour))
      match r.roomRepo.Update extended with
      | some err =>
        ⟨.error (Errorf "failed to update room" err),
          [.roomGetByID roomID, .roomUpdate extended]⟩
      | none =>
        ⟨.ok (), [.roomGetByID roomID, .roomUpdate extended, .notifyRoomUpdate extended]⟩

end Room

namespace Message

/-- The method `SendMessage`; `id` is the value of `uuid.New()` and `clock 1` the
reading of `time.Now()` in `NewMessage`, `clock 0` the reading of `IsExpired`. -/
def SendMessage (c : Message) (id : model.UUID) (clock : Nat → model.Time)
    (senderID roomID : model.UUID) (messageText : String) : Outcome Unit :=
  match c.userRepo.GetByID senderID with
  | .error err => ⟨.error (Errorf "user not found" err), [.userGetByID senderID]⟩
  | .ok user =>
    match c.roomRepo.GetByID roomID with
    | .error err =>
      ⟨.error (Errorf "room not found" err), [.userGetByID senderID, .roomGetByID roomID]⟩
    | .ok room =>
      if room.IsExpired (clock 0) then
        ⟨.error "room has expired", [.userGetByID senderID, .roomGetByID roomID]⟩
      else if !room.IsParticipant senderID then
        ⟨.error "user is not a participant in this room",
          [.userGetByID senderID, .roomGetByID roomID]⟩
      else
        let message := domain.NewChatMessage id (clock 1) senderID roomID messageText user.Name
        if !message.IsValid then
          ⟨.error "invalid message", [.userGetByID senderID, .roomGetByID roomID]⟩
        else
          match c.messageRepo.SaveChatMessage message with
          | some err =>
            ⟨.error (Errorf "failed to save message" err),
              [.userGetByID senderID, .roomGetByID roomID, .saveChatMessage message]⟩
          | none =>
            ⟨.ok (),
              [.userGetByID senderID, .roomGetByID roomID, .saveChatMessage message,
               .broadcastChatMessage message]⟩

end Message

/-- The orchestrator method `MuteParticipant` of `usecase.Room`. -/
def Room.MuteParticipant (r : Room) (hostID roomID targetUserID : model.UUID) : Outcome Unit :=
  match r.roomRepo.GetByID roomID with
  | .error err => ⟨.error (Errorf "room not found" err), [.roomGetByID roomID]⟩
  | .ok room =>
    let muted := room.MuteParticipant hostID targetUserID
    match muted.2 with
    | some err => ⟨.error (Errorf "failed to mute participant" err), [.roomGetByID roomID]⟩
    | none =>
      match r.roomRepo.Update muted.1 with
      | some err =>
        ⟨.error (Errorf "failed to update room" err),
          [.roomGetByID roomID, .roomUpdate muted.1]⟩
      | none =>
        match r.sessionManager.GetSession targetUserID with
        | .ok session =>
          ⟨.ok (),
            [.roomGetByID roomID, .roomUpdate muted.1, .getSession targetUserID,
             .updateSession { session with IsMuted := true },
             .notifyUserMuted roomID targetUserID true]⟩
        | .error _ =>
          ⟨.ok (),
            [.roomGetByID roomID, .roomUpdate muted.1, .getSession targetUserID,
             .notifyUserMuted roomID targetUserID true]⟩

/-- The orchestrator method `UnmuteParticipant` of `usecase.Room`. -/
def Room.UnmuteParticipant (r : Room) (userID roomID : model.UUID) : Outcome Unit :=
  match r.roomRepo.GetByID roomID with
  | .error err => ⟨.error (Errorf "room not found" err), [.roomGetByID roomID]⟩
  | .ok room =>
    let unmuted := room.UnmuteParticipant userID
    match unmuted.2 with
    | some err => ⟨.error (Errorf "failed to unmute participant" err), [.roomGetByID roomID]⟩
    | none =>
      match r.roomRepo.Update unmuted.1 with
      | some err =>
        ⟨.error (Errorf "failed to update room" err),
          [.roomGetByID roomID, .roomUpdate unmuted.1]⟩
      | none =>
        match r.sessionManager.GetSession userID with
        | .ok session =>
          ⟨.ok (),
            [.roomGetByID roomID, .roomUpdate unmuted.1, .getSession userID,
             .updateSession { session with IsMuted := false },
             .notifyUserMuted roomID userID false]⟩
        | .error _ =>
          ⟨.ok (),
            [.roomGetByID roomID, .roomUpdate unmuted.1, .getSession userID,
             .notifyUserMuted roomID userID false]⟩

/-- The method `GetHistory`. -/
def Message.GetHistory (c : Message) (userID roomID : model.UUID) (limit : Int) :
    Outcome (List domain.Message) :=
  match c.roomRepo.GetByID roomID with
  | .error err => ⟨.error (Errorf "room not found" err), [.roomGetByID roomID]⟩
  | .ok room =>
    if !room.IsParticipant userID then
      ⟨.error "user is not a participant in this room", [.roomGetByID roomID]⟩
    else
      let limit1 := if limit ≤ 0 then 50 else limit
      match c.messageRepo.GetChatHistory roomID limit1 with
      | .error err =>
        ⟨.error (Errorf "failed to get chat history" err),
          [.roomGetByID roomID, .getChatHistory roomID limit1]⟩
      | .ok messages => ⟨.ok messages, [.roomGetByID roomID, .getChatHistory roomID limit1]⟩

/-- The method `DeleteHistory`. -/
def Message.DeleteHistory (c : Message) (hostID roomID : model.UUID) : Outcome Unit :=
  match c.roomRepo.GetByID roomID with
  | .error err => ⟨.error (Errorf "room not found" err), [.roomGetByID roomID]⟩
  | .ok room =>
    if !room.IsHost hostID then
      ⟨.error "only host can delete chat history", [.roomGetByID roomID]⟩
    else
      match c.messageRepo.DeleteChatHistory roomID with
      | some err =>
        ⟨.error (Errorf "failed to delete chat history" err),
          [.roomGetByID roomID, .deleteChatHistory roomID]⟩
      | none => ⟨.ok (), [.roomGetByID roomID, .deleteChatHistory roomID]⟩

/-- The orchestrator `usecase.User`. -/
structure User where
  userRepo : repository.User
  realtimeNotifier : service.RealtimeNotifier
  sessionManager : service.SessionManager

/-- The method `CreateUser`; `id` is the value of `uuid.New()` and `clock 0` the
reading of `time.Now()` in `NewUser`. -/
def User.CreateUser (u : User) (id : model.UUID) (clock : Nat → model.Time)
    (googleID email name avatarURL : String) : Outcome domain.User :=
  match u.userRepo.GetByGoogleID googleID with
  | .ok existingUser => ⟨.ok existingUser, [.userGetByGoogleID googleID]⟩
  | .error _ =>
    let user := domain.NewUser id (clock 0) googleID email name avatarURL
    if !user.IsValid then
      ⟨.error "invalid user data: email and name are required",
        [.userGetByGoogleID googleID]⟩
    else
      match u.userRepo.Create user with
      | some err =>
        ⟨.error (Errorf "failed to create user" err),
          [.userGetByGoogleID googleID, .userCreate user]⟩
      | none => ⟨.ok user, [.userGetByGoogleID googleID, .userCreate user]⟩

/-- The orchestrator method `UpdateProfile` of `usecase.User`. -/
def User.UpdateProfile (u : User) (userID : model.UUID) (name avatarURL : String) :
    Outcome Unit :=
  match u.userRepo.GetByID userID with
  | .error err => ⟨.error (Errorf "user not found" err), [.userGetByID userID]⟩
  | .ok user =>
    let patched := user.UpdateProfile name avatarURL
    if !patched.IsValid then
      ⟨.error "invalid user data: email and name are required", [.userGetByID userID]⟩
    else
      match u.userRepo.Update patched with
      | some err =>
        ⟨.error (Errorf "failed to update user" err),
          [.userGetByID userID, .userUpdate patched]⟩
      | none => ⟨.ok (), [.userGetByID userID, .userUpdate patched]⟩

/-- The method `LoginUser`; when `GetByGoogleID` fails it returns what `CreateUser`
returns, the calls of `CreateUser` following its own. -/
def User.LoginUser (u : User) (id : model.UUID) (clock : Nat → model.Time)
    (googleID email name avatarURL : String) : Outcome domain.User :=
  match u.userRepo.GetByGoogleID googleID with
  | .error _ =>
    ⟨(u.CreateUser id clock googleID email name avatarURL).ret,
      .userGetByGoogleID googleID :: (u.CreateUser id clock googleID email name avatarURL).calls⟩
  | .ok user =>
    if user.Name ≠ name ∨ user.AvatarURL ≠ avatarURL then
      let patched := user.UpdateProfile name avatarURL
      match u.userRepo.Update patched with
      | some err =>
        ⟨.error (Errorf "failed to update user profile" err),
          [.userGetByGoogleID googleID, .userUpdate patched]⟩
      | none => ⟨.ok patched, [.userGetByGoogleID googleID, .userUpdate patched]⟩
    else
      ⟨.ok user, [.userGetByGoogleID googleID]⟩

/-- A write to the user store: `Create`, `Update` or `Delete`. -/
def Event.isUserWrite : Event → Bool
  | .userCreate _ => true
  | .userUpdate _ => true
  | .userDelete _ => true
  | _ => false

/-- A user store that holds `userSample` under ID 3 and a user with the nil UUID
under the nil UUID, and accepts every write. -/
def sampleUsers : repository.User :=
  { Create := fun _ => none
    GetByID := fun id =>
      if id = 3 then .ok domain.userSample
      else if id = uuid.Nil then .ok { domain.userSample with ID := uuid.Nil, Name := "Nobody" }
      else .error "no rows"
    GetByGoogleID := fun _ => .error "no rows"
    GetByEmail := fun _ => .error "no rows"
    Update := fun _ => none
    Delete := fun _ => none }

/-- The room made by `NewRoom` at time 0 for host 1, after `AddParticipant(uuid.Nil)`
at time 1. -/
def nilRoom : model.Room :=
  ((model.NewRoom 7 0 "open" 1 false).AddParticipant uuid.Nil 1 1).1

/-- A room holding the single participant 3, its host. -/
def soloRoom : model.Room :=
  ((model.NewRoom 6 0 "solo" 3 false).AddParticipant 3 1 1).1

/-- A room store that holds `soloRoom` under ID 6, `nilRoom` under ID 7, `openRoom`
under ID 8 and `fullRoom` under ID 9, lists these for every host, accepts every
`Create` and `Delete` and refuses every `Update`. -/
def sampleRooms : repository.Room :=
  { Create := fun _ => none
    GetByID := fun id =>
      if id = 6 then .ok soloRoom
      else if id = 7 then .ok nilRoom
      else if id = 8 then .ok model.openRoom
      else if id = 9 then .ok model.fullRoom
      else .error "no rows"
    GetByHostID := fun _ => .ok [soloRoom, model.openRoom, nilRoom, model.fullRoom]
    Update := fun _ => some "connection lost"
    Delete := fun _ => none
    GetActiveRooms := .ok []
    CleanupExpiredRooms := none }

/-- A notifier whose every call fails. -/
def deafNotifier : service.RealtimeNotifier :=
  { NotifyRoomJoined := fun _ _ _ => some "no listeners"
    NotifyRoomLeft := fun _ _ _ => some "no listeners"
    NotifyUserMuted := fun _ _ _ => some "no listeners"
    BroadcastChatMessage := fun _ => some "no listeners"
    SendDirectMessage := fun _ => some "no listeners"
    NotifyRoomUpdate := fun _ => some "no listeners" }

/-- A session manager without sessions whose every write fails. -/
def lostSessions : service.SessionManager :=
  { CreateSession := fun _ _ => some "redis down"
    GetSession := fun _ => .error "no session"
    UpdateSession := fun _ => some "redis down"
    DeleteSession := fun _ => some "redis down"
    GetActiveUsers := fun _ => .ok [] }

/-- A history store that accepts every message. -/
def sampleHistory : repository.Message :=
  { SaveChatMessage := fun _ => none
    GetChatHistory := fun _ _ => .ok []
    DeleteChatHistory := fun _ => none }

/-- The room orchestrator over the sample collaborators. -/
def sampleRoomUsecase : Room :=
  { roomRepo := sampleRooms
    userRepo := sampleUsers
    realtimeNotifier := deafNotifier
    sessionManager := lostSessions }

/-- The message orchestrator over the sample collaborators. -/
def sampleMessageUsecase : Message :=
  { messageRepo := sampleHistory
    roomRepo := sampleRooms
    userRepo := sampleUsers
    realtimeNotifier := deafNotifier }

/-- A user store that holds `userSample` under ID 3 and Google ID `google123`, and
refuses every write. -/
def knownUsers : repository.User :=
  { Create := fun _ => some "connection lost"
    GetByID := fun id => if id = 3 then .ok domain.userSample else .error "no rows"
    GetByGoogleID := fun googleID =>
      if googleID = "google123" then .ok domain.userSample else .error "no rows"
    GetByEmail := fun _ => .error "no rows"
    Update := fun _ => some "connection lost"
    Delete := fun _ => some "connection lost" }

/-- The user orchestrator over the store that accepts every write. -/
def sampleUserUsecase : User :=
  { userRepo := sampleUsers
    realtimeNotifier := deafNotifier
    sessionManager := lostSessions }

/-- The user orchestrator over the store that refuses every write. -/
def knownUserUsecase : User :=
  { userRepo := knownUsers
    realtimeNotifier := deafNotifier
    sessionManager := lostSessions }

/-- The room orchestrator over the sample room store made to accept every
`Update`. -/
def acceptingRoomUsecase : Room :=
  { sampleRoomUsecase with roomRepo := { sampleRooms with Update := fun _ => none } }

/-- A clock that stands at 50 ns. -/
def noon : Nat → model.Time :=
  fun _ => 50

/-- A clock that reads 0 first and then a time more than 24 hours later. -/
def stalled : Nat → model.Time :=
  fun k => if k = 0 then 0 else 24 * model.Hour + 1

/-- A clock that reads 100 twice and 101 from then on. -/
def ticking : Nat → model.Time :=
  fun k => if k < 2 then 100 else 101

end usecase

namespace model

/-! ## The roster loops -/

theorem alreadyIn_iff (ps : List Participant) (userID : UUID) :
    alreadyIn ps userID = true ↔ userID ∈ ps.map Participant.UserID := by
  induction ps with
  | nil => simp [alreadyIn]
  | cons p ps ih =>
    by_cases h : p.UserID = userID
    · simp [alreadyIn, h]
    · have h' : ¬ userID = p.UserID := fun e => h e.symm
      simp only [alreadyIn, h, if_false, ih, List.map_cons, List.mem_cons, h', false_or]

theorem alreadyIn_eq_false_iff (ps : List Participant) (userID : UUID) :
    alreadyIn ps userID = false ↔ userID ∉ ps.map Participant.UserID := by
  rw [← alreadyIn_iff]; simp

theorem findFrom_eq_none_iff (ps : List Participant) (userID : UUID) (i : Nat) :
    findFrom ps userID i = none ↔ userID ∉ ps.map Participant.UserID := by
  induction ps generalizing i with
  | nil => simp [findFrom]
  | cons p ps ih =>
    by_cases h : p.UserID = userID
    · simp [findFrom, h]
    · have h' : ¬ userID = p.UserID := fun e => h e.symm
      simp only [findFrom, h, if_false, ih, List.map_cons, List.mem_cons, h', false_or]

/-- When the loop returns at index `j`, the roster splits at the first entry
with the user ID, and `j` is the position of that entry. -/
theorem findFrom_eq_some (ps : List Participant) (userID : UUID) (i j : Nat)
    (h : findFrom ps userID i = some j) :
    ∃ pre p post, ps = pre ++ p :: post ∧ p.UserID = userID ∧
      (∀ q ∈ pre, q.UserID ≠ userID) ∧ j = i + pre.length := by
  induction ps generalizing i with
  | nil => simp [findFrom] at h
  | cons p ps ih =>
    by_cases hp : p.UserID = userID
    · simp only [findFrom, hp, if_true, Option.some.injEq] at h
      exact ⟨[], p, ps, rfl, hp, by simp, by simp [h]⟩
    · simp only [findFrom, hp, if_false] at h
      obtain ⟨pre, q, post, hps, hq, hpre, hj⟩ := ih (i + 1) h
      refine ⟨p :: pre, q, post, by simp [hps], hq, ?_, by simp [hj]; omega⟩
      intro x hx
      rcases List.mem_cons.1 hx with rfl | hx
      · exact hp
      · exact hpre x hx

theorem findFrom_split (pre post : List Participant) (p : Participant) (userID : UUID)
    (i : Nat) (hp : p.UserID = userID) (hpre : ∀ q ∈ pre, q.UserID ≠ userID) :
    findFrom (pre ++ p :: post) userID i = some (i + pre.length) := by
  induction pre generalizing i with
  | nil => simp [findFrom, hp]
  | cons q pre ih =>
    have hq : q.UserID ≠ userID := hpre q (List.mem_cons_self _ _)
    have := ih (i + 1) (fun x hx => hpre x (List.mem_cons_of_mem _ hx))
    show findFrom (q :: (pre ++ p :: post)) userID i = _
    rw [findFrom, if_neg hq, this, List.length_cons]
    exact congrArg some (by omega)

theorem take_drop_split (pre post : List Participant) (p : Participant) :
    (pre ++ p :: post).take pre.length ++ (pre ++ p :: post).drop (pre.length + 1)
      = pre ++ post := by
  induction pre with
  | nil => simp
  | cons q pre ih => simp

theorem storeMuted_split (pre post : List Participant) (p : Participant) (b : Bool) :
    storeMuted (pre ++ p :: post) pre.length b = pre ++ { p with IsMuted := b } :: post := by
  induction pre with
  | nil => simp [storeMuted]
  | cons q pre ih => simp [storeMuted, ih]

theorem storeMuted_length (ps : List Participant) (i : Nat) (b : Bool) :
    (storeMuted ps i b).length = ps.length := by
  induction ps generalizing i with
  | nil => simp [storeMuted]
  | cons p ps ih => cases i <;> simp [storeMuted, ih]

theorem storeMuted_userIDs (ps : List Participant) (i : Nat) (b : Bool) :
    (storeMuted ps i b).map Participant.UserID = ps.map Participant.UserID := by
  induction ps generalizing i with
  | nil => simp [storeMuted]
  | cons p ps ih => cases i <;> simp [storeMuted, ih]

/-! ## The aggregate's methods on a split roster -/

theorem GetParticipant_absent (r : Room) (userID : UUID)
    (h : userID ∉ r.Participants.map Participant.UserID) :
    r.GetParticipant userID = .error "participant not found" := by
  unfold Room.GetParticipant
  rw [(findFrom_eq_none_iff r.Participants userID 0).2 h]

theorem GetParticipant_present (r : Room) (userID : UUID) (pre post : List Participant)
    (p : Participant) (hps : r.Participants = pre ++ p :: post) (hp : p.UserID = userID)
    (hpre : ∀ q ∈ pre, q.UserID ≠ userID) :
    r.GetParticipant userID = .ok pre.length := by
  unfold Room.GetParticipant
  rw [hps, findFrom_split pre post p userID 0 hp hpre]
  simp

/-- Every roster that holds the user ID splits at the first entry with it. -/
theorem roster_split (ps : List Participant) (userID : UUID)
    (h : userID ∈ ps.map Participant.UserID) :
    ∃ pre p post, ps = pre ++ p :: post ∧ p.UserID = userID ∧
      ∀ q ∈ pre, q.UserID ≠ userID := by
  cases hf : findFrom ps userID 0 with
  | none => exact absurd h ((findFrom_eq_none_iff ps userID 0).1 hf)
  | some j =>
    obtain ⟨pre, p, post, hps, hp, hpre, _⟩ := findFrom_eq_some ps userID 0 j hf
    exact ⟨pre, p, post, hps, hp, hpre⟩

theorem IsParticipant_iff (r : Room) (userID : UUID) :
    r.IsParticipant userID = true ↔ userID ∈ r.Participants.map Participant.UserID := by
  constructor
  · intro h
    by_contra hn
    rw [Room.IsParticipant, GetParticipant_absent r userID hn] at h
    simp at h
  · intro h
    obtain ⟨pre, p, post, hps, hp, hpre⟩ := roster_split r.Participants userID h
    rw [Room.IsParticipant, GetParticipant_present r userID pre post p hps hp hpre]

theorem RemoveParticipant_absent (r : Room) (userID : UUID)
    (h : userID ∉ r.Participants.map Participant.UserID) :
    r.RemoveParticipant userID = (r, some "participant not found") := by
  unfold Room.RemoveParticipant
  rw [(findFrom_eq_none_iff r.Participants userID 0).2 h]

theorem RemoveParticipant_present (r : Room) (userID : UUID) (pre post : List Participant)
    (p : Participant) (hps : r.Participants = pre ++ p :: post) (hp : p.UserID = userID)
    (hpre : ∀ q ∈ pre, q.UserID ≠ userID) :
    r.RemoveParticipant userID = ({ r with Participants := pre ++ post }, none) := by
  unfold Room.RemoveParticipant
  rw [hps, findFrom_split pre post p userID 0 hp hpre]
  simp only [Nat.zero_add, take_drop_split]

theorem MuteParticipant_present (r : Room) (targetUserID : UUID)
    (pre post : List Participant) (p : Participant)
    (hps : r.Participants = pre ++ p :: post) (hp : p.UserID = targetUserID)
    (hpre : ∀ q ∈ pre, q.UserID ≠ targetUserID) :
    r.MuteParticipant r.HostID targetUserID
      = ({ r with Participants := pre ++ { p with IsMuted := true } :: post }, none) := by
  unfold Room.MuteParticipant
  rw [GetParticipant_present r targetUserID pre post p hps hp hpre]
  simp only [ne_eq, not_true_eq_false, if_false, hps, storeMuted_split]

theorem UnmuteParticipant_present (r : Room) (userID : UUID)
    (pre post : List Participant) (p : Participant)
    (hps : r.Participants = pre ++ p :: post) (hp : p.UserID = userID)
    (hpre : ∀ q ∈ pre, q.UserID ≠ userID) :
    r.UnmuteParticipant userID
      = ({ r with Participants := pre ++ { p with IsMuted := false } :: post }, none) := by
  unfold Room.UnmuteParticipant
  rw [GetParticipant_present r userID pre post p hps hp hpre]
  simp only [hps, storeMuted_split]

/-! ## Preservation of the roster invariant, call by call -/

theorem RosterInv_AddParticipant (r : Room) (userID : UUID) (now joinedAt : Time)
    (h : RosterInv r) : RosterInv (r.AddParticipant userID now joinedAt).1 := by
  unfold Room.AddParticipant
  split_ifs with h1 h2 h3
  · exact h
  · exact h
  · exact h
  · have hu : userID ∉ r.Participants.map Participant.UserID :=
      (alreadyIn_eq_false_iff _ _).1 (by simpa using h1)
    refine ⟨?_, ?_⟩
    · simp only [List.length_append, List.length_singleton, Nat.cast_add, Nat.cast_one]
      omega
    · simp only [List.map_append, List.map_cons, List.map_nil]
      exact List.Nodup.append h.2 (List.nodup_singleton _)
        (by simpa [List.disjoint_singleton] using hu)

theorem RosterInv_RemoveParticipant (r : Room) (userID : UUID) (h : RosterInv r) :
    RosterInv (r.RemoveParticipant userID).1 := by
  by_cases hu : userID ∈ r.Participants.map Participant.UserID
  · obtain ⟨pre, p, post, hps, hp, hpre⟩ := roster_split r.Participants userID hu
    rw [RemoveParticipant_present r userID pre post p hps hp hpre]
    obtain ⟨hlen, hnd⟩ := h
    rw [hps] at hlen hnd
    refine ⟨?_, ?_⟩
    · simp only [List.length_append, List.length_cons, Nat.cast_add, Nat.cast_one] at hlen ⊢
      omega
    · have hsub : List.Sublist (pre ++ post) (pre ++ p :: post) :=
        List.Sublist.append_left (List.sublist_cons_self p post) pre
      exact List.Nodup.sublist (hsub.map Participant.UserID) hnd
  · rw [RemoveParticipant_absent r userID hu]
    exact h

theorem RosterInv_storeMuted (r : Room) (i : Nat) (b : Bool) (h : RosterInv r) :
    RosterInv { r with Participants := storeMuted r.Participants i b } := by
  unfold RosterInv
  simp only [storeMuted_length, storeMuted_userIDs]
  exact h

theorem RosterInv_MuteParticipant (r : Room) (hostID targetUserID : UUID)
    (h : RosterInv r) : RosterInv (r.MuteParticipant hostID targetUserID).1 := by
  unfold Room.MuteParticipant
  split_ifs
  · exact h
  · cases r.GetParticipant targetUserID with
    | error e => exact h
    | ok i => exact RosterInv_storeMuted r i true h

theorem RosterInv_UnmuteParticipant (r : Room) (userID : UUID) (h : RosterInv r) :
    RosterInv (r.UnmuteParticipant userID).1 := by
  unfold Room.UnmuteParticipant
  cases r.GetParticipant userID with
  | error e => exact h
  | ok i => exact RosterInv_storeMuted r i false h

theorem RosterInv_call (r : Room) (c : Call) (h : RosterInv r) : RosterInv (r.call c).1 := by
  cases c with
  | add userID now joinedAt => exact RosterInv_AddParticipant r userID now joinedAt h
  | remove userID => exact RosterInv_RemoveParticipant r userID h
  | mute hostID targetUserID => exact RosterInv_MuteParticipant r hostID targetUserID h
  | unmute userID => exact RosterInv_UnmuteParticipant r userID h
  | extend duration => exact h

theorem RosterInv_calls (r : Room) (cs : List Call) (h : RosterInv r) :
    RosterInv (r.calls cs) := by
  induction cs generalizing r with
  | nil => exact h
  | cons c cs ih => exact ih (r.call c).1 (RosterInv_call r c h)

theorem RosterInv_NewRoom (id : UUID) (now : Time) (name : String) (hostID : UUID)
    (isWaitingRoom : Bool) : RosterInv (NewRoom id now name hostID isWaitingRoom) := by
  simp [RosterInv, NewRoom]

/-! ## Runs of `AddParticipant` -/

theorem AddParticipant_error (r : Room) (userID : UUID) (now joinedAt : Time) :
    (r.AddParticipant userID now joinedAt).2 =
      if userID ∈ r.Participants.map Participant.UserID then some "user already in room"
      else if (r.Participants.length : Int) ≥ r.MaxCapacity then some "room is full"
      else if r.ExpiresAt < now then some "room has expired"
      else none := by
  unfold Room.AddParticipant
  by_cases hu : userID ∈ r.Participants.map Participant.UserID
  · rw [if_pos ((alreadyIn_iff _ _).2 hu), if_pos hu]
  · have hf : ¬ (alreadyIn r.Participants userID = true) := fun e => hu ((alreadyIn_iff _ _).1 e)
    rw [if_neg hf, if_neg hu]
    split_ifs <;> rfl

theorem AddParticipant_ok (r : Room) (userID : UUID) (now joinedAt : Time)
    (hu : userID ∉ r.Participants.map Participant.UserID)
    (hcap : (r.Participants.length : Int) < r.MaxCapacity) (ht : now ≤ r.ExpiresAt) :
    r.AddParticipant userID now joinedAt =
      ({ r with Participants := r.Participants ++
          [{ UserID := userID, IsHost := decide (userID = r.HostID), IsMuted := false,
             JoinedAt := joinedAt }] }, none) := by
  have hf : ¬ (alreadyIn r.Participants userID = true) := fun e => hu ((alreadyIn_iff _ _).1 e)
  unfold Room.AddParticipant
  rw [if_neg hf, if_neg (not_le.2 hcap), if_neg (not_lt.2 ht)]

theorem addEach_append (r : Room) (xs ys : List (UUID × Time × Time)) :
    r.addEach (xs ++ ys) =
      (((r.addEach xs).1.addEach ys).1, (r.addEach xs).2 ++ ((r.addEach xs).1.addEach ys).2) := by
  induction xs generalizing r with
  | nil => simp [Room.addEach]
  | cons x xs ih =>
    obtain ⟨u, n, j⟩ := x
    rw [List.cons_append]
    simp only [Room.addEach, ih]
    rfl

/-- A run of adds of distinct users, none of them on the roster, read at times not
after `ExpiresAt`, and fitting under the capacity: every call succeeds. -/
theorem addEach_fresh (adds : List (UUID × Time × Time)) (r : Room)
    (hnd : (adds.map Prod.fst).Nodup)
    (hfresh : ∀ a ∈ adds, a.1 ∉ r.Participants.map Participant.UserID)
    (ht : ∀ a ∈ adds, a.2.1 ≤ r.ExpiresAt)
    (hcap : (r.Participants.length : Int) + adds.length ≤ r.MaxCapacity) :
    (r.addEach adds).2 = List.replicate adds.length none ∧
    (r.addEach adds).1.Participants.map Participant.UserID
      = r.Participants.map Participant.UserID ++ adds.map Prod.fst ∧
    (r.addEach adds).1.MaxCapacity = r.MaxCapacity ∧
    (r.addEach adds).1.ExpiresAt = r.ExpiresAt := by
  induction adds generalizing r with
  | nil => simp [Room.addEach]
  | cons a rest ih =>
    obtain ⟨u, n, j⟩ := a
    have hu : u ∉ r.Participants.map Participant.UserID := hfresh (u, n, j) (List.mem_cons_self _ _)
    have hn : n ≤ r.ExpiresAt := ht (u, n, j) (List.mem_cons_self _ _)
    have hlt : (r.Participants.length : Int) < r.MaxCapacity := by
      simp only [List.length_cons, Nat.cast_add, Nat.cast_one] at hcap
      omega
    have hadd := AddParticipant_ok r u n j hu hlt hn
    simp only [List.map_cons, List.nodup_cons] at hnd
    have hrec := ih (r.AddParticipant u n j).1 hnd.2
      (by
        intro b hb
        rw [hadd]
        simp only [List.map_append, List.map_cons, List.map_nil, List.mem_append,
          List.mem_singleton, not_or]
        refine ⟨hfresh b (List.mem_cons_of_mem _ hb), ?_⟩
        intro e
        exact hnd.1 (e ▸ List.mem_map_of_mem Prod.fst hb))
      (by
        intro b hb
        rw [hadd]
        exact ht b (List.mem_cons_of_mem _ hb))
      (by
        rw [hadd]
        simp only [List.length_append, List.length_singleton, List.length_cons,
          List.length_nil, Nat.cast_add, Nat.cast_one, Nat.cast_zero] at hcap ⊢
        omega)
    obtain ⟨h1, h2, h3, h4⟩ := hrec
    simp only [Room.addEach]
    refine ⟨?_, ?_, ?_, ?_⟩
    · rw [h1, hadd]
      simp [List.replicate_succ]
    · rw [h2, hadd]
      simp
    · rw [h3, hadd]
    · rw [h4, hadd]

/-- The error list and fullness of the capacity scenario, for any room whose
roster is empty and whose capacity is 10. -/
theorem addEach_eleven (r : Room) (adds : List (UUID × Time × Time))
    (hempty : r.Participants = []) (hmax : r.MaxCapacity = 10)
    (hlen : adds.length = 11) (hnd : (adds.map Prod.fst).Nodup)
    (ht : ∀ a ∈ adds, a.2.1 ≤ r.ExpiresAt) :
    (r.addEach adds).2 = List.replicate 10 none ++ [some "room is full"] ∧
    (∀ k, k < 10 → (r.addEach (adds.take k)).1.IsFull = false) ∧
    (r.addEach (adds.take 10)).1.IsFull = true := by
  have hfirst : ∀ k, k ≤ 10 →
      (r.addEach (adds.take k)).2 = List.replicate k none ∧
      (r.addEach (adds.take k)).1.Participants.map Participant.UserID
        = (adds.take k).map Prod.fst ∧
      (r.addEach (adds.take k)).1.MaxCapacity = 10 := by
    intro k hk
    have hl : (adds.take k).length = k := by
      rw [List.length_take]; omega
    have hsub : List.Sublist (adds.take k) adds := List.take_sublist k adds
    have := addEach_fresh (adds.take k) r (List.Nodup.sublist (hsub.map Prod.fst) hnd)
      (by intro a _; simp [hempty])
      (fun a ha => ht a (hsub.subset ha))
      (by rw [hempty, hmax, hl]; simp only [List.length_nil, Nat.cast_zero]; omega)
    rw [hl, hempty, hmax] at this
    exact ⟨this.1, by simpa using this.2.1, this.2.2.1⟩
  have hcount : ∀ k, k ≤ 10 → (r.addEach (adds.take k)).1.Participants.length = k := by
    intro k hk
    have h := congrArg List.length (hfirst k hk).2.1
    simp only [List.length_map, List.length_take] at h
    omega
  refine ⟨?_, ?_, ?_⟩
  · obtain ⟨h1, h2, h3⟩ := hfirst 10 (le_refl 10)
    have hdrop : ∃ x, adds.drop 10 = [x] := by
      have hl : (adds.drop 10).length = 1 := by rw [List.length_drop]; omega
      match hd : adds.drop 10, hl with
      | [x], _ => exact ⟨x, rfl⟩
    obtain ⟨⟨u, n, j⟩, hx⟩ := hdrop
    have hsplit : adds = adds.take 10 ++ [(u, n, j)] := by
      rw [← hx, List.take_append_drop]
    have hu : u ∉ (adds.take 10).map Prod.fst := by
      rw [hsplit, List.map_append, List.nodup_append] at hnd
      intro hmem
      exact hnd.2.2 hmem (by simp)
    conv_lhs => rw [hsplit]
    rw [addEach_append, h1]
    simp only [Room.addEach, AddParticipant_error, h2, hu, if_false, h3, hcount 10 (le_refl 10)]
    simp
  · intro k hk
    simp only [Room.IsFull, (hfirst k (Nat.le_of_lt hk)).2.2, hcount k (Nat.le_of_lt hk)]
    simp only [ge_iff_le, decide_eq_false_iff_not, not_le]
    exact_mod_cast hk
  · simp only [Room.IsFull, (hfirst 10 (le_refl 10)).2.2, hcount 10 (le_refl 10)]
    simp

/-! ## Claims about the Room aggregate -/

/-- C1: the roster invariant (at most `MaxCapacity` participants, no user ID
twice) is preserved by every call of `AddParticipant`, `RemoveParticipant`,
`MuteParticipant`, `UnmuteParticipant` and `ExtendExpiry`, for every argument
and clock reading, whether the call fails or not; hence it holds in every room
reached from `NewRoom` by a finite sequence of such calls. -/
theorem roster_invariant :
    (∀ (r : Room) (c : Call), RosterInv r → RosterInv (r.call c).1) ∧
    (∀ (id : UUID) (now : Time) (name : String) (hostID : UUID) (isWaitingRoom : Bool)
        (cs : List Call), RosterInv ((NewRoom id now name hostID isWaitingRoom).calls cs)) :=
  ⟨RosterInv_call, fun id now name hostID isWaitingRoom cs =>
    RosterInv_calls _ cs (RosterInv_NewRoom id now name hostID isWaitingRoom)⟩

theorem roster_invariant_witness :
    RosterInv openRoom ∧ RosterInv (openRoom.call (.remove 2)).1 :=
  ⟨by decide, roster_invariant.1 openRoom (.remove 2) (by decide)⟩

/-- C2: `AddParticipant` checks duplicate, then capacity, then expiry: the error is
"user already in room" when the user is on the roster (whatever the capacity and
expiry); otherwise "room is full" when `len(Participants) >= MaxCapacity`
(whatever the expiry); otherwise "room has expired" when the clock reading is
strictly after `ExpiresAt`; otherwise the call succeeds. -/
theorem AddParticipant_check_order (r : Room) (userID : UUID) (now joinedAt : Time) :
    (r.AddParticipant userID now joinedAt).2 =
      if userID ∈ r.Participants.map Participant.UserID then some "user already in room"
      else if (r.Participants.length : Int) ≥ r.MaxCapacity then some "room is full"
      else if r.ExpiresAt < now then some "room has expired"
      else none :=
  AddParticipant_error r userID now joinedAt

/-- C3: a failing `AddParticipant` leaves the room, roster and every other field,
exactly as it was. -/
theorem AddParticipant_atomic_on_failure (r : Room) (userID : UUID) (now joinedAt : Time)
    (h : (r.AddParticipant userID now joinedAt).2 ≠ none) :
    (r.AddParticipant userID now joinedAt).1 = r := by
  unfold Room.AddParticipant at h ⊢
  split_ifs at h ⊢ with h1 h2 h3
  · rfl
  · rfl
  · rfl
  · exact absurd rfl h

theorem AddParticipant_atomic_on_failure_witness :
    (fullRoom.AddParticipant 3 50 50).2 = some "room is full" ∧
    (fullRoom.AddParticipant 3 50 50).1 = fullRoom :=
  ⟨by decide, AddParticipant_atomic_on_failure fullRoom 3 50 50 (by decide)⟩

/-- C4: a successful `AddParticipant(userID)` leaves every field but the roster
alone and appends to the old roster exactly one participant with the given user
ID, `IsHost = (userID == HostID)`, `IsMuted = false` and `JoinedAt` the clock
reading taken for it; the count grows by one and `IsParticipant(userID)` holds. -/
theorem AddParticipant_success (r : Room) (userID : UUID) (now joinedAt : Time)
    (h : (r.AddParticipant userID now joinedAt).2 = none) :
    (r.AddParticipant userID now joinedAt).1 =
      { r with Participants := r.Participants ++
          [{ UserID := userID, IsHost := decide (userID = r.HostID), IsMuted := false,
             JoinedAt := joinedAt }] } ∧
    (r.AddParticipant userID now joinedAt).1.GetParticipantCount = r.GetParticipantCount + 1 ∧
    (r.AddParticipant userID now joinedAt).1.IsParticipant userID = true := by
  have hr : (r.AddParticipant userID now joinedAt).1 =
      { r with Participants := r.Participants ++
          [{ UserID := userID, IsHost := decide (userID = r.HostID), IsMuted := false,
             JoinedAt := joinedAt }] } := by
    unfold Room.AddParticipant at h ⊢
    split_ifs at h ⊢ with h1 h2 h3
    rfl
  refine ⟨hr, ?_, ?_⟩
  · rw [hr]
    simp [Room.GetParticipantCount]
  · rw [hr, IsParticipant_iff]
    simp

theorem AddParticipant_success_witness :
    (openRoom.AddParticipant 4 50 51).2 = none ∧
    ((openRoom.AddParticipant 4 50 51).1 =
      { openRoom with Participants := openRoom.Participants ++
          [{ UserID := 4, IsHost := decide (4 = openRoom.HostID), IsMuted := false,
             JoinedAt := 51 }] } ∧
    (openRoom.AddParticipant 4 50 51).1.GetParticipantCount = openRoom.GetParticipantCount + 1 ∧
    (openRoom.AddParticipant 4 50 51).1.IsParticipant 4 = true) :=
  ⟨by decide, AddParticipant_success openRoom 4 50 51 (by decide)⟩

/-- C5: in a room made by `NewRoom` (capacity 10), eleven adds of pairwise distinct
users read at times not after `ExpiresAt` give ten successes and then
"room is full"; `IsFull` is false after fewer than ten adds and true after ten. -/
theorem capacity_scenario (id : UUID) (now : Time) (name : String) (hostID : UUID)
    (isWaitingRoom : Bool) (adds : List (UUID × Time × Time))
    (hlen : adds.length = 11) (hnd : (adds.map Prod.fst).Nodup)
    (ht : ∀ a ∈ adds, a.2.1 ≤ (NewRoom id now name hostID isWaitingRoom).ExpiresAt) :
    ((NewRoom id now name hostID isWaitingRoom).addEach adds).2
      = List.replicate 10 none ++ [some "room is full"] ∧
    (∀ k, k < 10 →
      ((NewRoom id now name hostID isWaitingRoom).addEach (adds.take k)).1.IsFull = false) ∧
    ((NewRoom id now name hostID isWaitingRoom).addEach (adds.take 10)).1.IsFull = true :=
  addEach_eleven (NewRoom id now name hostID isWaitingRoom) adds rfl rfl hlen hnd ht

theorem capacity_scenario_witness :
    ((NewRoom 9 0 "daily" 20 false).addEach elevenAdds).2
      = List.replicate 10 none ++ [some "room is full"] ∧
    (∀ k, k < 10 →
      ((NewRoom 9 0 "daily" 20 false).addEach (elevenAdds.take k)).1.IsFull = false) ∧
    ((NewRoom 9 0 "daily" 20 false).addEach (elevenAdds.take 10)).1.IsFull = true :=
  capacity_scenario 9 0 "daily" 20 false elevenAdds (by decide) (by decide) (by decide)

/-- C6: `RemoveParticipant(userID)` fails with "participant not found", leaving the
room unchanged, exactly when no roster entry has the user ID; otherwise it
succeeds, the new roster is the old one with the first entry of the user ID
deleted (the other entries keep their values and order), no other field changes
and the count drops by one. -/
theorem RemoveParticipant_spec (r : Room) (userID : UUID) :
    ((r.RemoveParticipant userID).2 ≠ none ↔ userID ∉ r.Participants.map Participant.UserID) ∧
    (userID ∉ r.Participants.map Participant.UserID →
      r.RemoveParticipant userID = (r, some "participant not found")) ∧
    (userID ∈ r.Participants.map Participant.UserID →
      ∃ pre p post, r.Participants = pre ++ p :: post ∧ p.UserID = userID ∧
        (∀ q ∈ pre, q.UserID ≠ userID) ∧
        r.RemoveParticipant userID = ({ r with Participants := pre ++ post }, none) ∧
        (r.RemoveParticipant userID).1.GetParticipantCount + 1 = r.GetParticipantCount) := by
  have hin : userID ∈ r.Participants.map Participant.UserID →
      ∃ pre p post, r.Participants = pre ++ p :: post ∧ p.UserID = userID ∧
        (∀ q ∈ pre, q.UserID ≠ userID) ∧
        r.RemoveParticipant userID = ({ r with Participants := pre ++ post }, none) ∧
        (r.RemoveParticipant userID).1.GetParticipantCount + 1 = r.GetParticipantCount := by
    intro hu
    obtain ⟨pre, p, post, hps, hp, hpre⟩ := roster_split r.Participants userID hu
    have hrm := RemoveParticipant_present r userID pre post p hps hp hpre
    refine ⟨pre, p, post, hps, hp, hpre, hrm, ?_⟩
    rw [hrm]
    simp only [Room.GetParticipantCount, hps, List.length_append, List.length_cons,
      Nat.cast_add, Nat.cast_one]
    omega
  refine ⟨?_, RemoveParticipant_absent r userID, hin⟩
  constructor
  · intro herr hu
    obtain ⟨_, _, _, _, _, _, hrm, _⟩ := hin hu
    rw [hrm] at herr
    exact herr rfl
  · intro hu
    rw [RemoveParticipant_absent r userID hu]
    simp

theorem RemoveParticipant_spec_witness :
    2 ∈ openRoom.Participants.map Participant.UserID ∧
    ∃ pre p post, openRoom.Participants = pre ++ p :: post ∧ p.UserID = 2 ∧
      (∀ q ∈ pre, q.UserID ≠ 2) ∧
      openRoom.RemoveParticipant 2 = ({ openRoom with Participants := pre ++ post }, none) ∧
      (openRoom.RemoveParticipant 2).1.GetParticipantCount + 1
        = openRoom.GetParticipantCount :=
  ⟨by decide, (RemoveParticipant_spec openRoom 2).2.2 (by decide)⟩

/-- C7: in a room whose roster has no repeated user ID, after a successful
`RemoveParticipant(userID)` the user is not a participant, a second
`RemoveParticipant(userID)` fails with "participant not found", and
`IsParticipant` is as before for every other user ID. -/
theorem RemoveParticipant_removes (r : Room) (userID : UUID)
    (hnd : (r.Participants.map Participant.UserID).Nodup)
    (hok : (r.RemoveParticipant userID).2 = none) :
    (r.RemoveParticipant userID).1.IsParticipant userID = false ∧
    (r.RemoveParticipant userID).1.RemoveParticipant userID
      = ((r.RemoveParticipant userID).1, some "participant not found") ∧
    (∀ other, other ≠ userID →
      (r.RemoveParticipant userID).1.IsParticipant other = r.IsParticipant other) := by
  have hu : userID ∈ r.Participants.map Participant.UserID := by
    by_contra hn
    rw [RemoveParticipant_absent r userID hn] at hok
    simp at hok
  obtain ⟨pre, p, post, hps, hp, hpre⟩ := roster_split r.Participants userID hu
  have hrm := RemoveParticipant_present r userID pre post p hps hp hpre
  have hgone : userID ∉ (r.RemoveParticipant userID).1.Participants.map Participant.UserID := by
    rw [hrm]
    rw [hps] at hnd
    simp only [List.map_append, List.map_cons, hp] at hnd
    have h1 := List.nodup_append.1 hnd
    have h2 := List.nodup_cons.1 h1.2.1
    simp only [List.map_append, List.mem_append, not_or]
    exact ⟨fun hm => h1.2.2 hm (List.mem_cons_self _ _), h2.1⟩
  refine ⟨?_, RemoveParticipant_absent _ userID hgone, ?_⟩
  · cases hb : (r.RemoveParticipant userID).1.IsParticipant userID with
    | false => rfl
    | true => exact absurd ((IsParticipant_iff _ _).1 hb) hgone
  · intro other hne
    rw [Bool.eq_iff_iff, IsParticipant_iff, IsParticipant_iff, hrm, hps]
    have hne' : ¬ other = p.UserID := by rw [hp]; exact hne
    simp [hne']

theorem RemoveParticipant_removes_witness :
    (openRoom.RemoveParticipant 2).2 = none ∧
    ((openRoom.RemoveParticipant 2).1.IsParticipant 2 = false ∧
    (openRoom.RemoveParticipant 2).1.RemoveParticipant 2
      = ((openRoom.RemoveParticipant 2).1, some "participant not found") ∧
    (∀ other, other ≠ 2 →
      (openRoom.RemoveParticipant 2).1.IsParticipant other = openRoom.IsParticipant other)) :=
  ⟨by decide, RemoveParticipant_removes openRoom 2 (by decide) (by decide)⟩

/-- C8: `MuteParticipant` by an acting user other than `HostID` fails with
"only host can mute participants" for every target, on the roster or not, and
leaves the room as it was, so no participant's `IsMuted` changes. -/
theorem MuteParticipant_non_host (r : Room) (hostID targetUserID : UUID)
    (h : hostID ≠ r.HostID) :
    r.MuteParticipant hostID targetUserID = (r, some "only host can mute participants") ∧
    (r.MuteParticipant hostID targetUserID).1.Participants.map Participant.IsMuted
      = r.Participants.map Participant.IsMuted := by
  have hm : r.MuteParticipant hostID targetUserID
      = (r, some "only host can mute participants") := by
    unfold Room.MuteParticipant
    rw [if_pos h]
  exact ⟨hm, by rw [hm]⟩

theorem MuteParticipant_non_host_witness :
    (2 : UUID) ≠ openRoom.HostID ∧
    (openRoom.MuteParticipant 2 3 = (openRoom, some "only host can mute participants") ∧
    (openRoom.MuteParticipant 2 3).1.Participants.map Participant.IsMuted
      = openRoom.Participants.map Participant.IsMuted) :=
  ⟨by decide, MuteParticipant_non_host openRoom 2 3 (by decide)⟩

/-- C9: `MuteParticipant` by the host fails with "participant not found", room
unchanged, exactly when the target is not on the roster; otherwise it succeeds
and the room differs only in that the target's entry (the first one with that
user ID, the one `GetParticipant` returns) has `IsMuted = true`: the entries
before and after it, its other fields, the order and length of the roster and
the other fields of the room are as before. -/
theorem MuteParticipant_host (r : Room) (hostID targetUserID : UUID)
    (h : hostID = r.HostID) :
    ((r.MuteParticipant hostID targetUserID).2 ≠ none ↔
      targetUserID ∉ r.Participants.map Participant.UserID) ∧
    (targetUserID ∉ r.Participants.map Participant.UserID →
      r.MuteParticipant hostID targetUserID = (r, some "participant not found")) ∧
    (targetUserID ∈ r.Participants.map Participant.UserID →
      ∃ pre p post, r.Participants = pre ++ p :: post ∧ p.UserID = targetUserID ∧
        (∀ q ∈ pre, q.UserID ≠ targetUserID) ∧
        r.GetParticipant targetUserID = .ok pre.length ∧
        r.MuteParticipant hostID targetUserID =
          ({ r with Participants := pre ++ { p with IsMuted := true } :: post }, none) ∧
        (r.MuteParticipant hostID targetUserID).1.Participants.length
          = r.Participants.length) := by
  subst h
  have hout : targetUserID ∉ r.Participants.map Participant.UserID →
      r.MuteParticipant r.HostID targetUserID = (r, some "participant not found") := by
    intro hu
    unfold Room.MuteParticipant
    rw [GetParticipant_absent r targetUserID hu]
    simp
  have hin : targetUserID ∈ r.Participants.map Participant.UserID →
      ∃ pre p post, r.Participants = pre ++ p :: post ∧ p.UserID = targetUserID ∧
        (∀ q ∈ pre, q.UserID ≠ targetUserID) ∧
        r.GetParticipant targetUserID = .ok pre.length ∧
        r.MuteParticipant r.HostID targetUserID =
          ({ r with Participants := pre ++ { p with IsMuted := true } :: post }, none) ∧
        (r.MuteParticipant r.HostID targetUserID).1.Participants.length
          = r.Participants.length := by
    intro hu
    obtain ⟨pre, p, post, hps, hp, hpre⟩ := roster_split r.Participants targetUserID hu
    have hm := MuteParticipant_present r targetUserID pre post p hps hp hpre
    refine ⟨pre, p, post, hps, hp, hpre,
      GetParticipant_present r targetUserID pre post p hps hp hpre, hm, ?_⟩
    rw [hm, hps]
    simp
  refine ⟨?_, hout, hin⟩
  constructor
  · intro herr hu
    obtain ⟨_, _, _, _, _, _, _, hm, _⟩ := hin hu
    rw [hm] at herr
    exact herr rfl
  · intro hu
    rw [hout hu]
    simp

theorem MuteParticipant_host_witness :
    (1 : UUID) = openRoom.HostID ∧
    3 ∈ openRoom.Participants.map Participant.UserID ∧
    ∃ pre p post, openRoom.Participants = pre ++ p :: post ∧ p.UserID = 3 ∧
      (∀ q ∈ pre, q.UserID ≠ 3) ∧
      openRoom.GetParticipant 3 = .ok pre.length ∧
      openRoom.MuteParticipant 1 3 =
        ({ openRoom with Participants := pre ++ { p with IsMuted := true } :: post }, none) ∧
      (openRoom.MuteParticipant 1 3).1.Participants.length = openRoom.Participants.length :=
  ⟨by decide, by decide, (MuteParticipant_host openRoom 1 3 (by decide)).2.2 (by decide)⟩

/-- C10: `UnmuteParticipant(userID)` has no host check: it succeeds exactly when the
user ID is on the roster, whatever `HostID` is; it fails with
"participant not found", room unchanged, otherwise.  On success the room
differs only in that the user's entry has `IsMuted = false`; so after the host
mutes a participant, `UnmuteParticipant` for the same user succeeds and leaves
that entry with `IsMuted = false` and everything else as before the mute. -/
theorem UnmuteParticipant_spec (r : Room) (userID : UUID) :
    ((r.UnmuteParticipant userID).2 = none ↔
      userID ∈ r.Participants.map Participant.UserID) ∧
    (∀ hostID, ({ r with HostID := hostID }.UnmuteParticipant userID).2
      = (r.UnmuteParticipant userID).2) ∧
    (userID ∉ r.Participants.map Participant.UserID →
      r.UnmuteParticipant userID = (r, some "participant not found")) ∧
    (userID ∈ r.Participants.map Participant.UserID →
      ∃ pre p post, r.Participants = pre ++ p :: post ∧ p.UserID = userID ∧
        (∀ q ∈ pre, q.UserID ≠ userID) ∧
        r.UnmuteParticipant userID =
          ({ r with Participants := pre ++ { p with IsMuted := false } :: post }, none) ∧
        (r.MuteParticipant r.HostID userID).1.UnmuteParticipant userID =
          ({ r with Participants := pre ++ { p with IsMuted := false } :: post }, none)) := by
  have hout : userID ∉ r.Participants.map Participant.UserID →
      r.UnmuteParticipant userID = (r, some "participant not found") := by
    intro hu
    unfold Room.UnmuteParticipant
    rw [GetParticipant_absent r userID hu]
  have hin : userID ∈ r.Participants.map Participant.UserID →
      ∃ pre p post, r.Participants = pre ++ p :: post ∧ p.UserID = userID ∧
        (∀ q ∈ pre, q.UserID ≠ userID) ∧
        r.UnmuteParticipant userID =
          ({ r with Participants := pre ++ { p with IsMuted := false } :: post }, none) ∧
        (r.MuteParticipant r.HostID userID).1.UnmuteParticipant userID =
          ({ r with Participants := pre ++ { p with IsMuted := false } :: post }, none) := by
    intro hu
    obtain ⟨pre, p, post, hps, hp, hpre⟩ := roster_split r.Participants userID hu
    refine ⟨pre, p, post, hps, hp, hpre,
      UnmuteParticipant_present r userID pre post p hps hp hpre, ?_⟩
    rw [MuteParticipant_present r userID pre post p hps hp hpre]
    exact UnmuteParticipant_present _ userID pre post { p with IsMuted := true } rfl hp hpre
  refine ⟨?_, ?_, hout, hin⟩
  · constructor
    · intro hok
      by_contra hu
      rw [hout hu] at hok
      simp at hok
    · intro hu
      obtain ⟨_, _, _, _, _, _, hun, _⟩ := hin hu
      rw [hun]
  · intro hostID
    simp only [Room.UnmuteParticipant, Room.GetParticipant]
    cases findFrom r.Participants userID 0 <;> rfl

theorem UnmuteParticipant_spec_witness :
    2 ∈ openRoom.Participants.map Participant.UserID ∧
    ∃ pre p post, openRoom.Participants = pre ++ p :: post ∧ p.UserID = 2 ∧
      (∀ q ∈ pre, q.UserID ≠ 2) ∧
      openRoom.UnmuteParticipant 2 =
        ({ openRoom with Participants := pre ++ { p with IsMuted := false } :: post },
          none) ∧
      (openRoom.MuteParticipant openRoom.HostID 2).1.UnmuteParticipant 2 =
        ({ openRoom with Participants := pre ++ { p with IsMuted := false } :: post },
          none) :=
  ⟨by decide, (UnmuteParticipant_spec openRoom 2).2.2.2 (by decide)⟩

/-! ## The host flag and the identity fields, call by call -/

theorem storeMuted_mem (ps : List Participant) (i : Nat) (b : Bool) (q : Participant)
    (hq : q ∈ storeMuted ps i b) :
    ∃ p ∈ ps, q.UserID = p.UserID ∧ q.IsHost = p.IsHost := by
  induction ps generalizing i with
  | nil => simp [storeMuted] at hq
  | cons p ps ih =>
    cases i with
    | zero =>
      simp only [storeMuted, List.mem_cons] at hq
      rcases hq with rfl | hq
      · exact ⟨p, List.mem_cons_self _ _, rfl, rfl⟩
      · exact ⟨q, List.mem_cons_of_mem _ hq, rfl, rfl⟩
    | succ i =>
      simp only [storeMuted, List.mem_cons] at hq
      rcases hq with rfl | hq
      · exact ⟨q, List.mem_cons_self _ _, rfl, rfl⟩
      · obtain ⟨p', hp', h1, h2⟩ := ih i hq
        exact ⟨p', List.mem_cons_of_mem _ hp', h1, h2⟩

theorem HostFlagInv_storeMuted (r : Room) (i : Nat) (b : Bool) (h : HostFlagInv r) :
    HostFlagInv { r with Participants := storeMuted r.Participants i b } := by
  intro q hq
  obtain ⟨p, hp, h1, h2⟩ := storeMuted_mem r.Participants i b q hq
  rw [h1, h2]
  exact h p hp

theorem HostFlagInv_call (r : Room) (c : Call) (h : HostFlagInv r) :
    HostFlagInv (r.call c).1 := by
  cases c with
  | add userID now joinedAt =>
    simp only [Room.call, Room.AddParticipant]
    split_ifs
    · exact h
    · exact h
    · exact h
    · intro q hq
      rcases List.mem_append.1 hq with hq | hq
      · exact h q hq
      · rw [List.mem_singleton.1 hq]
  | remove userID =>
    simp only [Room.call]
    by_cases hu : userID ∈ r.Participants.map Participant.UserID
    · obtain ⟨pre, p, post, hps, hp, hpre⟩ := roster_split r.Participants userID hu
      rw [RemoveParticipant_present r userID pre post p hps hp hpre]
      intro q hq
      refine h q ?_
      rw [hps]
      rcases List.mem_append.1 hq with hq | hq
      · exact List.mem_append_left _ hq
      · exact List.mem_append_right _ (List.mem_cons_of_mem _ hq)
    · rw [RemoveParticipant_absent r userID hu]
      exact h
  | mute hostID targetUserID =>
    simp only [Room.call, Room.MuteParticipant]
    split_ifs
    · exact h
    · cases r.GetParticipant targetUserID with
      | error e => exact h
      | ok i => exact HostFlagInv_storeMuted r i true h
  | unmute userID =>
    simp only [Room.call, Room.UnmuteParticipant]
    cases r.GetParticipant userID with
    | error e => exact h
    | ok i => exact HostFlagInv_storeMuted r i false h
  | extend duration => exact h

theorem HostFlagInv_calls (r : Room) (cs : List Call) (h : HostFlagInv r) :
    HostFlagInv (r.calls cs) := by
  induction cs generalizing r with
  | nil => exact h
  | cons c cs ih => exact ih (r.call c).1 (HostFlagInv_call r c h)

theorem SameIdentity_refl (r : Room) : SameIdentity r r :=
  ⟨rfl, rfl, rfl, rfl, rfl, rfl⟩

theorem SameIdentity_call (r : Room) (c : Call) : SameIdentity r (r.call c).1 := by
  cases c with
  | add userID now joinedAt =>
    simp only [Room.call, Room.AddParticipant]
    split_ifs <;> exact SameIdentity_refl r
  | remove userID =>
    simp only [Room.call, Room.RemoveParticipant]
    cases findFrom r.Participants userID 0 <;> exact SameIdentity_refl r
  | mute hostID targetUserID =>
    simp only [Room.call, Room.MuteParticipant]
    split_ifs
    · exact SameIdentity_refl r
    · cases r.GetParticipant targetUserID <;> exact SameIdentity_refl r
  | unmute userID =>
    simp only [Room.call, Room.UnmuteParticipant]
    cases r.GetParticipant userID <;> exact SameIdentity_refl r
  | extend duration => exact SameIdentity_refl r

theorem SameIdentity_calls (r : Room) (cs : List Call) : SameIdentity r (r.calls cs) := by
  induction cs generalizing r with
  | nil => exact SameIdentity_refl r
  | cons c cs ih =>
    obtain ⟨a1, a2, a3, a4, a5, a6⟩ := SameIdentity_call r c
    obtain ⟨b1, b2, b3, b4, b5, b6⟩ := ih (r.call c).1
    exact ⟨b1.trans a1, b2.trans a2, b3.trans a3, b4.trans a4, b5.trans a5, b6.trans a6⟩

/-- C11: in every room reached from `NewRoom` by a finite sequence of
`AddParticipant`, `RemoveParticipant`, `MuteParticipant`, `UnmuteParticipant`
and `ExtendExpiry` calls, `HostID` is the host given to `NewRoom` and every
roster entry `p` has `p.IsHost = (p.UserID == HostID)`: the host's entry has
`IsHost` true and every other entry has it false. -/
theorem host_flag_invariant (id : UUID) (now : Time) (name : String) (hostID : UUID)
    (isWaitingRoom : Bool) (cs : List Call) (p : Participant)
    (hp : p ∈ ((NewRoom id now name hostID isWaitingRoom).calls cs).Participants) :
    ((NewRoom id now name hostID isWaitingRoom).calls cs).HostID = hostID ∧
    p.IsHost = decide (p.UserID = ((NewRoom id now name hostID isWaitingRoom).calls cs).HostID) ∧
    (p.UserID = hostID → p.IsHost = true) ∧
    (p.UserID ≠ hostID → p.IsHost = false) := by
  have hid : ((NewRoom id now name hostID isWaitingRoom).calls cs).HostID = hostID :=
    (SameIdentity_calls (NewRoom id now name hostID isWaitingRoom) cs).1
  have hinv : HostFlagInv ((NewRoom id now name hostID isWaitingRoom).calls cs) :=
    HostFlagInv_calls _ cs (by intro q hq; simp [NewRoom] at hq)
  have hflag := hinv p hp
  refine ⟨hid, hflag, ?_, ?_⟩
  · intro e
    rw [hflag, hid]
    exact decide_eq_true e
  · intro e
    rw [hflag, hid]
    exact decide_eq_false e

set_option maxRecDepth 8000 in
theorem host_flag_invariant_witness :
    ({ UserID := 20, IsHost := true, IsMuted := false, JoinedAt := 1 } : Participant)
      ∈ ((NewRoom 9 0 "daily" 20 false).calls sampleCalls).Participants ∧
    ((NewRoom 9 0 "daily" 20 false).calls sampleCalls).HostID = 20 ∧
    (20 : UUID) = 20 ∧
    ({ UserID := 20, IsHost := true, IsMuted := false, JoinedAt := 1 } : Participant).IsHost
      = true := by
  have h := host_flag_invariant 9 0 "daily" 20 false sampleCalls
    { UserID := 20, IsHost := true, IsMuted := false, JoinedAt := 1 } (by decide)
  exact ⟨by decide, h.1, rfl, h.2.2.1 rfl⟩

/-- C12: no call of `AddParticipant`, `RemoveParticipant`, `MuteParticipant`,
`UnmuteParticipant` or `ExtendExpiry`, failing or not, changes `HostID`, `ID`,
`Name`, `IsWaitingRoom`, `CreatedAt` or `MaxCapacity`; so after any finite
sequence of calls `IsHost(u)`, which holds exactly when `u == HostID`, answers
as before, whatever the roster is. -/
theorem host_identity_immutable (r : Room) (cs : List Call) :
    (∀ c, SameIdentity r (r.call c).1) ∧
    SameIdentity r (r.calls cs) ∧
    (r.calls cs).HostID = r.HostID ∧
    (∀ u, (r.calls cs).IsHost u = r.IsHost u) ∧
    (∀ u, r.IsHost u = true ↔ u = r.HostID) := by
  have hs := SameIdentity_calls r cs
  refine ⟨SameIdentity_call r, hs, hs.1, ?_, ?_⟩
  · intro u
    simp only [Room.IsHost, hs.1]
  · intro u
    simp only [Room.IsHost, decide_eq_true_eq]
    exact eq_comm

/-- The seconds sum `addSec` computes is exact when it fits in 64 bits. -/
theorem addSec_exact (sec d : Int) (h1 : -2 ^ 63 ≤ sec + d) (h2 : sec + d ≤ 2 ^ 63 - 1) :
    addSec sec d = sec + d := by
  unfold addSec
  have hw : (sec + d + 2 ^ 63) % 2 ^ 64 - 2 ^ 63 = sec + d := by omega
  rw [hw]
  have : (sec < sec + d ↔ 0 < d) := by constructor <;> intro h <;> omega
  rw [if_pos this]

/-- The whole seconds of a sum: those of the two terms plus the carry of their
nanosecond parts. -/
theorem ediv_add_split (t d : Int) :
    (t + d) / 1000000000
      = t / 1000000000 + d / 1000000000 + (t % 1000000000 + d % 1000000000) / 1000000000 := by
  have h : t + d = (t % 1000000000 + d % 1000000000)
      + 1000000000 * (t / 1000000000 + d / 1000000000) := by omega
  have h2 := Int.add_mul_ediv_left (t % 1000000000 + d % 1000000000)
    (t / 1000000000 + d / 1000000000) (show (1000000000 : Int) ≠ 0 by decide)
  rw [← h] at h2
  omega

/-- The whole seconds of a difference: those of the two terms plus the borrow of
their nanosecond parts. -/
theorem ediv_sub_split (t m : Int) :
    (t - m) / 1000000000
      = t / 1000000000 - m / 1000000000 + (t % 1000000000 - m % 1000000000) / 1000000000 := by
  have h : t - m = (t % 1000000000 - m % 1000000000)
      + 1000000000 * (t / 1000000000 - m / 1000000000) := by omega
  have h2 := Int.add_mul_ediv_left (t % 1000000000 - m % 1000000000)
    (t / 1000000000 - m / 1000000000) (show (1000000000 : Int) ≠ 0 by decide)
  rw [← h] at h2
  omega

/-- The method `Add` returns the instant `t + d` whenever the seconds field of that
instant fits in 64 bits. -/
theorem Time.Add_exact (t : Time) (d : Duration) (h : Time.ok (t + d)) :
    Time.Add t d = t + d := by
  unfold Time.ok Time.sec unixToInternal at h
  unfold Time.Add
  simp only [Time.sec, Time.nsec, quoT, remT, Time.ofFields, unixToInternal]
  show (_ : Int) = _
  by_cases hd : 0 ≤ d
  · have hs := ediv_add_split t d
    simp only [hd, if_true]
    split_ifs with h1 h2
    · rw [addSec_exact] <;> omega
    · omega
    · rw [addSec_exact] <;> omega
  · have hs := ediv_sub_split t (-d)
    have he : t - -d = t + d := sub_neg_eq_add t d
    rw [he] at hs
    simp only [hd, if_false]
    split_ifs with h1 h2
    · omega
    · rw [addSec_exact] <;> omega
    · rw [addSec_exact] <;> omega

/-- The sum of two durations is their integer sum when that sum fits in 64 bits. -/
theorem Duration.add_exact (a b : Int) (h1 : -2 ^ 63 ≤ a + b) (h2 : a + b ≤ 2 ^ 63 - 1) :
    Duration.add a b = a + b := by
  unfold Duration.add
  show (_ : Int) = _
  omega

/-- C13 fails on the code as stated. The sum of two durations is a 64-bit sum: for
`a = b = 2^63 - 1` it is `-2`, so on the room expiring at instant 100 one
extension by `a + b` gives `ExpiresAt = 98`, while the two extensions give
`18446744073709551714`. And `Add` saturates: on a room whose `ExpiresAt` has
the seconds field `2^63 - 2`, an extension by two seconds moves `ExpiresAt` by
one second only. -/
theorem ExtendExpiry_sum_wraps :
    Duration.add (2 ^ 63 - 1) (2 ^ 63 - 1) = -2 ∧
    ((openRoom.ExtendExpiry (2 ^ 63 - 1)).ExtendExpiry (2 ^ 63 - 1)).ExpiresAt
      = 18446744073709551714 ∧
    (openRoom.ExtendExpiry (Duration.add (2 ^ 63 - 1) (2 ^ 63 - 1))).ExpiresAt = 98 ∧
    (openRoom.ExtendExpiry (2 ^ 63 - 1)).ExtendExpiry (2 ^ 63 - 1)
      ≠ openRoom.ExtendExpiry (Duration.add (2 ^ 63 - 1) (2 ^ 63 - 1)) ∧
    (({ openRoom with ExpiresAt := Time.ofFields (2 ^ 63 - 2) 0 } : Room).ExtendExpiry
        2000000000).ExpiresAt
      = Time.ofFields (2 ^ 63 - 2) 0 + 1000000000 ∧
    (({ openRoom with ExpiresAt := Time.ofFields (2 ^ 63 - 2) 0 } : Room).ExtendExpiry
        2000000000).ExpiresAt
      ≠ Time.ofFields (2 ^ 63 - 2) 0 + 2000000000 := by
  refine ⟨by decide, by decide, by decide, ?_, by decide, by decide⟩
  intro h
  have h2 := congrArg Room.ExpiresAt h
  revert h2
  decide

/-- C13, amended: `ExtendExpiry(d)` sets `ExpiresAt` to `ExpiresAt.Add(d)` for every
room and every duration, with no check of any kind, and changes no other
field; the new `ExpiresAt` is the previous one plus `d` whenever that instant
is in the range of `time.Time`. Extending by `a` and then by `b` gives the room
that one extension by the duration `a + b` gives, whenever that sum does not
overflow 64 bits and the extended instants are in the range of `time.Time`. -/
theorem ExtendExpiry_spec (r : Room) (d a b : Duration) :
    (r.ExtendExpiry d).ExpiresAt = Time.Add r.ExpiresAt d ∧
    (Time.ok (r.ExpiresAt + d) → (r.ExtendExpiry d).ExpiresAt = r.ExpiresAt + d) ∧
    SameIdentity r (r.ExtendExpiry d) ∧
    (r.ExtendExpiry d).Participants = r.Participants ∧
    (Time.ok (r.ExpiresAt + a) → Time.ok (r.ExpiresAt + a + b) →
      -2 ^ 63 ≤ a + b → a + b ≤ 2 ^ 63 - 1 →
      (r.ExtendExpiry a).ExtendExpiry b = r.ExtendExpiry (Duration.add a b)) := by
  refine ⟨rfl, Time.Add_exact r.ExpiresAt d, SameIdentity_refl r, rfl, ?_⟩
  intro ha hab h1 h2
  have e1 : Time.Add r.ExpiresAt a = r.ExpiresAt + a := Time.Add_exact _ _ ha
  have e2 : Time.Add (r.ExpiresAt + a) b = r.ExpiresAt + a + b := Time.Add_exact _ _ hab
  have e3 : Time.Add r.ExpiresAt (a + b) = r.ExpiresAt + a + b := by
    rw [Time.Add_exact _ _ (by rw [← add_assoc]; exact hab), add_assoc]
  simp only [Room.ExtendExpiry, Duration.add_exact a b h1 h2, e1, e2, e3]

theorem ExtendExpiry_spec_witness :
    (openRoom.ExtendExpiry Hour).ExpiresAt = openRoom.ExpiresAt + Hour ∧
    (openRoom.ExtendExpiry Hour).ExtendExpiry (2 * Hour)
      = openRoom.ExtendExpiry (Duration.add Hour (2 * Hour)) :=
  ⟨(ExtendExpiry_spec openRoom Hour Hour (2 * Hour)).2.1 (by decide),
   (ExtendExpiry_spec openRoom Hour Hour (2 * Hour)).2.2.2.2
     (by decide) (by decide) (by decide) (by decide)⟩

/-- C14: `NewRoom(name, hostID, isWaitingRoom)` at time `T` returns a room with the
given `Name`, `HostID` and `IsWaitingRoom`, `CreatedAt = T`,
`ExpiresAt = CreatedAt + 24h` (24h being 86,400,000,000,000 ns),
`MaxCapacity = 10` and an empty roster; the room is not full, `IsExpired` is
false at every time up to and including `T + 24h` and true at every later
time. -/
theorem NewRoom_spec (id : UUID) (T : Time) (name : String) (hostID : UUID)
    (isWaitingRoom : Bool) (t : Time) :
    (NewRoom id T name hostID isWaitingRoom).ID = id ∧
    (NewRoom id T name hostID isWaitingRoom).Name = name ∧
    (NewRoom id T name hostID isWaitingRoom).HostID = hostID ∧
    (NewRoom id T name hostID isWaitingRoom).IsWaitingRoom = isWaitingRoom ∧
    (NewRoom id T name hostID isWaitingRoom).CreatedAt = T ∧
    (NewRoom id T name hostID isWaitingRoom).ExpiresAt
      = (NewRoom id T name hostID isWaitingRoom).CreatedAt + 24 * Hour ∧
    24 * Hour = 86400000000000 ∧
    (NewRoom id T name hostID isWaitingRoom).MaxCapacity = 10 ∧
    (NewRoom id T name hostID isWaitingRoom).Participants = [] ∧
    (NewRoom id T name hostID isWaitingRoom).IsFull = false ∧
    (t ≤ T + 24 * Hour → (NewRoom id T name hostID isWaitingRoom).IsExpired t = false) ∧
    (T + 24 * Hour < t → (NewRoom id T name hostID isWaitingRoom).IsExpired t = true) := by
  refine ⟨rfl, rfl, rfl, rfl, rfl, rfl, by decide, rfl, rfl, ?_, ?_, ?_⟩
  · simp [Room.IsFull, NewRoom]
  · intro h
    simp only [Room.IsExpired, NewRoom, decide_eq_false_iff_not, not_lt]
    exact h
  · intro h
    simp only [Room.IsExpired, NewRoom, decide_eq_true_eq]
    exact h

theorem NewRoom_spec_witness :
    (NewRoom 9 1000 "daily" 20 false).IsExpired (1000 + 24 * Hour) = false ∧
    (NewRoom 9 1000 "daily" 20 false).IsExpired (1000 + 24 * Hour + 1) = true :=
  ⟨(NewRoom_spec 9 1000 "daily" 20 false (1000 + 24 * Hour)).2.2.2.2.2.2.2.2.2.2.1
      (by decide),
   (NewRoom_spec 9 1000 "daily" 20 false (1000 + 24 * Hour + 1)).2.2.2.2.2.2.2.2.2.2.2
      (by decide)⟩

end model

namespace domain

/-! ## The message predicates -/

theorem IsValid_eq (m : Message) :
    m.IsValid = true ↔
      m.Type_ ≠ "" ∧ m.RoomID ≠ uuid.Nil ∧
      ((m.Type_ = "chat_message" ∨ m.Type_ = "mute_user" ∨ m.Type_ = "admit_user") →
        m.SenderUserID ≠ uuid.Nil) ∧
      ((m.Type_ = "webrtc_offer" ∨ m.Type_ = "webrtc_answer" ∨ m.Type_ = "ice_candidate") →
        m.SenderUserID ≠ uuid.Nil ∧ m.TargetUserID ≠ uuid.Nil) := by
  obtain ⟨id, ty, sender, target, room, payload, ts⟩ := m
  simp only [Message.IsValid, MessageTypeChatMessage, MessageTypeWebRTCOffer,
    MessageTypeWebRTCAnswer, MessageTypeICECandidate, MessageTypeMuteUser,
    MessageTypeAdmitUser]
  by_cases h0 : ty = ""
  · subst h0; simp
  by_cases hr : room = uuid.Nil
  · simp [hr]
  by_cases h1 : ty = "chat_message"
  · subst h1; simp [hr]
  by_cases h2 : ty = "webrtc_offer"
  · subst h2; simp [hr]
  by_cases h3 : ty = "webrtc_answer"
  · subst h3; simp [hr]
  by_cases h4 : ty = "ice_candidate"
  · subst h4; simp [hr]
  by_cases h5 : ty = "mute_user"
  · subst h5; simp [hr]
  by_cases h6 : ty = "admit_user"
  · subst h6; simp [hr]
  simp [h0, hr, h1, h2, h3, h4, h5, h6]

theorem IsBroadcastMessage_eq (m : Message) :
    m.IsBroadcastMessage = true ↔
      m.Type_ = "chat_message" ∨ m.Type_ = "user_joined" ∨ m.Type_ = "user_left" := by
  simp [Message.IsBroadcastMessage, MessageTypeChatMessage, MessageTypeUserJoined,
    MessageTypeUserLeft]

theorem IsDirectMessage_eq (m : Message) :
    m.IsDirectMessage = true ↔ m.TargetUserID ≠ uuid.Nil := by
  simp [Message.IsDirectMessage]

/-- A valid message of a signaling type is direct and is not a broadcast. -/
theorem signaling_valid (m : Message)
    (hty : m.Type_ = "webrtc_offer" ∨ m.Type_ = "webrtc_answer" ∨ m.Type_ = "ice_candidate")
    (hv : m.IsValid = true) :
    m.IsDirectMessage = true ∧ m.IsBroadcastMessage = false := by
  have h := (IsValid_eq m).1 hv
  refine ⟨(IsDirectMessage_eq m).2 (h.2.2.2 hty).2, ?_⟩
  cases hb : m.IsBroadcastMessage with
  | false => rfl
  | true =>
    have hb' := (IsBroadcastMessage_eq m).1 hb
    rcases hty with e | e | e <;> rw [e] at hb' <;> simp at hb'

/-! ## Claims about the Message envelope and the User entity -/

/-- C15: `Message.IsValid` is true exactly when `Type` is non-empty, `RoomID` is not
the nil UUID, for `chat_message`, `mute_user` and `admit_user` the
`SenderUserID` is non-nil, and for `webrtc_offer`, `webrtc_answer` and
`ice_candidate` both `SenderUserID` and `TargetUserID` are non-nil; any other
type, known or not, adds no condition. -/
theorem Message_IsValid_iff (m : Message) :
    m.IsValid = true ↔
      m.Type_ ≠ "" ∧ m.RoomID ≠ uuid.Nil ∧
      ((m.Type_ = "chat_message" ∨ m.Type_ = "mute_user" ∨ m.Type_ = "admit_user") →
        m.SenderUserID ≠ uuid.Nil) ∧
      ((m.Type_ = "webrtc_offer" ∨ m.Type_ = "webrtc_answer" ∨ m.Type_ = "ice_candidate") →
        m.SenderUserID ≠ uuid.Nil ∧ m.TargetUserID ≠ uuid.Nil) :=
  IsValid_eq m

theorem Message_IsValid_iff_witness :
    chatSample.IsValid = true ∧
    ({ chatSample with SenderUserID := uuid.Nil } : Message).IsValid = false ∧
    ({ chatSample with Type_ := "webrtc_offer" } : Message).IsValid = false ∧
    ({ chatSample with Type_ := "screen_share", SenderUserID := uuid.Nil } : Message).IsValid
      = true :=
  ⟨(Message_IsValid_iff chatSample).2 (by decide), by decide, by decide, by decide⟩

/-- C16: `IsBroadcastMessage` is true exactly for the types `chat_message`,
`user_joined` and `user_left`; it is false for every other type string, among
them `webrtc_offer`, `webrtc_answer`, `ice_candidate`, `mute_user`,
`admit_user`, `join_room`, `leave_room`, `screen_share` and the empty type; two
messages of the same `Type` get the same answer, whatever their other fields. -/
theorem IsBroadcastMessage_spec (m other : Message) :
    (m.IsBroadcastMessage = true ↔
      m.Type_ = "chat_message" ∨ m.Type_ = "user_joined" ∨ m.Type_ = "user_left") ∧
    (m.IsBroadcastMessage = false ↔
      m.Type_ ≠ "chat_message" ∧ m.Type_ ≠ "user_joined" ∧ m.Type_ ≠ "user_left") ∧
    (m.Type_ ∈ ["webrtc_offer", "webrtc_answer", "ice_candidate", "mute_user", "admit_user",
        "join_room", "leave_room", "screen_share", ""] → m.IsBroadcastMessage = false) ∧
    (m.Type_ = other.Type_ → m.IsBroadcastMessage = other.IsBroadcastMessage) := by
  have hfalse : m.IsBroadcastMessage = false ↔
      m.Type_ ≠ "chat_message" ∧ m.Type_ ≠ "user_joined" ∧ m.Type_ ≠ "user_left" := by
    rw [← Bool.not_eq_true, IsBroadcastMessage_eq]
    simp only [not_or, ne_eq]
  refine ⟨IsBroadcastMessage_eq m, hfalse, ?_, ?_⟩
  · intro hmem
    rw [hfalse]
    simp only [List.mem_cons, List.mem_singleton, List.mem_nil_iff, or_false] at hmem
    rcases hmem with e | e | e | e | e | e | e | e | e <;> rw [e] <;> decide
  · intro e
    simp only [Message.IsBroadcastMessage, e]

theorem IsBroadcastMessage_spec_witness :
    ({ chatSample with Type_ := "mute_user" } : Message).IsBroadcastMessage = false ∧
    chatSample.IsBroadcastMessage
      = ({ chatSample with
           ID := 1, SenderUserID := 0, TargetUserID := 9, RoomID := 0,
           Payload := .nil, Timestamp := 77 } : Message).IsBroadcastMessage :=
  ⟨(IsBroadcastMessage_spec { chatSample with Type_ := "mute_user" } chatSample).2.2.1
      (by decide),
   (IsBroadcastMessage_spec chatSample
      { chatSample with
        ID := 1, SenderUserID := 0, TargetUserID := 9, RoomID := 0,
        Payload := .nil, Timestamp := 77 }).2.2.2 (by decide)⟩

/-- C17: `IsDirectMessage` is true exactly when `TargetUserID` is not the nil UUID;
every message of type `webrtc_offer`, `webrtc_answer` or `ice_candidate` that
passes `IsValid` is direct and is not a broadcast; in particular the messages
built by `NewWebRTCOffer`, `NewWebRTCAnswer` and `NewICECandidate` with non-nil
sender, target and room are valid, direct and not broadcast. -/
theorem signaling_is_direct (m : Message) (id : model.UUID) (now : model.Time)
    (senderID targetID roomID : model.UUID) (sdp candidate sdpMid : String)
    (sdpMLineIndex : Int) :
    (m.IsDirectMessage = true ↔ m.TargetUserID ≠ uuid.Nil) ∧
    ((m.Type_ = "webrtc_offer" ∨ m.Type_ = "webrtc_answer" ∨ m.Type_ = "ice_candidate") →
      m.IsValid = true → m.IsDirectMessage = true ∧ m.IsBroadcastMessage = false) ∧
    (senderID ≠ uuid.Nil → targetID ≠ uuid.Nil → roomID ≠ uuid.Nil →
      ((NewWebRTCOffer id now senderID targetID roomID sdp).IsValid = true ∧
        (NewWebRTCOffer id now senderID targetID roomID sdp).IsDirectMessage = true ∧
        (NewWebRTCOffer id now senderID targetID roomID sdp).IsBroadcastMessage = false) ∧
      ((NewWebRTCAnswer id now senderID targetID roomID sdp).IsValid = true ∧
        (NewWebRTCAnswer id now senderID targetID roomID sdp).IsDirectMessage = true ∧
        (NewWebRTCAnswer id now senderID targetID roomID sdp).IsBroadcastMessage = false) ∧
      ((NewICECandidate id now senderID targetID roomID candidate sdpMid
          sdpMLineIndex).IsValid = true ∧
        (NewICECandidate id now senderID targetID roomID candidate sdpMid
          sdpMLineIndex).IsDirectMessage = true ∧
        (NewICECandidate id now senderID targetID roomID candidate sdpMid
          sdpMLineIndex).IsBroadcastMessage = false)) := by
  refine ⟨IsDirectMessage_eq m, signaling_valid m, ?_⟩
  intro hs ht hr
  have built : ∀ msg : Message,
      (msg.Type_ = "webrtc_offer" ∨ msg.Type_ = "webrtc_answer" ∨
        msg.Type_ = "ice_candidate") →
      msg.SenderUserID = senderID → msg.TargetUserID = targetID → msg.RoomID = roomID →
      msg.IsValid = true ∧ msg.IsDirectMessage = true ∧ msg.IsBroadcastMessage = false := by
    intro msg hty e1 e2 e3
    have hv : msg.IsValid = true := by
      rw [IsValid_eq, e1, e2, e3]
      refine ⟨?_, hr, fun _ => hs, fun _ => ⟨hs, ht⟩⟩
      rcases hty with e | e | e <;> rw [e] <;> decide
    exact ⟨hv, signaling_valid msg hty hv⟩
  exact ⟨built _ (Or.inl rfl) rfl rfl rfl, built _ (Or.inr (Or.inl rfl)) rfl rfl rfl,
    built _ (Or.inr (Or.inr rfl)) rfl rfl rfl⟩

theorem signaling_is_direct_witness :
    (NewWebRTCOffer 100 5 3 4 7 "v=0").Type_ = "webrtc_offer" ∧
    (NewWebRTCOffer 100 5 3 4 7 "v=0").IsValid = true ∧
    (NewWebRTCOffer 100 5 3 4 7 "v=0").IsDirectMessage = true ∧
    (NewWebRTCOffer 100 5 3 4 7 "v=0").IsBroadcastMessage = false := by
  have h := (signaling_is_direct (NewWebRTCOffer 100 5 3 4 7 "v=0") 100 5 3 4 7 "v=0"
    "candidate:1" "0" 0).2.1 (Or.inl (by decide)) (by decide)
  exact ⟨by decide, by decide, h.1, h.2⟩

/-- C19: `User.IsValid` is true exactly when `Email` and `Name` are both non-empty;
users that agree on `Email` and `Name` get the same answer, whatever their `ID`,
`GoogleID`, `AvatarURL` and `CreatedAt` are. -/
theorem User_IsValid_iff (u other : User) :
    (u.IsValid = true ↔ u.Email ≠ "" ∧ u.Name ≠ "") ∧
    (other.Email = u.Email → other.Name = u.Name → other.IsValid = u.IsValid) := by
  refine ⟨by simp [User.IsValid], ?_⟩
  intro e1 e2
  simp only [User.IsValid, e1, e2]

theorem User_IsValid_iff_witness :
    userSample.IsValid = true ∧
    ({ userSample with ID := 0, GoogleID := "", AvatarURL := "", CreatedAt := 99 } : User).IsValid
      = userSample.IsValid :=
  ⟨(User_IsValid_iff userSample userSample).1.2 ⟨by decide, by decide⟩,
   (User_IsValid_iff userSample
      { userSample with ID := 0, GoogleID := "", AvatarURL := "", CreatedAt := 99 }).2
      (by decide) (by decide)⟩

/-- C20: `User.UpdateProfile(name, avatarURL)` is a partial patch: afterwards `Name`
is `name` if that is non-empty and the old `Name` otherwise, `AvatarURL` is
`avatarURL` if that is non-empty and the old `AvatarURL` otherwise, and `ID`,
`GoogleID`, `Email` and `CreatedAt` are unchanged; `UpdateProfile("", "")`
changes nothing, and applying a patch twice equals applying it once. -/
theorem UpdateProfile_patch (u : User) (name avatarURL : String) :
    (u.UpdateProfile name avatarURL).Name = (if name ≠ "" then name else u.Name) ∧
    (u.UpdateProfile name avatarURL).AvatarURL
      = (if avatarURL ≠ "" then avatarURL else u.AvatarURL) ∧
    (u.UpdateProfile name avatarURL).ID = u.ID ∧
    (u.UpdateProfile name avatarURL).GoogleID = u.GoogleID ∧
    (u.UpdateProfile name avatarURL).Email = u.Email ∧
    (u.UpdateProfile name avatarURL).CreatedAt = u.CreatedAt ∧
    u.UpdateProfile "" "" = u ∧
    (u.UpdateProfile name avatarURL).UpdateProfile name avatarURL
      = u.UpdateProfile name avatarURL := by
  refine ⟨?_, ?_, ?_, ?_, ?_, ?_, ?_, ?_⟩ <;>
    by_cases hn : name = "" <;> by_cases ha : avatarURL = "" <;>
    simp [User.UpdateProfile, hn, ha]

end domain

namespace usecase

/-! ## The room orchestrator -/

/-- On a room made by `NewRoom` the add of the host succeeds when its expiry check
reads the clock at most 24 hours after `NewRoom` did. -/
theorem add_host_fresh (id : model.UUID) (t0 t1 t2 : model.Time) (name : String)
    (hostID : model.UUID) (isWaitingRoom : Bool) (h : t1 ≤ t0 + 24 * model.Hour) :
    (model.NewRoom id t0 name hostID isWaitingRoom).AddParticipant hostID t1 t2 =
      ({ model.NewRoom id t0 name hostID isWaitingRoom with
          Participants := [{ UserID := hostID, IsHost := true, IsMuted := false,
                             JoinedAt := t2 }] }, none) := by
  have hadd := model.AddParticipant_ok (model.NewRoom id t0 name hostID isWaitingRoom)
    hostID t1 t2 (by simp [model.NewRoom]) (by simp [model.NewRoom]) h
  rw [hadd]
  simp [model.NewRoom]

/-- C21, as amended: `CreateRoom` fails with "host not found" (wrapping the store's
error) without calling the room store when the user store has no user `hostID`;
otherwise, when the expiry check of `AddParticipant` reads the clock at most 24
hours after `NewRoom` did, adding the host succeeds, the store's `Create` is
called with the room whose roster is the host alone (`IsHost` true, `IsMuted`
false), a failing `Create` is the only failure and returns no room, and on
success the returned room is the one passed to `Create`. -/
theorem CreateRoom_spec (r : Room) (id : model.UUID) (clock : Nat → model.Time)
    (hostID : model.UUID) (name : String) (isWaitingRoom : Bool)
    (hclock : clock 1 ≤ clock 0 + 24 * model.Hour) :
    (∀ err, r.userRepo.GetByID hostID = .error err →
      r.CreateRoom id clock hostID name isWaitingRoom
        = ⟨.error (Errorf "host not found" err), [.userGetByID hostID]⟩) ∧
    (∀ user, r.userRepo.GetByID hostID = .ok user →
      (model.NewRoom id (clock 0) name hostID isWaitingRoom).AddParticipant hostID
          (clock 1) (clock 2) =
        ({ model.NewRoom id (clock 0) name hostID isWaitingRoom with
            Participants := [{ UserID := hostID, IsHost := true, IsMuted := false,
                               JoinedAt := clock 2 }] }, none) ∧
      (∀ err,
        r.roomRepo.Create
            { model.NewRoom id (clock 0) name hostID isWaitingRoom with
              Participants := [{ UserID := hostID, IsHost := true, IsMuted := false,
                                 JoinedAt := clock 2 }] } = some err →
        r.CreateRoom id clock hostID name isWaitingRoom =
          ⟨.error (Errorf "failed to create room" err),
            [.userGetByID hostID,
             .roomCreate
               { model.NewRoom id (clock 0) name hostID isWaitingRoom with
                 Participants := [{ UserID := hostID, IsHost := true, IsMuted := false,
                                    JoinedAt := clock 2 }] }]⟩) ∧
      (r.roomRepo.Create
            { model.NewRoom id (clock 0) name hostID isWaitingRoom with
              Participants := [{ UserID := hostID, IsHost := true, IsMuted := false,
                                 JoinedAt := clock 2 }] } = none →
        r.CreateRoom id clock hostID name isWaitingRoom =
          ⟨.ok
              { model.NewRoom id (clock 0) name hostID isWaitingRoom with
                Participants := [{ UserID := hostID, IsHost := true, IsMuted := false,
                                   JoinedAt := clock 2 }] },
            [.userGetByID hostID,
             .roomCreate
               { model.NewRoom id (clock 0) name hostID isWaitingRoom with
                 Participants := [{ UserID := hostID, IsHost := true, IsMuted := false,
                                    JoinedAt := clock 2 }] }]⟩)) := by
  have hadd := add_host_fresh id (clock 0) (clock 1) (clock 2) name hostID isWaitingRoom hclock
  refine ⟨?_, ?_⟩
  · intro err he
    simp only [Room.CreateRoom, he]
  · intro user hu
    refine ⟨hadd, ?_, ?_⟩
    · intro err hc
      simp only [Room.CreateRoom, hu, hadd, hc]
    · intro hc
      simp only [Room.CreateRoom, hu, hadd, hc]

theorem CreateRoom_spec_witness :
    sampleRoomUsecase.CreateRoom 5 noon 3 "daily" false =
      ⟨.ok
          { model.NewRoom 5 (noon 0) "daily" 3 false with
            Participants := [{ UserID := 3, IsHost := true, IsMuted := false,
                               JoinedAt := noon 2 }] },
        [.userGetByID 3,
         .roomCreate
           { model.NewRoom 5 (noon 0) "daily" 3 false with
             Participants := [{ UserID := 3, IsHost := true, IsMuted := false,
                                JoinedAt := noon 2 }] }]⟩ :=
  ((CreateRoom_spec sampleRoomUsecase 5 noon 3 "daily" false (by decide)).2
    domain.userSample rfl).2.2 rfl

/-- C21, as stated, fails: with the host in the user store, a clock that reads more
than 24 hours later at the expiry check of `AddParticipant` than at `NewRoom`
makes the add of the host fail, and `CreateRoom` fails without calling the
store's `Create`. -/
theorem CreateRoom_add_host_can_fail :
    sampleRoomUsecase.userRepo.GetByID 3 = .ok domain.userSample ∧
    (sampleRoomUsecase.CreateRoom 5 stalled 3 "daily" false).ret
      = .error "failed to add host to room: room has expired" ∧
    (sampleRoomUsecase.CreateRoom 5 stalled 3 "daily" false).calls = [.userGetByID 3] :=
  ⟨rfl, rfl, rfl⟩

/-- The outcome of `JoinRoom` once the user and the room are found and the room is
not expired at the first clock reading. -/
theorem JoinRoom_loaded (r : Room) (clock : Nat → model.Time) (userID roomID : model.UUID)
    (user : domain.User) (room : model.Room)
    (hU : r.userRepo.GetByID userID = .ok user) (hR : r.roomRepo.GetByID roomID = .ok room)
    (hE : room.IsExpired (clock 0) = false) :
    r.JoinRoom clock userID roomID =
      match (room.AddParticipant userID (clock 1) (clock 2)).2 with
      | some err =>
        ⟨.error (Errorf "failed to add participant" err),
          [.userGetByID userID, .roomGetByID roomID]⟩
      | none =>
        match r.roomRepo.Update (room.AddParticipant userID (clock 1) (clock 2)).1 with
        | some err =>
          ⟨.error (Errorf "failed to update room" err),
            [.userGetByID userID, .roomGetByID roomID,
             .roomUpdate (room.AddParticipant userID (clock 1) (clock 2)).1]⟩
        | none =>
          ⟨.ok (),
            [.userGetByID userID, .roomGetByID roomID,
             .roomUpdate (room.AddParticipant userID (clock 1) (clock 2)).1,
             .updateSession
               { UserID := userID
                 ConnectionID := ""
                 RoomID := roomID
                 IsHost := (room.AddParticipant userID (clock 1) (clock 2)).1.IsHost userID
                 IsMuted := false
                 ServerPod := ""
                 LastSeen := clock 3 / 1000000000 },
             .notifyRoomJoined roomID userID user.Name]⟩ := by
  simp only [Room.JoinRoom, hU, hR, hE, Bool.false_eq_true, if_false]

theorem JoinRoom_expired_outcome (r : Room) (clock : Nat → model.Time)
    (userID roomID : model.UUID) (user : domain.User) (room : model.Room)
    (hU : r.userRepo.GetByID userID = .ok user) (hR : r.roomRepo.GetByID roomID = .ok room)
    (hE : room.IsExpired (clock 0) = true) :
    r.JoinRoom clock userID roomID =
      ⟨.error "room has expired", [.userGetByID userID, .roomGetByID roomID]⟩ := by
  simp only [Room.JoinRoom, hU, hR, hE, if_true]

/-- `JoinRoom` succeeds exactly when all five steps do. -/
theorem JoinRoom_ok_iff (r : Room) (clock : Nat → model.Time) (userID roomID : model.UUID) :
    (r.JoinRoom clock userID roomID).ret = .ok () ↔
      ∃ user room, r.userRepo.GetByID userID = .ok user ∧
        r.roomRepo.GetByID roomID = .ok room ∧
        room.IsExpired (clock 0) = false ∧
        (room.AddParticipant userID (clock 1) (clock 2)).2 = none ∧
        r.roomRepo.Update (room.AddParticipant userID (clock 1) (clock 2)).1 = none := by
  cases hU : r.userRepo.GetByID userID with
  | error e => simp [Room.JoinRoom, hU]
  | ok user =>
    cases hR : r.roomRepo.GetByID roomID with
    | error e => simp [Room.JoinRoom, hU, hR]
    | ok room =>
      cases hE : room.IsExpired (clock 0) with
      | true => simp [JoinRoom_expired_outcome r clock userID roomID user room hU hR hE, hE]
      | false =>
        rw [JoinRoom_loaded r clock userID roomID user room hU hR hE]
        cases hA : (room.AddParticipant userID (clock 1) (clock 2)).2 with
        | some e => simp [hE, hA]
        | none =>
          cases hW : r.roomRepo.Update (room.AddParticipant userID (clock 1) (clock 2)).1 with
          | some e => simp [hE, hA, hW]
          | none => simp [hE, hA, hW]

/-- A failing `JoinRoom` has called neither the session manager nor the notifier. -/
theorem JoinRoom_error_calls (r : Room) (clock : Nat → model.Time)
    (userID roomID : model.UUID) (msg : String)
    (h : (r.JoinRoom clock userID roomID).ret = .error msg) :
    ∀ e ∈ (r.JoinRoom clock userID roomID).calls, e.isSession = false ∧ e.isNotify = false := by
  cases hU : r.userRepo.GetByID userID with
  | error e => simp [Room.JoinRoom, hU, Event.isSession, Event.isNotify]
  | ok user =>
    cases hR : r.roomRepo.GetByID roomID with
    | error e => simp [Room.JoinRoom, hU, hR, Event.isSession, Event.isNotify]
    | ok room =>
      cases hE : room.IsExpired (clock 0) with
      | true =>
        simp [JoinRoom_expired_outcome r clock userID roomID user room hU hR hE,
          Event.isSession, Event.isNotify]
      | false =>
        rw [JoinRoom_loaded r clock userID roomID user room hU hR hE] at h ⊢
        cases hA : (room.AddParticipant userID (clock 1) (clock 2)).2 with
        | some e => simp [Event.isSession, Event.isNotify]
        | none =>
          cases hW : r.roomRepo.Update (room.AddParticipant userID (clock 1) (clock 2)).1 with
          | some e => simp [Event.isSession, Event.isNotify]
          | none => simp [hA, hW] at h

/-- C22: `JoinRoom` returns success exactly when the user is found, the room is
found, the room is not expired, `AddParticipant` succeeds and the room store's
`Update` succeeds; a successful join has made exactly five collaborator calls:
the two lookups, the `Update` of the loaded room with the user added, the
session upsert and the notification; the result and every collaborator call,
the room written to the store included, are the same whatever the session
manager and the notifier answer; and when `Update` fails (as on every failure)
neither the session upsert nor the notification is performed. -/
theorem JoinRoom_persistence (r : Room) (clock : Nat → model.Time)
    (userID roomID : model.UUID) :
    ((r.JoinRoom clock userID roomID).ret = .ok () ↔
      ∃ user room, r.userRepo.GetByID userID = .ok user ∧
        r.roomRepo.GetByID roomID = .ok room ∧
        room.IsExpired (clock 0) = false ∧
        (room.AddParticipant userID (clock 1) (clock 2)).2 = none ∧
        r.roomRepo.Update (room.AddParticipant userID (clock 1) (clock 2)).1 = none) ∧
    (∀ user room, r.userRepo.GetByID userID = .ok user →
      r.roomRepo.GetByID roomID = .ok room → room.IsExpired (clock 0) = false →
      (room.AddParticipant userID (clock 1) (clock 2)).2 = none →
      r.roomRepo.Update (room.AddParticipant userID (clock 1) (clock 2)).1 = none →
      r.JoinRoom clock userID roomID =
        ⟨.ok (),
          [.userGetByID userID, .roomGetByID roomID,
           .roomUpdate (room.AddParticipant userID (clock 1) (clock 2)).1,
           .updateSession
             { UserID := userID
               ConnectionID := ""
               RoomID := roomID
               IsHost := (room.AddParticipant userID (clock 1) (clock 2)).1.IsHost userID
               IsMuted := false
               ServerPod := ""
               LastSeen := clock 3 / 1000000000 },
           .notifyRoomJoined roomID userID user.Name]⟩) ∧
    (∀ (sessions : service.SessionManager) (notifier : service.RealtimeNotifier),
      ({ r with sessionManager := sessions, realtimeNotifier := notifier } : Room).JoinRoom
          clock userID roomID
        = r.JoinRoom clock userID roomID) ∧
    (∀ user room err, r.userRepo.GetByID userID = .ok user →
      r.roomRepo.GetByID roomID = .ok room → room.IsExpired (clock 0) = false →
      (room.AddParticipant userID (clock 1) (clock 2)).2 = none →
      r.roomRepo.Update (room.AddParticipant userID (clock 1) (clock 2)).1 = some err →
      r.JoinRoom clock userID roomID =
        ⟨.error (Errorf "failed to update room" err),
          [.userGetByID userID, .roomGetByID roomID,
           .roomUpdate (room.AddParticipant userID (clock 1) (clock 2)).1]⟩) ∧
    (∀ msg, (r.JoinRoom clock userID roomID).ret = .error msg →
      ∀ e ∈ (r.JoinRoom clock userID roomID).calls,
        e.isSession = false ∧ e.isNotify = false) := by
  refine ⟨JoinRoom_ok_iff r clock userID roomID, ?_, ?_, ?_,
    JoinRoom_error_calls r clock userID roomID⟩
  · intro user room hU hR hE hA hW
    rw [JoinRoom_loaded r clock userID roomID user room hU hR hE]
    simp only [hA, hW]
  · intro sessions notifier
    rfl
  · intro user room err hU hR hE hA hW
    rw [JoinRoom_loaded r clock userID roomID user room hU hR hE]
    simp only [hA, hW]

theorem JoinRoom_persistence_witness :
    acceptingRoomUsecase.JoinRoom noon 3 7 =
      ⟨.ok (),
        [.userGetByID 3, .roomGetByID 7,
         .roomUpdate
           { nilRoom with
             Participants :=
               [{ UserID := 0, IsHost := false, IsMuted := false, JoinedAt := 1 },
                { UserID := 3, IsHost := false, IsMuted := false, JoinedAt := 50 }] },
         .updateSession
           { UserID := 3
             ConnectionID := ""
             RoomID := 7
             IsHost := false
             IsMuted := false
             ServerPod := ""
             LastSeen := 0 },
         .notifyRoomJoined 7 3 domain.userSample.Name]⟩ ∧
    sampleRoomUsecase.JoinRoom noon 3 7 =
      ⟨.error (Errorf "failed to update room" "connection lost"),
        [.userGetByID 3, .roomGetByID 7,
         .roomUpdate (nilRoom.AddParticipant 3 (noon 1) (noon 2)).1]⟩ :=
  ⟨(JoinRoom_persistence acceptingRoomUsecase noon 3 7).2.1 domain.userSample nilRoom
      rfl rfl (by decide) (by decide) rfl,
   (JoinRoom_persistence sampleRoomUsecase noon 3 7).2.2.2.1 domain.userSample nilRoom
      "connection lost" rfl rfl (by decide) (by decide) rfl⟩

/-- C23: for a user the store holds (on the roster or not) and a stored room whose
`ExpiresAt` is strictly before the clock reading, `JoinRoom` fails with
"room has expired" after the two lookups alone: no room-store write, no session
call and no notification. -/
theorem JoinRoom_expired (r : Room) (clock : Nat → model.Time) (userID roomID : model.UUID)
    (user : domain.User) (room : model.Room)
    (hU : r.userRepo.GetByID userID = .ok user) (hR : r.roomRepo.GetByID roomID = .ok room)
    (hexp : room.ExpiresAt < clock 0) :
    r.JoinRoom clock userID roomID =
      ⟨.error "room has expired", [.userGetByID userID, .roomGetByID roomID]⟩ ∧
    (∀ e ∈ (r.JoinRoom clock userID roomID).calls,
      e.isRoomWrite = false ∧ e.isSession = false ∧ e.isNotify = false) := by
  have hE : room.IsExpired (clock 0) = true := by
    simp only [model.Room.IsExpired, decide_eq_true_eq]
    exact hexp
  have h := JoinRoom_expired_outcome r clock userID roomID user room hU hR hE
  refine ⟨h, ?_⟩
  rw [h]
  simp [Event.isRoomWrite, Event.isSession, Event.isNotify]

theorem JoinRoom_expired_witness :
    model.openRoom.IsParticipant 3 = true ∧
    sampleRoomUsecase.JoinRoom (fun _ => 101) 3 8 =
      ⟨.error "room has expired", [.userGetByID 3, .roomGetByID 8]⟩ :=
  ⟨by decide,
   (JoinRoom_expired sampleRoomUsecase (fun _ => 101) 3 8 domain.userSample model.openRoom
      rfl rfl (by decide)).1⟩

/-- C24: for a user the store holds and a stored room, `LeaveRoom` by a user who is
not on the roster returns the removal error after the two lookups, calling
neither `Delete` nor `Update`; for a participant, with the roster split at the
user's first entry, if nothing remains the only store write is
`Delete(roomID)`, otherwise it is `Update` with the room minus that entry; a
failure of that write is returned (wrapped) and ends the call, and after a
successful write the session is deleted and the leave is notified. -/
theorem LeaveRoom_spec (r : Room) (userID roomID : model.UUID) (user : domain.User)
    (room : model.Room)
    (hU : r.userRepo.GetByID userID = .ok user) (hR : r.roomRepo.GetByID roomID = .ok room) :
    (userID ∉ room.Participants.map model.Participant.UserID →
      r.LeaveRoom userID roomID =
        ⟨.error (Errorf "failed to remove participant" "participant not found"),
          [.userGetByID userID, .roomGetByID roomID]⟩) ∧
    (userID ∈ room.Participants.map model.Participant.UserID →
      ∃ pre p post, room.Participants = pre ++ p :: post ∧ p.UserID = userID ∧
        (∀ q ∈ pre, q.UserID ≠ userID) ∧
        (pre ++ post = [] →
          r.LeaveRoom userID roomID =
            match r.roomRepo.Delete roomID with
            | some err =>
              ⟨.error (Errorf "failed to delete empty room" err),
                [.userGetByID userID, .roomGetByID roomID, .roomDelete roomID]⟩
            | none =>
              ⟨.ok (),
                [.userGetByID userID, .roomGetByID roomID, .roomDelete roomID,
                 .deleteSession userID, .notifyRoomLeft roomID userID user.Name]⟩) ∧
        (pre ++ post ≠ [] →
          r.LeaveRoom userID roomID =
            match r.roomRepo.Update { room with Participants := pre ++ post } with
            | some err =>
              ⟨.error (Errorf "failed to update room" err),
                [.userGetByID userID, .roomGetByID roomID,
                 .roomUpdate { room with Participants := pre ++ post }]⟩
            | none =>
              ⟨.ok (),
                [.userGetByID userID, .roomGetByID roomID,
                 .roomUpdate { room with Participants := pre ++ post },
                 .deleteSession userID, .notifyRoomLeft roomID userID user.Name]⟩)) := by
  refine ⟨?_, ?_⟩
  · intro hu
    simp only [Room.LeaveRoom, hU, hR, model.RemoveParticipant_absent room userID hu]
  · intro hu
    obtain ⟨pre, p, post, hps, hp, hpre⟩ := model.roster_split room.Participants userID hu
    have hrm := model.RemoveParticipant_present room userID pre post p hps hp hpre
    refine ⟨pre, p, post, hps, hp, hpre, ?_, ?_⟩
    · intro hempty
      simp only [Room.LeaveRoom, hU, hR, hrm, model.Room.GetParticipantCount, hempty,
        List.length_nil, Nat.cast_zero, if_true]
    · intro hne
      have hlen : ¬ (((pre ++ post).length : Int) = 0) := by
        intro h0
        exact hne (List.length_eq_zero.1 (by exact_mod_cast h0))
      simp only [Room.LeaveRoom, hU, hR, hrm, model.Room.GetParticipantCount, hlen, if_false]

theorem LeaveRoom_spec_witness :
    sampleRoomUsecase.LeaveRoom 3 6 =
      ⟨.ok (),
        [.userGetByID 3, .roomGetByID 6, .roomDelete 6, .deleteSession 3,
         .notifyRoomLeft 6 3 "Original Name"]⟩ ∧
    sampleRoomUsecase.LeaveRoom 3 8 =
      ⟨.error (Errorf "failed to update room" "connection lost"),
        [.userGetByID 3, .roomGetByID 8,
         .roomUpdate { model.openRoom with Participants := model.openRoom.Participants.take 2 }]⟩ ∧
    sampleRoomUsecase.LeaveRoom 3 9 =
      ⟨.error (Errorf "failed to remove participant" "participant not found"),
        [.userGetByID 3, .roomGetByID 9]⟩ :=
  ⟨rfl, rfl,
   (LeaveRoom_spec sampleRoomUsecase 3 9 domain.userSample model.fullRoom rfl rfl).1
     (by decide)⟩

/-- C25: `GetRoom` calls the room store's `GetByID` and nothing else, so it performs
no `Create`, `Update` or `Delete`; for a stored room it returns the room exactly
when the clock reading is not after `ExpiresAt`, and fails with
"room has expired" when it is after. -/
theorem GetRoom_spec (r : Room) (clock : Nat → model.Time) (roomID : model.UUID) :
    (r.GetRoom clock roomID).calls = [.roomGetByID roomID] ∧
    (∀ e ∈ (r.GetRoom clock roomID).calls, e.isRoomWrite = false) ∧
    (∀ room, r.roomRepo.GetByID roomID = .ok room →
      ((r.GetRoom clock roomID).ret = .ok room ↔ clock 0 ≤ room.ExpiresAt) ∧
      (room.ExpiresAt < clock 0 → (r.GetRoom clock roomID).ret = .error "room has expired")) := by
  have hcalls : (r.GetRoom clock roomID).calls = [.roomGetByID roomID] := by
    simp only [Room.GetRoom]
    cases r.roomRepo.GetByID roomID with
    | error e => rfl
    | ok room => by_cases hE : room.IsExpired (clock 0) = true <;> simp [hE]
  refine ⟨hcalls, ?_, ?_⟩
  · rw [hcalls]
    simp [Event.isRoomWrite]
  · intro room hR
    by_cases hlt : room.ExpiresAt < clock 0
    · have hE : room.IsExpired (clock 0) = true := by
        simp only [model.Room.IsExpired, decide_eq_true_eq]; exact hlt
      have hret : (r.GetRoom clock roomID).ret = .error "room has expired" := by
        simp only [Room.GetRoom, hR, hE, if_true]
      refine ⟨?_, fun _ => hret⟩
      rw [hret]
      constructor
      · intro h; cases h
      · intro h; exact absurd hlt (not_lt.2 h)
    · have hE : room.IsExpired (clock 0) = false := by
        simp only [model.Room.IsExpired, decide_eq_false_iff_not]; exact hlt
      have hret : (r.GetRoom clock roomID).ret = .ok room := by
        simp only [Room.GetRoom, hR, hE, Bool.false_eq_true, if_false]
      exact ⟨⟨fun _ => not_lt.1 hlt, fun _ => hret⟩, fun h => absurd h hlt⟩

theorem GetRoom_spec_witness :
    (sampleRoomUsecase.GetRoom (fun _ => 100) 8).ret = .ok model.openRoom ∧
    (sampleRoomUsecase.GetRoom (fun _ => 101) 8).ret = .error "room has expired" :=
  ⟨((GetRoom_spec sampleRoomUsecase (fun _ => 100) 8).2.2 model.openRoom rfl).1.2 (by decide),
   ((GetRoom_spec sampleRoomUsecase (fun _ => 101) 8).2.2 model.openRoom rfl).2 (by decide)⟩

/-- When every iteration reads the same time the loop appends the rooms that are
not expired at that time, in order. -/
theorem activeLoop_filter (clock : Nat → model.Time) (now : model.Time)
    (rooms : List model.Room) (i : Nat) (activeRooms : List model.Room)
    (h : ∀ j, i ≤ j → j < i + rooms.length → clock j = now) :
    Room.activeLoop clock rooms i activeRooms
      = activeRooms ++ rooms.filter (fun room => !room.IsExpired now) := by
  induction rooms generalizing i activeRooms with
  | nil => simp [Room.activeLoop]
  | cons room rest ih =>
    have hi : clock i = now := h i (le_refl i) (by simp)
    have hrest : ∀ j, i + 1 ≤ j → j < i + 1 + rest.length → clock j = now := by
      intro j h1 h2
      exact h j (by omega) (by simp only [List.length_cons]; omega)
    cases hE : room.IsExpired now with
    | true =>
      simp only [Room.activeLoop, hi, hE, Bool.not_true, Bool.false_eq_true, if_false,
        ih (i + 1) activeRooms hrest, List.filter_cons_of_neg, not_false_eq_true]
    | false =>
      simp only [Room.activeLoop, hi, hE, Bool.not_false, if_true,
        ih (i + 1) (activeRooms ++ [room]) hrest, List.filter_cons_of_pos,
        List.append_assoc, List.singleton_append]

/-- The loop appends, in order, the rooms that are not expired at the time read in
their own iteration. -/
theorem activeLoop_enum (clock : Nat → model.Time) (rooms : List model.Room) (i : Nat)
    (activeRooms : List model.Room) :
    Room.activeLoop clock rooms i activeRooms
      = activeRooms ++
        ((rooms.enumFrom i).filter (fun p => !p.2.IsExpired (clock p.1))).map Prod.snd := by
  induction rooms generalizing i activeRooms with
  | nil => simp [Room.activeLoop]
  | cons room rest ih =>
    cases hE : room.IsExpired (clock i) with
    | true =>
      simp only [Room.activeLoop, hE, Bool.not_true, Bool.false_eq_true, if_false,
        ih (i + 1) activeRooms, List.enumFrom_cons, List.filter_cons_of_neg, not_false_eq_true]
    | false =>
      simp only [Room.activeLoop, hE, Bool.not_false, if_true,
        ih (i + 1) (activeRooms ++ [room]), List.enumFrom_cons, List.filter_cons_of_pos,
        List.map_cons, List.append_assoc, List.singleton_append]

/-- C26 fails on the code as stated: the loop reads the time once per room, so the
rooms returned need not be the live ones of any one instant. The store lists
four rooms for host 1, of which `openRoom` and `fullRoom` both expire at
instant 100; with a clock that reads 100 at the first two rooms and 101 from
then on, `GetUserRooms` returns the first three rooms, and at no instant are
exactly these three the rooms of the list that are not expired. -/
theorem GetUserRooms_no_single_instant :
    sampleRoomUsecase.roomRepo.GetByHostID 1
      = .ok [soloRoom, model.openRoom, nilRoom, model.fullRoom] ∧
    model.openRoom.ExpiresAt = 100 ∧ model.fullRoom.ExpiresAt = 100 ∧
    sampleRoomUsecase.GetUserRooms ticking 1 =
      ⟨.ok [soloRoom, model.openRoom, nilRoom], [.roomGetByHostID 1]⟩ ∧
    ¬ ∃ now : model.Time,
      [soloRoom, model.openRoom, nilRoom, model.fullRoom].filter
          (fun room => !room.IsExpired now)
        = [soloRoom, model.openRoom, nilRoom] := by
  refine ⟨rfl, rfl, rfl, rfl, ?_⟩
  rintro ⟨now, h⟩
  have h1 : model.openRoom ∈ [soloRoom, model.openRoom, nilRoom, model.fullRoom].filter
      (fun room => !room.IsExpired now) := by
    rw [h]; decide
  have h2 : model.fullRoom ∈ [soloRoom, model.openRoom, nilRoom, model.fullRoom].filter
      (fun room => !room.IsExpired now) := by
    rw [List.mem_filter] at h1 ⊢
    exact ⟨by decide, h1.2⟩
  rw [h] at h2
  revert h2
  decide

/-- C26, amended: when the store's `GetByHostID` answers the list `L`,
`GetUserRooms` returns exactly the rooms of `L` that are not expired at the
time read when the loop reaches them (the `i`-th room is checked against the
`i`-th reading), in their order in `L`: the room at position `i` is returned
exactly when that reading is not after its `ExpiresAt`; when all the readings
are one instant `now`, the result is the list of the rooms of `L` not expired
at `now`; the only collaborator call is `GetByHostID`, so nothing is written or
deleted. -/
theorem GetUserRooms_live (r : Room) (clock : Nat → model.Time)
    (userID : model.UUID) (L : List model.Room)
    (hL : r.roomRepo.GetByHostID userID = .ok L) :
    r.GetUserRooms clock userID =
      ⟨.ok (((L.enumFrom 0).filter (fun p => !p.2.IsExpired (clock p.1))).map Prod.snd),
        [.roomGetByHostID userID]⟩ ∧
    List.Sublist
      (((L.enumFrom 0).filter (fun p => !p.2.IsExpired (clock p.1))).map Prod.snd) L ∧
    (∀ (i : Nat) (room : model.Room), L.get? i = some room →
      ((i, room) ∈ (L.enumFrom 0).filter (fun p => !p.2.IsExpired (clock p.1))
        ↔ clock i ≤ room.ExpiresAt)) ∧
    (∀ room, room ∈ ((L.enumFrom 0).filter (fun p => !p.2.IsExpired (clock p.1))).map Prod.snd
      ↔ ∃ i, L.get? i = some room ∧ clock i ≤ room.ExpiresAt) ∧
    (∀ now, (∀ i, i < L.length → clock i = now) →
      r.GetUserRooms clock userID =
        ⟨.ok (L.filter (fun room => !room.IsExpired now)), [.roomGetByHostID userID]⟩) ∧
    (∀ e ∈ (r.GetUserRooms clock userID).calls, e.isRoomWrite = false) := by
  have hout : r.GetUserRooms clock userID =
      ⟨.ok (((L.enumFrom 0).filter (fun p => !p.2.IsExpired (clock p.1))).map Prod.snd),
        [.roomGetByHostID userID]⟩ := by
    simp only [Room.GetUserRooms, hL]
    rw [activeLoop_enum clock L 0 []]
    simp
  have hmem : ∀ (i : Nat) (room : model.Room),
      ((i, room) ∈ (L.enumFrom 0).filter (fun p => !p.2.IsExpired (clock p.1))
        ↔ L.get? i = some room ∧ clock i ≤ room.ExpiresAt) := by
    intro i room
    simp only [List.mem_filter, List.mk_mem_enumFrom_iff_le_and_getElem?_sub,
      model.Room.IsExpired, Bool.not_eq_true', decide_eq_false_iff_not, not_lt,
      Nat.zero_le, true_and, Nat.sub_zero, List.get?_eq_getElem?]
  refine ⟨hout, ?_, ?_, ?_, ?_, ?_⟩
  · have h := (List.filter_sublist (L.enumFrom 0)
      (p := fun p => !p.2.IsExpired (clock p.1))).map Prod.snd
    rw [List.enumFrom_map_snd] at h
    exact h
  · intro i room hi
    rw [hmem i room]
    exact ⟨fun h => h.2, fun h => ⟨hi, h⟩⟩
  · intro room
    rw [List.mem_map]
    constructor
    · rintro ⟨⟨i, x⟩, hx, rfl⟩
      exact ⟨i, (hmem i x).1 hx⟩
    · rintro ⟨i, hi⟩
      exact ⟨(i, room), (hmem i room).2 hi, rfl⟩
  · intro now hnow
    simp only [Room.GetUserRooms, hL]
    rw [activeLoop_filter clock now L 0 [] (fun j _ hj => hnow j (by omega))]
    simp
  · rw [hout]
    simp [Event.isRoomWrite]

theorem GetUserRooms_live_witness :
    sampleRoomUsecase.GetUserRooms stalled 1 =
      ⟨.ok [soloRoom], [.roomGetByHostID 1]⟩ ∧
    sampleRoomUsecase.GetUserRooms (fun _ => 101) 1 =
      ⟨.ok [soloRoom, nilRoom], [.roomGetByHostID 1]⟩ :=
  ⟨(GetUserRooms_live sampleRoomUsecase stalled 1
      [soloRoom, model.openRoom, nilRoom, model.fullRoom] rfl).1.trans rfl,
   ((GetUserRooms_live sampleRoomUsecase (fun _ => 101) 1
      [soloRoom, model.openRoom, nilRoom, model.fullRoom] rfl).2.2.2.2.1 101
      (fun _ _ => rfl)).trans rfl⟩

/-- The 64-bit product of an hour count within 2,562,047 hours of zero and
`time.Hour` is their integer product. -/
theorem wrapInt64_hours (hours : Int) (hlo : -2562047 ≤ hours) (hhi : hours ≤ 2562047) :
    wrapInt64 (hours * model.Hour) = hours * model.Hour := by
  unfold wrapInt64 model.Hour
  omega

/-- The outcomes of `ExtendRoomExpiry` on a stored room: a caller other than
`HostID` gets "only host can extend room expiry" and no `Update` is called; for
the host, the room passed to `Update` is the loaded room after
`ExtendExpiry(time.Duration(hours) * time.Hour)`, success is returned exactly
when `Update` succeeds, and the result does not depend on the notifier. -/
theorem ExtendRoomExpiry_outcome (r : Room) (hostID roomID : model.UUID) (hours : Int)
    (room : model.Room) (hR : r.roomRepo.GetByID roomID = .ok room) :
    (hostID ≠ room.HostID →
      r.ExtendRoomExpiry hostID roomID hours =
        ⟨.error "only host can extend room expiry", [.roomGetByID roomID]⟩) ∧
    (hostID = room.HostID →
      r.ExtendRoomExpiry hostID roomID hours =
        match r.roomRepo.Update (room.ExtendExpiry (wrapInt64 (hours * model.Hour))) with
        | some err =>
          ⟨.error (Errorf "failed to update room" err),
            [.roomGetByID roomID,
             .roomUpdate (room.ExtendExpiry (wrapInt64 (hours * model.Hour)))]⟩
        | none =>
          ⟨.ok (),
            [.roomGetByID roomID,
             .roomUpdate (room.ExtendExpiry (wrapInt64 (hours * model.Hour))),
             .notifyRoomUpdate (room.ExtendExpiry (wrapInt64 (hours * model.Hour)))]⟩) ∧
    (hostID = room.HostID →
      ((r.ExtendRoomExpiry hostID roomID hours).ret = .ok () ↔
        r.roomRepo.Update (room.ExtendExpiry (wrapInt64 (hours * model.Hour))) = none)) ∧
    (∀ notifier : service.RealtimeNotifier,
      ({ r with realtimeNotifier := notifier } : Room).ExtendRoomExpiry hostID roomID hours
        = r.ExtendRoomExpiry hostID roomID hours) := by
  have hhost : hostID = room.HostID →
      r.ExtendRoomExpiry hostID roomID hours =
        match r.roomRepo.Update (room.ExtendExpiry (wrapInt64 (hours * model.Hour))) with
        | some err =>
          ⟨.error (Errorf "failed to update room" err),
            [.roomGetByID roomID,
             .roomUpdate (room.ExtendExpiry (wrapInt64 (hours * model.Hour)))]⟩
        | none =>
          ⟨.ok (),
            [.roomGetByID roomID,
             .roomUpdate (room.ExtendExpiry (wrapInt64 (hours * model.Hour))),
             .notifyRoomUpdate (room.ExtendExpiry (wrapInt64 (hours * model.Hour)))]⟩ := by
    intro h
    have hH : room.IsHost hostID = true := by
      simp only [model.Room.IsHost, decide_eq_true_eq]; exact h.symm
    simp only [Room.ExtendRoomExpiry, hR, hH, Bool.not_true, Bool.false_eq_true, if_false]
  refine ⟨?_, hhost, ?_, fun _ => rfl⟩
  · intro h
    have hH : room.IsHost hostID = false := by
      simp only [model.Room.IsHost, decide_eq_false_iff_not]
      exact fun e => h e.symm
    simp only [Room.ExtendRoomExpiry, hR, hH, Bool.not_false, if_true]
  · intro h
    rw [hhost h]
    cases r.roomRepo.Update (room.ExtendExpiry (wrapInt64 (hours * model.Hour))) with
    | some err => simp
    | none => simp

/-- C27 fails on the code: for the host of stored room 8, which expires at instant
100, and `hours = 5124096`, the instant `ExpiresAt + hours × 1 hour` is
18446745600000000100 and is in the range of `time.Time`, but the 64-bit product
`time.Duration(hours) * time.Hour` wraps to 1526290448384 ns (about 25
minutes), and the room that `ExtendRoomExpiry` passes to `Update`, returning
success, has `ExpiresAt = 1526290448484`. -/
theorem ExtendRoomExpiry_hours_overflow :
    acceptingRoomUsecase.roomRepo.GetByID 8 = .ok model.openRoom ∧
    model.openRoom.IsHost 1 = true ∧
    (0 : Int) ≤ 5124096 ∧ (5124096 : Int) < 2 ^ 31 ∧
    model.openRoom.ExpiresAt + 5124096 * model.Hour = 18446745600000000100 ∧
    model.Time.ok (model.openRoom.ExpiresAt + 5124096 * model.Hour) ∧
    wrapInt64 (5124096 * model.Hour) = 1526290448384 ∧
    acceptingRoomUsecase.ExtendRoomExpiry 1 8 5124096 =
      ⟨.ok (),
        [.roomGetByID 8,
         .roomUpdate { model.openRoom with ExpiresAt := 1526290448484 },
         .notifyRoomUpdate { model.openRoom with ExpiresAt := 1526290448484 }]⟩ ∧
    (1526290448484 : Int) ≠ model.openRoom.ExpiresAt + 5124096 * model.Hour :=
  ⟨rfl, by decide, by decide, by decide, by decide, by decide, by decide, rfl, by decide⟩

/-! ## The message orchestrator -/

/-- The outcome of `SendMessage` once the user and room lookups, the expiry check
and the participant check have passed. -/
theorem SendMessage_checked (c : Message) (id : model.UUID) (clock : Nat → model.Time)
    (senderID roomID : model.UUID) (messageText : String) (user : domain.User)
    (room : model.Room)
    (hU : c.userRepo.GetByID senderID = .ok user) (hR : c.roomRepo.GetByID roomID = .ok room)
    (hE : room.IsExpired (clock 0) = false) (hP : room.IsParticipant senderID = true) :
    c.SendMessage id clock senderID roomID messageText =
      if (domain.NewChatMessage id (clock 1) senderID roomID messageText user.Name).IsValid
          = false then
        ⟨.error "invalid message", [.userGetByID senderID, .roomGetByID roomID]⟩
      else
        match c.messageRepo.SaveChatMessage
            (domain.NewChatMessage id (clock 1) senderID roomID messageText user.Name) with
        | some err =>
          ⟨.error (Errorf "failed to save message" err),
            [.userGetByID senderID, .roomGetByID roomID,
             .saveChatMessage
               (domain.NewChatMessage id (clock 1) senderID roomID messageText user.Name)]⟩
        | none =>
          ⟨.ok (),
            [.userGetByID senderID, .roomGetByID roomID,
             .saveChatMessage
               (domain.NewChatMessage id (clock 1) senderID roomID messageText user.Name),
             .broadcastChatMessage
               (domain.NewChatMessage id (clock 1) senderID roomID messageText user.Name)]⟩ := by
  simp only [Message.SendMessage, hU, hR, hE, hP, Bool.false_eq_true, if_false, Bool.not_true,
    Bool.not_eq_true']

/-- A chat message is valid exactly when its sender and room are not the nil UUID. -/
theorem NewChatMessage_valid (id : model.UUID) (now : model.Time)
    (senderID roomID : model.UUID) (message userName : String) :
    (domain.NewChatMessage id now senderID roomID message userName).IsValid = true ↔
      senderID ≠ uuid.Nil ∧ roomID ≠ uuid.Nil := by
  rw [domain.IsValid_eq]
  have hty : (domain.NewChatMessage id now senderID roomID message userName).Type_
      = "chat_message" := rfl
  have hsd : (domain.NewChatMessage id now senderID roomID message userName).SenderUserID
      = senderID := rfl
  have hrm : (domain.NewChatMessage id now senderID roomID message userName).RoomID
      = roomID := rfl
  rw [hty, hsd, hrm]
  constructor
  · intro h
    exact ⟨h.2.2.1 (Or.inl rfl), h.2.1⟩
  · intro h
    refine ⟨by decide, h.2, fun _ => h.1, ?_⟩
    intro hty
    rcases hty with e | e | e <;> exact absurd e (by decide)

theorem Errorf_length (msg err : String) :
    (Errorf msg err).length = msg.length + 2 + err.length := by
  simp only [Errorf, String.length_append]
  rfl

/-- C28: the checks of `SendMessage` run in the order user lookup, room lookup,
expiry, participation, each failing check ending the call at once; so for a
sender the store holds and a stored room that is not expired and whose roster
lacks the sender it fails with "user is not a participant in this room", and
after any failing check neither `SaveChatMessage` nor `BroadcastChatMessage`
(nor any other history-store call) has been made. -/
theorem SendMessage_check_order (c : Message) (id : model.UUID) (clock : Nat → model.Time)
    (senderID roomID : model.UUID) (messageText : String) :
    (∀ err, c.userRepo.GetByID senderID = .error err →
      c.SendMessage id clock senderID roomID messageText =
        ⟨.error (Errorf "user not found" err), [.userGetByID senderID]⟩) ∧
    (∀ user err, c.userRepo.GetByID senderID = .ok user →
      c.roomRepo.GetByID roomID = .error err →
      c.SendMessage id clock senderID roomID messageText =
        ⟨.error (Errorf "room not found" err),
          [.userGetByID senderID, .roomGetByID roomID]⟩) ∧
    (∀ user room, c.userRepo.GetByID senderID = .ok user →
      c.roomRepo.GetByID roomID = .ok room → room.ExpiresAt < clock 0 →
      c.SendMessage id clock senderID roomID messageText =
        ⟨.error "room has expired", [.userGetByID senderID, .roomGetByID roomID]⟩) ∧
    (∀ user room, c.userRepo.GetByID senderID = .ok user →
      c.roomRepo.GetByID roomID = .ok room → clock 0 ≤ room.ExpiresAt →
      senderID ∉ room.Participants.map model.Participant.UserID →
      c.SendMessage id clock senderID roomID messageText =
        ⟨.error "user is not a participant in this room",
          [.userGetByID senderID, .roomGetByID roomID]⟩ ∧
      ∀ e ∈ (c.SendMessage id clock senderID roomID messageText).calls,
        e.isHistory = false ∧ e.isNotify = false) := by
  refine ⟨?_, ?_, ?_, ?_⟩
  · intro err hU
    simp only [Message.SendMessage, hU]
  · intro user err hU hR
    simp only [Message.SendMessage, hU, hR]
  · intro user room hU hR hlt
    have hE : room.IsExpired (clock 0) = true := by
      simp only [model.Room.IsExpired, decide_eq_true_eq]; exact hlt
    simp only [Message.SendMessage, hU, hR, hE, if_true]
  · intro user room hU hR hle hnp
    have hE : room.IsExpired (clock 0) = false := by
      simp only [model.Room.IsExpired, decide_eq_false_iff_not, not_lt]; exact hle
    have hP : room.IsParticipant senderID = false := by
      cases hb : room.IsParticipant senderID with
      | false => rfl
      | true => exact absurd ((model.IsParticipant_iff room senderID).1 hb) hnp
    have hout : c.SendMessage id clock senderID roomID messageText =
        ⟨.error "user is not a participant in this room",
          [.userGetByID senderID, .roomGetByID roomID]⟩ := by
      simp only [Message.SendMessage, hU, hR, hE, hP, Bool.false_eq_true, if_false,
        Bool.not_false, if_true]
    refine ⟨hout, ?_⟩
    rw [hout]
    simp [Event.isHistory, Event.isNotify]

theorem SendMessage_check_order_witness :
    sampleMessageUsecase.SendMessage 100 noon 3 9 "hi" =
      ⟨.error "user is not a participant in this room", [.userGetByID 3, .roomGetByID 9]⟩ :=
  ((SendMessage_check_order sampleMessageUsecase 100 noon 3 9 "hi").2.2.2 domain.userSample
    model.fullRoom rfl rfl (by decide) (by decide)).1

/-- C29 fails on the code as stated: the store holds a user under the nil UUID, and
room 7 has the nil UUID on its roster; for the sender `uuid.Nil` the user
lookup, the room lookup, the expiry check and the participant check pass and
the history store accepts the message built, yet `SendMessage` returns the
error "invalid message" and neither saves nor broadcasts. -/
theorem SendMessage_save_accepted_yet_fails :
    sampleMessageUsecase.userRepo.GetByID uuid.Nil
      = .ok { domain.userSample with ID := uuid.Nil, Name := "Nobody" } ∧
    sampleMessageUsecase.roomRepo.GetByID 7 = .ok nilRoom ∧
    nilRoom.IsExpired (noon 0) = false ∧
    nilRoom.IsParticipant uuid.Nil = true ∧
    sampleMessageUsecase.messageRepo.SaveChatMessage
      (domain.NewChatMessage 100 (noon 1) uuid.Nil 7 "hi" "Nobody") = none ∧
    (sampleMessageUsecase.SendMessage 100 noon uuid.Nil 7 "hi").ret
      = .error "invalid message" ∧
    (sampleMessageUsecase.SendMessage 100 noon uuid.Nil 7 "hi").calls
      = [.userGetByID uuid.Nil, .roomGetByID 7] :=
  ⟨rfl, rfl, by decide, by decide, rfl, rfl, rfl⟩

/-- C29, amended: once the sender and room lookups, the expiry check and the
participant check have passed, the message is the chat message of the given
sender and room whose payload carries the text and the sender's stored name;
if `SaveChatMessage` fails for it, `SendMessage` returns an error and makes no
notifier call; and when neither the sender ID nor the room ID is the nil UUID,
`SaveChatMessage` is called with that message: if it fails, `SendMessage`
returns the wrapped error after the save alone, and if it succeeds,
`SendMessage` returns success having saved and then broadcast that same
message; the outcome is the same whatever the notifier answers. -/
theorem SendMessage_durability (c : Message) (id : model.UUID) (clock : Nat → model.Time)
    (senderID roomID : model.UUID) (messageText : String) (user : domain.User)
    (room : model.Room)
    (hU : c.userRepo.GetByID senderID = .ok user) (hR : c.roomRepo.GetByID roomID = .ok room)
    (hE : room.IsExpired (clock 0) = false) (hP : room.IsParticipant senderID = true) :
    (domain.NewChatMessage id (clock 1) senderID roomID messageText user.Name =
      { ID := id, Type_ := "chat_message", SenderUserID := senderID,
        TargetUserID := uuid.Nil, RoomID := roomID,
        Payload := .chat { Message := messageText, UserName := user.Name },
        Timestamp := clock 1 }) ∧
    (∀ err,
      c.messageRepo.SaveChatMessage
        (domain.NewChatMessage id (clock 1) senderID roomID messageText user.Name) = some err →
      (∃ msg, (c.SendMessage id clock senderID roomID messageText).ret = .error msg) ∧
      ∀ e ∈ (c.SendMessage id clock senderID roomID messageText).calls, e.isNotify = false) ∧
    (senderID ≠ uuid.Nil → roomID ≠ uuid.Nil →
      (∀ err,
        c.messageRepo.SaveChatMessage
          (domain.NewChatMessage id (clock 1) senderID roomID messageText user.Name)
            = some err →
        c.SendMessage id clock senderID roomID messageText =
          ⟨.error (Errorf "failed to save message" err),
            [.userGetByID senderID, .roomGetByID roomID,
             .saveChatMessage
               (domain.NewChatMessage id (clock 1) senderID roomID messageText user.Name)]⟩) ∧
      (c.messageRepo.SaveChatMessage
          (domain.NewChatMessage id (clock 1) senderID roomID messageText user.Name) = none →
        c.SendMessage id clock senderID roomID messageText =
          ⟨.ok (),
            [.userGetByID senderID, .roomGetByID roomID,
             .saveChatMessage
               (domain.NewChatMessage id (clock 1) senderID roomID messageText user.Name),
             .broadcastChatMessage
               (domain.NewChatMessage id (clock 1) senderID roomID messageText
                 user.Name)]⟩)) ∧
    (∀ notifier : service.RealtimeNotifier,
      ({ c with realtimeNotifier := notifier } : Message).SendMessage id clock senderID roomID
          messageText
        = c.SendMessage id clock senderID roomID messageText) := by
  have hout := SendMessage_checked c id clock senderID roomID messageText user room hU hR hE hP
  refine ⟨rfl, ?_, ?_, fun _ => rfl⟩
  · intro err hS
    rw [hout]
    cases hV : (domain.NewChatMessage id (clock 1) senderID roomID messageText
        user.Name).IsValid with
    | false => simp [Event.isNotify]
    | true => simp [hS, Event.isNotify]
  · intro hs hr
    have hV := (NewChatMessage_valid id (clock 1) senderID roomID messageText user.Name).2
      ⟨hs, hr⟩
    constructor
    · intro err hS
      rw [hout]
      simp [hV, hS]
    · intro hS
      rw [hout]
      simp [hV, hS]

theorem SendMessage_durability_witness :
    sampleMessageUsecase.SendMessage 100 noon 3 8 "hi" =
      ⟨.ok (),
        [.userGetByID 3, .roomGetByID 8,
         .saveChatMessage (domain.NewChatMessage 100 (noon 1) 3 8 "hi" "Original Name"),
         .broadcastChatMessage (domain.NewChatMessage 100 (noon 1) 3 8 "hi" "Original Name")]⟩ :=
  ((SendMessage_durability sampleMessageUsecase 100 noon 3 8 "hi" domain.userSample
    model.openRoom rfl rfl (by decide) (by decide)).2.2.1 (by decide) (by decide)).2 rfl

/-- C30, as amended: for a sender ID and a room ID that are not the nil UUID, once
the user lookup, the room lookup, the expiry check and the participant check
have passed, the chat message built by `NewChatMessage` satisfies `IsValid`,
`SaveChatMessage` is called, and `SendMessage` does not return
"invalid message". -/
theorem SendMessage_valid (c : Message) (id : model.UUID) (clock : Nat → model.Time)
    (senderID roomID : model.UUID) (messageText : String) (user : domain.User)
    (room : model.Room)
    (hU : c.userRepo.GetByID senderID = .ok user) (hR : c.roomRepo.GetByID roomID = .ok room)
    (hE : room.IsExpired (clock 0) = false) (hP : room.IsParticipant senderID = true)
    (hs : senderID ≠ uuid.Nil) (hr : roomID ≠ uuid.Nil) :
    (domain.NewChatMessage id (clock 1) senderID roomID messageText user.Name).IsValid = true ∧
    Event.saveChatMessage
        (domain.NewChatMessage id (clock 1) senderID roomID messageText user.Name)
      ∈ (c.SendMessage id clock senderID roomID messageText).calls ∧
    (c.SendMessage id clock senderID roomID messageText).ret ≠ .error "invalid message" := by
  have hV := (NewChatMessage_valid id (clock 1) senderID roomID messageText user.Name).2 ⟨hs, hr⟩
  have hout := SendMessage_checked c id clock senderID roomID messageText user room hU hR hE hP
  rw [hout]
  refine ⟨hV, ?_, ?_⟩
  · cases c.messageRepo.SaveChatMessage
        (domain.NewChatMessage id (clock 1) senderID roomID messageText user.Name) with
    | some err => simp [hV]
    | none => simp [hV]
  · cases c.messageRepo.SaveChatMessage
        (domain.NewChatMessage id (clock 1) senderID roomID messageText user.Name) with
    | some err =>
      simp only [hV, Bool.true_eq_false, if_false, ne_eq, Except.error.injEq]
      intro h
      have hl := congrArg String.length h
      rw [Errorf_length] at hl
      have h1 : ("failed to save message" : String).length = 22 := by decide
      have h2 : ("invalid message" : String).length = 15 := by decide
      omega
    | none => simp [hV]

theorem SendMessage_valid_witness :
    (domain.NewChatMessage 100 (noon 1) 3 8 "hi" domain.userSample.Name).IsValid = true ∧
    Event.saveChatMessage (domain.NewChatMessage 100 (noon 1) 3 8 "hi" domain.userSample.Name)
      ∈ (sampleMessageUsecase.SendMessage 100 noon 3 8 "hi").calls ∧
    (sampleMessageUsecase.SendMessage 100 noon 3 8 "hi").ret ≠ .error "invalid message" :=
  SendMessage_valid sampleMessageUsecase 100 noon 3 8 "hi" domain.userSample model.openRoom
    rfl rfl (by decide) (by decide) (by decide) (by decide)

/-- C30, as stated, fails: the store holds a user under the nil UUID, and room 7 is
the room `NewRoom` made with the nil UUID added to it by `AddParticipant`; for
the sender `uuid.Nil` the user lookup, the room lookup, the expiry check and
the participant check pass, the chat message is not valid, and `SendMessage`
returns "invalid message" without calling the history store. -/
theorem SendMessage_invalid_reachable :
    (∃ user, sampleMessageUsecase.userRepo.GetByID uuid.Nil = .ok user) ∧
    sampleMessageUsecase.roomRepo.GetByID 7 = .ok nilRoom ∧
    nilRoom.IsExpired (noon 0) = false ∧
    nilRoom.IsParticipant uuid.Nil = true ∧
    (domain.NewChatMessage 100 (noon 1) uuid.Nil 7 "hi" "Nobody").IsValid = false ∧
    sampleMessageUsecase.SendMessage 100 noon uuid.Nil 7 "hi" =
      ⟨.error "invalid message", [.userGetByID uuid.Nil, .roomGetByID 7]⟩ :=
  ⟨⟨_, rfl⟩, rfl, by decide, by decide, by decide, rfl⟩

/-! ## History, users, muting -/

/-- A wrapped error differs from any string that starts with another character. -/
theorem Errorf_ne (msg err target : String) (a b : Char) (as bs : List Char)
    (hm : msg.data = a :: as) (ht : target.data = b :: bs) (hab : a ≠ b) :
    Errorf msg err ≠ target := by
  intro h
  have h2 := congrArg String.data h
  simp only [Errorf, String.data_append, hm, ht, List.cons_append] at h2
  exact hab (List.cons.inj h2).1

/-- C31: for a stored room, `GetHistory` by a caller who is not on the roster fails
with "user is not a participant in this room" without a history-store call;
for a caller on the roster the history store is asked once, with the given
limit when it is positive and with 50 when it is not, and its list of messages
is returned as it is (its error is returned wrapped). -/
theorem GetHistory_spec (c : Message) (userID roomID : model.UUID) (limit : Int)
    (room : model.Room) (hR : c.roomRepo.GetByID roomID = .ok room) :
    (userID ∉ room.Participants.map model.Participant.UserID →
      c.GetHistory userID roomID limit =
        ⟨.error "user is not a participant in this room", [.roomGetByID roomID]⟩) ∧
    (userID ∈ room.Participants.map model.Participant.UserID → 0 < limit →
      c.GetHistory userID roomID limit =
        match c.messageRepo.GetChatHistory roomID limit with
        | .error err =>
          ⟨.error (Errorf "failed to get chat history" err),
            [.roomGetByID roomID, .getChatHistory roomID limit]⟩
        | .ok messages =>
          ⟨.ok messages, [.roomGetByID roomID, .getChatHistory roomID limit]⟩) ∧
    (userID ∈ room.Participants.map model.Participant.UserID → limit ≤ 0 →
      c.GetHistory userID roomID limit =
        match c.messageRepo.GetChatHistory roomID 50 with
        | .error err =>
          ⟨.error (Errorf "failed to get chat history" err),
            [.roomGetByID roomID, .getChatHistory roomID 50]⟩
        | .ok messages =>
          ⟨.ok messages, [.roomGetByID roomID, .getChatHistory roomID 50]⟩) := by
  refine ⟨?_, ?_, ?_⟩
  · intro hu
    have hP : room.IsParticipant userID = false := by
      cases hb : room.IsParticipant userID with
      | false => rfl
      | true => exact absurd ((model.IsParticipant_iff room userID).1 hb) hu
    simp only [Message.GetHistory, hR, hP, Bool.not_false, if_true]
  · intro hu hpos
    have hP := (model.IsParticipant_iff room userID).2 hu
    have hl : ¬ limit ≤ 0 := not_le.2 hpos
    simp only [Message.GetHistory, hR, hP, Bool.not_true, Bool.false_eq_true, if_false, hl]
  · intro hu hle
    have hP := (model.IsParticipant_iff room userID).2 hu
    simp only [Message.GetHistory, hR, hP, Bool.not_true, Bool.false_eq_true, if_false, hle,
      if_true]

theorem GetHistory_spec_witness :
    sampleMessageUsecase.GetHistory 3 9 10 =
      ⟨.error "user is not a participant in this room", [.roomGetByID 9]⟩ ∧
    sampleMessageUsecase.GetHistory 3 8 0 =
      ⟨.ok [], [.roomGetByID 8, .getChatHistory 8 50]⟩ ∧
    sampleMessageUsecase.GetHistory 3 8 7 =
      ⟨.ok [], [.roomGetByID 8, .getChatHistory 8 7]⟩ :=
  ⟨(GetHistory_spec sampleMessageUsecase 3 9 10 model.fullRoom rfl).1 (by decide),
   (GetHistory_spec sampleMessageUsecase 3 8 0 model.openRoom rfl).2.2 (by decide) (by decide),
   (GetHistory_spec sampleMessageUsecase 3 8 7 model.openRoom rfl).2.1 (by decide) (by decide)⟩

/-- C32: for a stored room, `DeleteHistory` by a caller other than `HostID`, on the
roster or not, fails with "only host can delete chat history" without calling
`DeleteChatHistory`; by the host, on the roster or not,
`DeleteChatHistory(roomID)` is called and `DeleteHistory` succeeds exactly when
that call succeeds. -/
theorem DeleteHistory_spec (c : Message) (hostID roomID : model.UUID) (room : model.Room)
    (hR : c.roomRepo.GetByID roomID = .ok room) :
    (hostID ≠ room.HostID →
      c.DeleteHistory hostID roomID =
        ⟨.error "only host can delete chat history", [.roomGetByID roomID]⟩) ∧
    (hostID = room.HostID →
      c.DeleteHistory hostID roomID =
        match c.messageRepo.DeleteChatHistory roomID with
        | some err =>
          ⟨.error (Errorf "failed to delete chat history" err),
            [.roomGetByID roomID, .deleteChatHistory roomID]⟩
        | none => ⟨.ok (), [.roomGetByID roomID, .deleteChatHistory roomID]⟩) ∧
    (hostID = room.HostID →
      ((c.DeleteHistory hostID roomID).ret = .ok () ↔
        c.messageRepo.DeleteChatHistory roomID = none)) := by
  have hhost : hostID = room.HostID →
      c.DeleteHistory hostID roomID =
        match c.messageRepo.DeleteChatHistory roomID with
        | some err =>
          ⟨.error (Errorf "failed to delete chat history" err),
            [.roomGetByID roomID, .deleteChatHistory roomID]⟩
        | none => ⟨.ok (), [.roomGetByID roomID, .deleteChatHistory roomID]⟩ := by
    intro h
    have hH : room.IsHost hostID = true := by
      simp only [model.Room.IsHost, decide_eq_true_eq]; exact h.symm
    simp only [Message.DeleteHistory, hR, hH, Bool.not_true, Bool.false_eq_true, if_false]
  refine ⟨?_, hhost, ?_⟩
  · intro h
    have hH : room.IsHost hostID = false := by
      simp only [model.Room.IsHost, decide_eq_false_iff_not]
      exact fun e => h e.symm
    simp only [Message.DeleteHistory, hR, hH, Bool.not_false, if_true]
  · intro h
    rw [hhost h]
    cases c.messageRepo.DeleteChatHistory roomID with
    | some err => simp
    | none => simp

theorem DeleteHistory_spec_witness :
    model.openRoom.IsParticipant 2 = true ∧
    sampleMessageUsecase.DeleteHistory 2 8 =
      ⟨.error "only host can delete chat history", [.roomGetByID 8]⟩ ∧
    nilRoom.IsParticipant 1 = false ∧
    sampleMessageUsecase.DeleteHistory 1 7 = ⟨.ok (), [.roomGetByID 7, .deleteChatHistory 7]⟩ :=
  ⟨by decide, (DeleteHistory_spec sampleMessageUsecase 2 8 model.openRoom rfl).1 (by decide),
   by decide, (DeleteHistory_spec sampleMessageUsecase 1 7 nilRoom rfl).2.1 (by decide)⟩

/-- A new user is valid exactly when the email and the name are not empty. -/
theorem NewUser_valid (id : model.UUID) (now : model.Time)
    (googleID email name avatarURL : String) :
    (domain.NewUser id now googleID email name avatarURL).IsValid = true ↔
      email ≠ "" ∧ name ≠ "" := by
  simp [domain.NewUser, domain.User.IsValid]

/-- The outcome of `CreateUser` when the store has no user with the Google ID. -/
theorem CreateUser_absent (u : User) (id : model.UUID) (clock : Nat → model.Time)
    (googleID email name avatarURL err : String)
    (hG : u.userRepo.GetByGoogleID googleID = .error err) :
    u.CreateUser id clock googleID email name avatarURL =
      if (domain.NewUser id (clock 0) googleID email name avatarURL).IsValid = false then
        ⟨.error "invalid user data: email and name are required",
          [.userGetByGoogleID googleID]⟩
      else
        match u.userRepo.Create (domain.NewUser id (clock 0) googleID email name avatarURL) with
        | some e =>
          ⟨.error (Errorf "failed to create user" e),
            [.userGetByGoogleID googleID,
             .userCreate (domain.NewUser id (clock 0) googleID email name avatarURL)]⟩
        | none =>
          ⟨.ok (domain.NewUser id (clock 0) googleID email name avatarURL),
            [.userGetByGoogleID googleID,
             .userCreate (domain.NewUser id (clock 0) googleID email name avatarURL)]⟩ := by
  simp only [User.CreateUser, hG, Bool.not_eq_true']

theorem CreateUser_present (u : User) (id : model.UUID) (clock : Nat → model.Time)
    (googleID email name avatarURL : String) (existing : domain.User)
    (hG : u.userRepo.GetByGoogleID googleID = .ok existing) :
    u.CreateUser id clock googleID email name avatarURL =
      ⟨.ok existing, [.userGetByGoogleID googleID]⟩ := by
  simp only [User.CreateUser, hG]

/-- C33: when the user store holds a user with the Google ID, `CreateUser` returns that
stored user as it is after the lookup alone, with no `Create` and no `Update`,
whatever email, name and avatar are supplied; otherwise it fails with
"invalid user data" without a store write exactly when the email or the name is
empty, and else calls `Create` with a new user carrying the supplied Google ID,
email, name and avatar and returns that user once the store has taken it (a
failing `Create` is returned wrapped); a second `CreateUser` with the same
arguments against a store that holds the first result returns the same user. -/
theorem CreateUser_spec (u : User) (id : model.UUID) (clock : Nat → model.Time)
    (googleID email name avatarURL : String) :
    (∀ existing, u.userRepo.GetByGoogleID googleID = .ok existing →
      u.CreateUser id clock googleID email name avatarURL =
        ⟨.ok existing, [.userGetByGoogleID googleID]⟩) ∧
    (∀ err, u.userRepo.GetByGoogleID googleID = .error err →
      ((u.CreateUser id clock googleID email name avatarURL).ret =
          .error "invalid user data: email and name are required" ↔
        email = "" ∨ name = "") ∧
      (email = "" ∨ name = "" →
        (u.CreateUser id clock googleID email name avatarURL).calls
          = [.userGetByGoogleID googleID]) ∧
      (email ≠ "" → name ≠ "" →
        u.CreateUser id clock googleID email name avatarURL =
          match u.userRepo.Create
              { ID := id, GoogleID := googleID, Email := email, Name := name,
                AvatarURL := avatarURL, CreatedAt := clock 0 } with
          | some e =>
            ⟨.error (Errorf "failed to create user" e),
              [.userGetByGoogleID googleID,
               .userCreate
                 { ID := id, GoogleID := googleID, Email := email, Name := name,
                   AvatarURL := avatarURL, CreatedAt := clock 0 }]⟩
          | none =>
            ⟨.ok { ID := id, GoogleID := googleID, Email := email, Name := name,
                   AvatarURL := avatarURL, CreatedAt := clock 0 },
              [.userGetByGoogleID googleID,
               .userCreate
                 { ID := id, GoogleID := googleID, Email := email, Name := name,
                   AvatarURL := avatarURL, CreatedAt := clock 0 }]⟩)) ∧
    (∀ (later : User) (id2 : model.UUID) (clock2 : Nat → model.Time) (first : domain.User),
      (u.CreateUser id clock googleID email name avatarURL).ret = .ok first →
      later.userRepo.GetByGoogleID googleID = .ok first →
      (later.CreateUser id2 clock2 googleID email name avatarURL).ret = .ok first ∧
      ∀ e ∈ (later.CreateUser id2 clock2 googleID email name avatarURL).calls,
        e.isUserWrite = false) := by
  refine ⟨CreateUser_present u id clock googleID email name avatarURL, ?_, ?_⟩
  · intro err hG
    have hout := CreateUser_absent u id clock googleID email name avatarURL err hG
    have hvalid := NewUser_valid id (clock 0) googleID email name avatarURL
    by_cases hv : (domain.NewUser id (clock 0) googleID email name avatarURL).IsValid = true
    · have hen := hvalid.1 hv
      have hnot : ¬ (email = "" ∨ name = "") := by
        intro h
        rcases h with h | h
        · exact hen.1 h
        · exact hen.2 h
      refine ⟨?_, fun h => absurd h hnot, ?_⟩
      · rw [hout]
        simp only [hv, Bool.true_eq_false, if_false]
        constructor
        · intro h
          exfalso
          cases hC : u.userRepo.Create
              (domain.NewUser id (clock 0) googleID email name avatarURL) with
          | none => rw [hC] at h; cases h
          | some e =>
            rw [hC] at h
            exact Errorf_ne "failed to create user" e
              "invalid user data: email and name are required" 'f' 'i' _ _ rfl rfl
              (by decide) (Except.error.inj h)
        · intro h
          exact absurd h hnot
      · intro _ _
        rw [hout]
        simp only [hv, Bool.true_eq_false, if_false]
        rfl
    · have hf : (domain.NewUser id (clock 0) googleID email name avatarURL).IsValid = false := by
        cases hb : (domain.NewUser id (clock 0) googleID email name avatarURL).IsValid with
        | false => rfl
        | true => exact absurd hb hv
      have hempty : email = "" ∨ name = "" := by
        by_contra hcon
        simp only [not_or] at hcon
        exact hv (hvalid.2 hcon)
      rw [hout]
      simp only [hf, if_true]
      refine ⟨⟨fun _ => hempty, fun _ => trivial⟩, fun _ => trivial, ?_⟩
      intro he hn
      rcases hempty with h | h
      · exact absurd h he
      · exact absurd h hn
  · intro later id2 clock2 first _ hG
    rw [CreateUser_present later id2 clock2 googleID email name avatarURL first hG]
    simp [Event.isUserWrite]

theorem CreateUser_spec_witness :
    knownUserUsecase.CreateUser 5 noon "google123" "" "" "" =
      ⟨.ok domain.userSample, [.userGetByGoogleID "google123"]⟩ ∧
    sampleUserUsecase.CreateUser 5 noon "google9" "a@example.com" "Ann" "" =
      ⟨.ok { ID := 5, GoogleID := "google9", Email := "a@example.com", Name := "Ann",
             AvatarURL := "", CreatedAt := 50 },
        [.userGetByGoogleID "google9",
         .userCreate { ID := 5, GoogleID := "google9", Email := "a@example.com", Name := "Ann",
                       AvatarURL := "", CreatedAt := 50 }]⟩ :=
  ⟨(CreateUser_spec knownUserUsecase 5 noon "google123" "" "" "").1 domain.userSample rfl,
   ((CreateUser_spec sampleUserUsecase 5 noon "google9" "a@example.com" "Ann" "").2.1
      "no rows" rfl).2.2 (by decide) (by decide)⟩

/-- The fields of a patched user. -/
theorem patch_fields (stored : domain.User) (name avatarURL : String) :
    (stored.UpdateProfile name avatarURL).Name = (if name ≠ "" then name else stored.Name) ∧
    (stored.UpdateProfile name avatarURL).AvatarURL
      = (if avatarURL ≠ "" then avatarURL else stored.AvatarURL) ∧
    (stored.UpdateProfile name avatarURL).Email = stored.Email ∧
    (stored.UpdateProfile name avatarURL).ID = stored.ID ∧
    (stored.UpdateProfile name avatarURL).GoogleID = stored.GoogleID ∧
    (stored.UpdateProfile name avatarURL).CreatedAt = stored.CreatedAt := by
  refine ⟨?_, ?_, ?_, ?_, ?_, ?_⟩ <;>
    by_cases hn : name = "" <;> by_cases ha : avatarURL = "" <;>
    simp [domain.User.UpdateProfile, hn, ha]

/-- The patch keeps a valid user valid. -/
theorem patch_valid (stored : domain.User) (name avatarURL : String)
    (hv : stored.IsValid = true) : (stored.UpdateProfile name avatarURL).IsValid = true := by
  have hf := patch_fields stored name avatarURL
  simp only [domain.User.IsValid, Bool.and_eq_true, decide_eq_true_eq] at hv ⊢
  rw [hf.2.2.1, hf.1]
  refine ⟨hv.1, ?_⟩
  by_cases hn : name = ""
  · simp only [hn, ne_eq, not_true_eq_false, if_false]
    exact hv.2
  · simp only [ne_eq, hn, not_false_eq_true, if_true]

/-- The outcome of `LoginUser` when the store holds a user with the Google ID. -/
theorem LoginUser_present (u : User) (id : model.UUID) (clock : Nat → model.Time)
    (googleID email name avatarURL : String) (stored : domain.User)
    (hG : u.userRepo.GetByGoogleID googleID = .ok stored) :
    u.LoginUser id clock googleID email name avatarURL =
      if stored.Name ≠ name ∨ stored.AvatarURL ≠ avatarURL then
        match u.userRepo.Update (stored.UpdateProfile name avatarURL) with
        | some err =>
          ⟨.error (Errorf "failed to update user profile" err),
            [.userGetByGoogleID googleID, .userUpdate (stored.UpdateProfile name avatarURL)]⟩
        | none =>
          ⟨.ok (stored.UpdateProfile name avatarURL),
            [.userGetByGoogleID googleID, .userUpdate (stored.UpdateProfile name avatarURL)]⟩
      else
        ⟨.ok stored, [.userGetByGoogleID googleID]⟩ := by
  simp only [User.LoginUser, hG]

/-- C34, as amended: when the store holds a user with the Google ID, `LoginUser` calls
the store's `Update` exactly when the supplied name differs from the stored
`Name` or the supplied avatar from the stored `AvatarURL`; the user passed to
`Update` is the stored user with the patch applied (a non-empty name or avatar
replaces the stored one, an empty one leaves it; `Email`, `ID`, `GoogleID` and
`CreatedAt` never change); `LoginUser` returns the stored user when nothing
differs and the patched user when `Update` succeeds, and the wrapped error
"failed to update user profile" when `Update` fails; when the store holds no
such user it returns what `CreateUser` returns for the same arguments, the calls
of `CreateUser` following its own lookup. -/
theorem LoginUser_spec (u : User) (id : model.UUID) (clock : Nat → model.Time)
    (googleID email name avatarURL : String) :
    (∀ stored, u.userRepo.GetByGoogleID googleID = .ok stored →
      (stored.Name = name → stored.AvatarURL = avatarURL →
        u.LoginUser id clock googleID email name avatarURL =
          ⟨.ok stored, [.userGetByGoogleID googleID]⟩) ∧
      (stored.Name ≠ name ∨ stored.AvatarURL ≠ avatarURL →
        u.LoginUser id clock googleID email name avatarURL =
          match u.userRepo.Update (stored.UpdateProfile name avatarURL) with
          | some err =>
            ⟨.error (Errorf "failed to update user profile" err),
              [.userGetByGoogleID googleID,
               .userUpdate (stored.UpdateProfile name avatarURL)]⟩
          | none =>
            ⟨.ok (stored.UpdateProfile name avatarURL),
              [.userGetByGoogleID googleID,
               .userUpdate (stored.UpdateProfile name avatarURL)]⟩) ∧
      ((stored.UpdateProfile name avatarURL).Name
          = (if name ≠ "" then name else stored.Name) ∧
        (stored.UpdateProfile name avatarURL).AvatarURL
          = (if avatarURL ≠ "" then avatarURL else stored.AvatarURL) ∧
        (stored.UpdateProfile name avatarURL).Email = stored.Email ∧
        (stored.UpdateProfile name avatarURL).ID = stored.ID ∧
        (stored.UpdateProfile name avatarURL).GoogleID = stored.GoogleID ∧
        (stored.UpdateProfile name avatarURL).CreatedAt = stored.CreatedAt)) ∧
    (∀ err, u.userRepo.GetByGoogleID googleID = .error err →
      (u.LoginUser id clock googleID email name avatarURL).ret
        = (u.CreateUser id clock googleID email name avatarURL).ret ∧
      (u.LoginUser id clock googleID email name avatarURL).calls
        = .userGetByGoogleID googleID
            :: (u.CreateUser id clock googleID email name avatarURL).calls) := by
  refine ⟨?_, ?_⟩
  · intro stored hG
    have hout := LoginUser_present u id clock googleID email name avatarURL stored hG
    refine ⟨?_, ?_, patch_fields stored name avatarURL⟩
    · intro h1 h2
      rw [hout]
      simp only [h1, h2, ne_eq, not_true_eq_false, or_self, if_false]
    · intro h
      rw [hout]
      simp only [h, if_true]
  · intro err hG
    simp only [User.LoginUser, hG, and_self]

theorem LoginUser_spec_witness :
    knownUserUsecase.LoginUser 5 noon "google123" "x@example.com" "Original Name"
        "original-avatar.jpg" =
      ⟨.ok domain.userSample, [.userGetByGoogleID "google123"]⟩ :=
  ((LoginUser_spec knownUserUsecase 5 noon "google123" "x@example.com" "Original Name"
      "original-avatar.jpg").1 domain.userSample rfl).1 (by decide) (by decide)

/-- C34, as stated, fails: the store holds a user with the Google ID, the supplied
name differs from the stored one, the store's `Update` fails, and `LoginUser`
returns the error and no user. -/
theorem LoginUser_update_can_fail :
    knownUserUsecase.userRepo.GetByGoogleID "google123" = .ok domain.userSample ∧
    domain.userSample.Name ≠ "New Name" ∧
    knownUserUsecase.LoginUser 5 noon "google123" "test@example.com" "New Name" "" =
      ⟨.error "failed to update user profile: connection lost",
        [.userGetByGoogleID "google123",
         .userUpdate { domain.userSample with Name := "New Name" }]⟩ :=
  ⟨rfl, by decide, rfl⟩

/-- C35: the orchestrator's `UpdateProfile` fails with "user not found" (wrapping the
store's error) after the lookup alone when the user is absent; for a stored
user, the user handed to the store's `Update`, when one is, is the stored user
with the non-empty arguments applied, that hand-over happening exactly when the
patched user is valid; `UpdateProfile(userID, "", avatar)` hands over the
stored user with only `AvatarURL` changed, and `UpdateProfile(userID, "", "")`
hands over the stored user as it is. -/
theorem UpdateProfile_spec (u : User) (userID : model.UUID) (name avatarURL : String) :
    (∀ err, u.userRepo.GetByID userID = .error err →
      u.UpdateProfile userID name avatarURL =
        ⟨.error (Errorf "user not found" err), [.userGetByID userID]⟩) ∧
    (∀ stored, u.userRepo.GetByID userID = .ok stored →
      ((stored.UpdateProfile name avatarURL).IsValid = false →
        u.UpdateProfile userID name avatarURL =
          ⟨.error "invalid user data: email and name are required",
            [.userGetByID userID]⟩) ∧
      ((stored.UpdateProfile name avatarURL).IsValid = true →
        u.UpdateProfile userID name avatarURL =
          match u.userRepo.Update (stored.UpdateProfile name avatarURL) with
          | some err =>
            ⟨.error (Errorf "failed to update user" err),
              [.userGetByID userID, .userUpdate (stored.UpdateProfile name avatarURL)]⟩
          | none =>
            ⟨.ok (), [.userGetByID userID,
              .userUpdate (stored.UpdateProfile name avatarURL)]⟩) ∧
      (∀ x, Event.userUpdate x ∈ (u.UpdateProfile userID name avatarURL).calls →
        x = stored.UpdateProfile name avatarURL) ∧
      (avatarURL ≠ "" →
        ∀ x, Event.userUpdate x ∈ (u.UpdateProfile userID "" avatarURL).calls →
          x = { stored with AvatarURL := avatarURL }) ∧
      (∀ x, Event.userUpdate x ∈ (u.UpdateProfile userID "" "").calls → x = stored)) := by
  have hcalls : ∀ (stored : domain.User) (n a : String),
      u.userRepo.GetByID userID = .ok stored →
      ∀ x, Event.userUpdate x ∈ (u.UpdateProfile userID n a).calls →
        x = stored.UpdateProfile n a := by
    intro stored n a hU x hx
    simp only [User.UpdateProfile, hU] at hx
    cases hV : (stored.UpdateProfile n a).IsValid with
    | false => simp [hV] at hx
    | true =>
      cases hW : u.userRepo.Update (stored.UpdateProfile n a) with
      | some err => simpa [hV, hW] using hx
      | none => simpa [hV, hW] using hx
  refine ⟨?_, ?_⟩
  · intro err hU
    simp only [User.UpdateProfile, hU]
  · intro stored hU
    refine ⟨?_, ?_, hcalls stored name avatarURL hU, ?_, ?_⟩
    · intro hV
      simp only [User.UpdateProfile, hU, hV, Bool.not_false, if_true]
    · intro hV
      simp only [User.UpdateProfile, hU, hV, Bool.not_true, Bool.false_eq_true, if_false]
    · intro ha x hx
      rw [hcalls stored "" avatarURL hU x hx]
      simp [domain.User.UpdateProfile, ha]
    · intro x hx
      rw [hcalls stored "" "" hU x hx]
      simp [domain.User.UpdateProfile]

theorem UpdateProfile_spec_witness :
    sampleUserUsecase.UpdateProfile 3 "" "new-avatar" =
      ⟨.ok (), [.userGetByID 3,
        .userUpdate { domain.userSample with AvatarURL := "new-avatar" }]⟩ ∧
    (∀ x, Event.userUpdate x ∈ (sampleUserUsecase.UpdateProfile 3 "" "").calls →
      x = domain.userSample) :=
  ⟨rfl, ((UpdateProfile_spec sampleUserUsecase 3 "" "").2 domain.userSample rfl).2.2.2.2⟩

/-- The outcome of the orchestrator's `MuteParticipant` for a loaded room. -/
theorem Mute_loaded (r : Room) (hostID roomID targetUserID : model.UUID) (room : model.Room)
    (hR : r.roomRepo.GetByID roomID = .ok room) :
    r.MuteParticipant hostID roomID targetUserID =
      match (room.MuteParticipant hostID targetUserID).2 with
      | some err => ⟨.error (Errorf "failed to mute participant" err), [.roomGetByID roomID]⟩
      | none =>
        match r.roomRepo.Update (room.MuteParticipant hostID targetUserID).1 with
        | some err =>
          ⟨.error (Errorf "failed to update room" err),
            [.roomGetByID roomID, .roomUpdate (room.MuteParticipant hostID targetUserID).1]⟩
        | none =>
          match r.sessionManager.GetSession targetUserID with
          | .ok session =>
            ⟨.ok (),
              [.roomGetByID roomID, .roomUpdate (room.MuteParticipant hostID targetUserID).1,
               .getSession targetUserID, .updateSession { session with IsMuted := true },
               .notifyUserMuted roomID targetUserID true]⟩
          | .error _ =>
            ⟨.ok (),
              [.roomGetByID roomID, .roomUpdate (room.MuteParticipant hostID targetUserID).1,
               .getSession targetUserID, .notifyUserMuted roomID targetUserID true]⟩ := by
  simp only [Room.MuteParticipant, hR]

/-- The outcome of the orchestrator's `UnmuteParticipant` for a loaded room. -/
theorem Unmute_loaded (r : Room) (userID roomID : model.UUID) (room : model.Room)
    (hR : r.roomRepo.GetByID roomID = .ok room) :
    r.UnmuteParticipant userID roomID =
      match (room.UnmuteParticipant userID).2 with
      | some err => ⟨.error (Errorf "failed to unmute participant" err), [.roomGetByID roomID]⟩
      | none =>
        match r.roomRepo.Update (room.UnmuteParticipant userID).1 with
        | some err =>
          ⟨.error (Errorf "failed to update room" err),
            [.roomGetByID roomID, .roomUpdate (room.UnmuteParticipant userID).1]⟩
        | none =>
          match r.sessionManager.GetSession userID with
          | .ok session =>
            ⟨.ok (),
              [.roomGetByID roomID, .roomUpdate (room.UnmuteParticipant userID).1,
               .getSession userID, .updateSession { session with IsMuted := false },
               .notifyUserMuted roomID userID false]⟩
          | .error _ =>
            ⟨.ok (),
              [.roomGetByID roomID, .roomUpdate (room.UnmuteParticipant userID).1,
               .getSession userID, .notifyUserMuted roomID userID false]⟩ := by
  simp only [Room.UnmuteParticipant, hR]

/-- The result and the room-store writes of a mute or unmute whose aggregate call and
`Update` are given: they do not depend on the session manager. -/
theorem mute_tail (sessions : service.SessionManager) (roomID targetUserID : model.UUID)
    (updated : model.Room) (flag : Bool) (answer : Option String) :
    ((match answer with
      | some err =>
        (⟨.error (Errorf "failed to update room" err),
          [.roomGetByID roomID, .roomUpdate updated]⟩ : Outcome Unit)
      | none =>
        match sessions.GetSession targetUserID with
        | .ok session =>
          ⟨.ok (),
            [.roomGetByID roomID, .roomUpdate updated, .getSession targetUserID,
             .updateSession { session with IsMuted := flag },
             .notifyUserMuted roomID targetUserID flag]⟩
        | .error _ =>
          ⟨.ok (),
            [.roomGetByID roomID, .roomUpdate updated, .getSession targetUserID,
             .notifyUserMuted roomID targetUserID flag]⟩).ret
        = match answer with
          | some err => .error (Errorf "failed to update room" err)
          | none => .ok ()) ∧
    ((match answer with
      | some err =>
        (⟨.error (Errorf "failed to update room" err),
          [.roomGetByID roomID, .roomUpdate updated]⟩ : Outcome Unit)
      | none =>
        match sessions.GetSession targetUserID with
        | .ok session =>
          ⟨.ok (),
            [.roomGetByID roomID, .roomUpdate updated, .getSession targetUserID,
             .updateSession { session with IsMuted := flag },
             .notifyUserMuted roomID targetUserID flag]⟩
        | .error _ =>
          ⟨.ok (),
            [.roomGetByID roomID, .roomUpdate updated, .getSession targetUserID,
             .notifyUserMuted roomID targetUserID flag]⟩).calls.filter Event.isRoomWrite
        = [.roomUpdate updated]) := by
  cases answer with
  | some err => exact ⟨rfl, rfl⟩
  | none =>
    cases sessions.GetSession targetUserID with
    | ok session => exact ⟨rfl, rfl⟩
    | error e => exact ⟨rfl, rfl⟩

/-- The result and the room-store writes of the orchestrator's `MuteParticipant` for
a loaded room, in terms of the aggregate call and the store's `Update` alone. -/
theorem Mute_result (r : Room) (hostID roomID targetUserID : model.UUID) (room : model.Room)
    (hR : r.roomRepo.GetByID roomID = .ok room) :
    (∀ err, (room.MuteParticipant hostID targetUserID).2 = some err →
      r.MuteParticipant hostID roomID targetUserID =
        ⟨.error (Errorf "failed to mute participant" err), [.roomGetByID roomID]⟩) ∧
    ((room.MuteParticipant hostID targetUserID).2 = none →
      (r.MuteParticipant hostID roomID targetUserID).ret =
        (match r.roomRepo.Update (room.MuteParticipant hostID targetUserID).1 with
          | some err => .error (Errorf "failed to update room" err)
          | none => .ok ()) ∧
      (r.MuteParticipant hostID roomID targetUserID).calls.filter Event.isRoomWrite
        = [.roomUpdate (room.MuteParticipant hostID targetUserID).1] ∧
      (∀ err, r.roomRepo.Update (room.MuteParticipant hostID targetUserID).1 = some err →
        (r.MuteParticipant hostID roomID targetUserID).calls =
          [.roomGetByID roomID, .roomUpdate (room.MuteParticipant hostID targetUserID).1])) := by
  have hout := Mute_loaded r hostID roomID targetUserID room hR
  refine ⟨?_, ?_⟩
  · intro err hA
    rw [hout]
    simp only [hA]
  · intro hA
    rw [hout]
    simp only [hA]
    have ht := mute_tail r.sessionManager roomID targetUserID
      (room.MuteParticipant hostID targetUserID).1 true
      (r.roomRepo.Update (room.MuteParticipant hostID targetUserID).1)
    refine ⟨ht.1, ht.2, ?_⟩
    intro err hW
    simp only [hW]

/-- The same for `UnmuteParticipant`. -/
theorem Unmute_result (r : Room) (userID roomID : model.UUID) (room : model.Room)
    (hR : r.roomRepo.GetByID roomID = .ok room) :
    (∀ err, (room.UnmuteParticipant userID).2 = some err →
      r.UnmuteParticipant userID roomID =
        ⟨.error (Errorf "failed to unmute participant" err), [.roomGetByID roomID]⟩) ∧
    ((room.UnmuteParticipant userID).2 = none →
      (r.UnmuteParticipant userID roomID).ret =
        (match r.roomRepo.Update (room.UnmuteParticipant userID).1 with
          | some err => .error (Errorf "failed to update room" err)
          | none => .ok ()) ∧
      (r.UnmuteParticipant userID roomID).calls.filter Event.isRoomWrite
        = [.roomUpdate (room.UnmuteParticipant userID).1] ∧
      (∀ err, r.roomRepo.Update (room.UnmuteParticipant userID).1 = some err →
        (r.UnmuteParticipant userID roomID).calls =
          [.roomGetByID roomID, .roomUpdate (room.UnmuteParticipant userID).1])) := by
  have hout := Unmute_loaded r userID roomID room hR
  refine ⟨?_, ?_⟩
  · intro err hA
    rw [hout]
    simp only [hA]
  · intro hA
    rw [hout]
    simp only [hA]
    have ht := mute_tail r.sessionManager roomID userID (room.UnmuteParticipant userID).1 false
      (r.roomRepo.Update (room.UnmuteParticipant userID).1)
    refine ⟨ht.1, ht.2, ?_⟩
    intro err hW
    simp only [hW]

/-- The result and the room-store writes of a mute do not depend on the session
manager and the notifier. -/
theorem Mute_independent (r : Room) (sessions : service.SessionManager)
    (notifier : service.RealtimeNotifier) (hostID roomID targetUserID : model.UUID) :
    (({ r with sessionManager := sessions, realtimeNotifier := notifier } : Room).MuteParticipant
        hostID roomID targetUserID).ret
      = (r.MuteParticipant hostID roomID targetUserID).ret ∧
    (({ r with sessionManager := sessions, realtimeNotifier := notifier } : Room).MuteParticipant
        hostID roomID targetUserID).calls.filter Event.isRoomWrite
      = (r.MuteParticipant hostID roomID targetUserID).calls.filter Event.isRoomWrite := by
  cases hR : r.roomRepo.GetByID roomID with
  | error e => simp only [Room.MuteParticipant, hR, and_self]
  | ok room =>
    have h1 := Mute_result r hostID roomID targetUserID room hR
    have h2 := Mute_result { r with sessionManager := sessions, realtimeNotifier := notifier }
      hostID roomID targetUserID room hR
    cases hA : (room.MuteParticipant hostID targetUserID).2 with
    | some err => rw [h1.1 err hA, h2.1 err hA]; exact ⟨rfl, rfl⟩
    | none =>
      have a := h1.2 hA
      have b := h2.2 hA
      exact ⟨b.1.trans a.1.symm, b.2.1.trans a.2.1.symm⟩

theorem Unmute_independent (r : Room) (sessions : service.SessionManager)
    (notifier : service.RealtimeNotifier) (userID roomID : model.UUID) :
    (({ r with sessionManager := sessions, realtimeNotifier := notifier } : Room).UnmuteParticipant
        userID roomID).ret
      = (r.UnmuteParticipant userID roomID).ret ∧
    (({ r with sessionManager := sessions, realtimeNotifier := notifier } : Room).UnmuteParticipant
        userID roomID).calls.filter Event.isRoomWrite
      = (r.UnmuteParticipant userID roomID).calls.filter Event.isRoomWrite := by
  cases hR : r.roomRepo.GetByID roomID with
  | error e => simp only [Room.UnmuteParticipant, hR, and_self]
  | ok room =>
    have h1 := Unmute_result r userID roomID room hR
    have h2 := Unmute_result { r with sessionManager := sessions, realtimeNotifier := notifier }
      userID roomID room hR
    cases hA : (room.UnmuteParticipant userID).2 with
    | some err => rw [h1.1 err hA, h2.1 err hA]; exact ⟨rfl, rfl⟩
    | none =>
      have a := h1.2 hA
      have b := h2.2 hA
      exact ⟨b.1.trans a.1.symm, b.2.1.trans a.2.1.symm⟩

/-- C36: for a stored room, the orchestrator's `MuteParticipant` and
`UnmuteParticipant` return the aggregate's error ("only host can mute
participants", "participant not found"), wrapped, after the room lookup alone:
no `Update`, no session call, no notification.  When the aggregate call
succeeds the only room-store write is `Update` with the loaded room in which the
target's entry has `IsMuted` true (mute) or false (unmute) and nothing else
differs; the result is success exactly when that `Update` succeeds, a failing
`Update` being followed by no further call; and the result and the room-store
write are the same whatever the session manager and the notifier answer. -/
theorem Mute_Unmute_orchestrated (r : Room) (hostID roomID targetUserID : model.UUID)
    (room : model.Room) (hR : r.roomRepo.GetByID roomID = .ok room) :
    (hostID ≠ room.HostID →
      r.MuteParticipant hostID roomID targetUserID =
        ⟨.error (Errorf "failed to mute participant" "only host can mute participants"),
          [.roomGetByID roomID]⟩) ∧
    (hostID = room.HostID → targetUserID ∉ room.Participants.map model.Participant.UserID →
      r.MuteParticipant hostID roomID targetUserID =
        ⟨.error (Errorf "failed to mute participant" "participant not found"),
          [.roomGetByID roomID]⟩) ∧
    (targetUserID ∉ room.Participants.map model.Participant.UserID →
      r.UnmuteParticipant targetUserID roomID =
        ⟨.error (Errorf "failed to unmute participant" "participant not found"),
          [.roomGetByID roomID]⟩) ∧
    (targetUserID ∈ room.Participants.map model.Participant.UserID →
      ∃ pre p post, room.Participants = pre ++ p :: post ∧ p.UserID = targetUserID ∧
        (∀ q ∈ pre, q.UserID ≠ targetUserID) ∧
        (hostID = room.HostID →
          (r.MuteParticipant hostID roomID targetUserID).ret =
            (match r.roomRepo.Update
                { room with Participants := pre ++ { p with IsMuted := true } :: post } with
              | some err => .error (Errorf "failed to update room" err)
              | none => .ok ()) ∧
          (r.MuteParticipant hostID roomID targetUserID).calls.filter Event.isRoomWrite =
            [.roomUpdate
              { room with Participants := pre ++ { p with IsMuted := true } :: post }] ∧
          (∀ err,
            r.roomRepo.Update
              { room with Participants := pre ++ { p with IsMuted := true } :: post }
                = some err →
            (r.MuteParticipant hostID roomID targetUserID).calls =
              [.roomGetByID roomID,
               .roomUpdate
                 { room with Participants := pre ++ { p with IsMuted := true } :: post }])) ∧
        ((r.UnmuteParticipant targetUserID roomID).ret =
            (match r.roomRepo.Update
                { room with Participants := pre ++ { p with IsMuted := false } :: post } with
              | some err => .error (Errorf "failed to update room" err)
              | none => .ok ()) ∧
          (r.UnmuteParticipant targetUserID roomID).calls.filter Event.isRoomWrite =
            [.roomUpdate
              { room with Participants := pre ++ { p with IsMuted := false } :: post }] ∧
          (∀ err,
            r.roomRepo.Update
              { room with Participants := pre ++ { p with IsMuted := false } :: post }
                = some err →
            (r.UnmuteParticipant targetUserID roomID).calls =
              [.roomGetByID roomID,
               .roomUpdate
                 { room with Participants := pre ++ { p with IsMuted := false } :: post }]))) ∧
    (∀ (sessions : service.SessionManager) (notifier : service.RealtimeNotifier),
      ((({ r with sessionManager := sessions, realtimeNotifier := notifier } :
            Room).MuteParticipant hostID roomID targetUserID).ret
          = (r.MuteParticipant hostID roomID targetUserID).ret ∧
        (({ r with sessionManager := sessions, realtimeNotifier := notifier } :
            Room).MuteParticipant hostID roomID targetUserID).calls.filter Event.isRoomWrite
          = (r.MuteParticipant hostID roomID targetUserID).calls.filter Event.isRoomWrite) ∧
      ((({ r with sessionManager := sessions, realtimeNotifier := notifier } :
            Room).UnmuteParticipant targetUserID roomID).ret
          = (r.UnmuteParticipant targetUserID roomID).ret ∧
        (({ r with sessionManager := sessions, realtimeNotifier := notifier } :
            Room).UnmuteParticipant targetUserID roomID).calls.filter Event.isRoomWrite
          = (r.UnmuteParticipant targetUserID roomID).calls.filter Event.isRoomWrite)) := by
  have hm := Mute_result r hostID roomID targetUserID room hR
  have hu := Unmute_result r targetUserID roomID room hR
  refine ⟨?_, ?_, ?_, ?_, ?_⟩
  · intro hne
    have hA : room.MuteParticipant hostID targetUserID
        = (room, some "only host can mute participants") := by
      unfold model.Room.MuteParticipant
      rw [if_pos hne]
    exact hm.1 _ (by rw [hA])
  · intro hhost habs
    have hA : room.MuteParticipant hostID targetUserID = (room, some "participant not found") := by
      unfold model.Room.MuteParticipant
      rw [if_neg (not_not.2 hhost), model.GetParticipant_absent room targetUserID habs]
    exact hm.1 _ (by rw [hA])
  · intro habs
    have hA : room.UnmuteParticipant targetUserID = (room, some "participant not found") := by
      unfold model.Room.UnmuteParticipant
      rw [model.GetParticipant_absent room targetUserID habs]
    exact hu.1 _ (by rw [hA])
  · intro hin
    obtain ⟨pre, p, post, hps, hp, hpre⟩ :=
      model.roster_split room.Participants targetUserID hin
    refine ⟨pre, p, post, hps, hp, hpre, ?_, ?_⟩
    · intro hhost
      subst hhost
      have hA := model.MuteParticipant_present room targetUserID pre post p hps hp hpre
      have h := hm.2 (by rw [hA])
      rw [hA] at h
      exact h
    · have hA := model.UnmuteParticipant_present room targetUserID pre post p hps hp hpre
      have h := hu.2 (by rw [hA])
      rw [hA] at h
      exact h
  · intro sessions notifier
    exact ⟨Mute_independent r sessions notifier hostID roomID targetUserID,
      Unmute_independent r sessions notifier targetUserID roomID⟩

theorem Mute_Unmute_orchestrated_witness :
    sampleRoomUsecase.MuteParticipant 2 8 3 =
      ⟨.error (Errorf "failed to mute participant" "only host can mute participants"),
        [.roomGetByID 8]⟩ ∧
    acceptingRoomUsecase.MuteParticipant 1 8 3 =
      ⟨.ok (),
        [.roomGetByID 8,
         .roomUpdate
           { model.openRoom with
             Participants :=
               [{ UserID := 1, IsHost := true, IsMuted := false, JoinedAt := 1 },
                { UserID := 2, IsHost := false, IsMuted := true, JoinedAt := 2 },
                { UserID := 3, IsHost := false, IsMuted := true, JoinedAt := 3 }] },
         .getSession 3, .notifyUserMuted 8 3 true]⟩ :=
  ⟨(Mute_Unmute_orchestrated sampleRoomUsecase 2 8 3 model.openRoom rfl).1 (by decide), rfl⟩

/-- For an hour count from 0 to 2,562,047 the duration added by `ExtendRoomExpiry` is
not negative. -/
theorem wrapInt64_hours_nonneg (hours : Int) (hlo : 0 ≤ hours) (hhi : hours ≤ 2562047) :
    0 ≤ wrapInt64 (hours * model.Hour) := by
  rw [wrapInt64_hours hours (by omega) hhi]
  unfold model.Hour
  omega

/-- C37 fails on the code: for the host of stored room 8 and `hours = 2562048`, which
is not negative, the 64-bit product `hours * time.Hour` wraps to a negative
duration, and the room that `ExtendRoomExpiry` persists expires earlier than
the room did before. -/
theorem ExtendRoomExpiry_overflow_shortens :
    acceptingRoomUsecase.roomRepo.GetByID 8 = .ok model.openRoom ∧
    model.openRoom.IsHost 1 = true ∧
    (0 : Int) ≤ 2562048 ∧ (2562048 : Int) < 2 ^ 31 ∧
    (2562048 : Int) * 3600000000000 = 9223372800000000000 ∧
    wrapInt64 (2562048 * model.Hour) = -9223371273709551616 ∧
    acceptingRoomUsecase.ExtendRoomExpiry 1 8 2562048 =
      ⟨.ok (),
        [.roomGetByID 8,
         .roomUpdate { model.openRoom with ExpiresAt := -9223371273709551516 },
         .notifyRoomUpdate { model.openRoom with ExpiresAt := -9223371273709551516 }]⟩ ∧
    (-9223371273709551516 : Int) < model.openRoom.ExpiresAt :=
  ⟨rfl, by decide, by decide, by decide, by decide, by decide, rfl, by decide⟩

/-- C38: `User.UpdateProfile` keeps a valid user valid, for every name and avatar; so
for a valid stored user the orchestrator's `UpdateProfile` does not return
"invalid user data", and every user that `LoginUser` hands to the store's
`Update` is valid. -/
theorem patch_preserves_validity (stored : domain.User) (name avatarURL : String)
    (hv : stored.IsValid = true) :
    (stored.UpdateProfile name avatarURL).IsValid = true ∧
    (∀ (u : User) (userID : model.UUID), u.userRepo.GetByID userID = .ok stored →
      (u.UpdateProfile userID name avatarURL).ret
        ≠ .error "invalid user data: email and name are required") ∧
    (∀ (u : User) (id : model.UUID) (clock : Nat → model.Time) (googleID email : String),
      u.userRepo.GetByGoogleID googleID = .ok stored →
      ∀ x, Event.userUpdate x ∈ (u.LoginUser id clock googleID email name avatarURL).calls →
        x.IsValid = true) := by
  have hp := patch_valid stored name avatarURL hv
  refine ⟨hp, ?_, ?_⟩
  · intro u userID hU
    simp only [User.UpdateProfile, hU, hp, Bool.not_true, Bool.false_eq_true, if_false]
    cases u.userRepo.Update (stored.UpdateProfile name avatarURL) with
    | none => intro h; cases h
    | some err =>
      intro h
      exact Errorf_ne "failed to update user" err
        "invalid user data: email and name are required" 'f' 'i' _ _ rfl rfl
        (by decide) (Except.error.inj h)
  · intro u id clock googleID email hG x hx
    rw [LoginUser_present u id clock googleID email name avatarURL stored hG] at hx
    by_cases hd : stored.Name ≠ name ∨ stored.AvatarURL ≠ avatarURL
    · simp only [hd, if_true] at hx
      cases hW : u.userRepo.Update (stored.UpdateProfile name avatarURL) with
      | some err =>
        simp [hW] at hx
        rw [hx]; exact hp
      | none =>
        simp [hW] at hx
        rw [hx]; exact hp
    · simp [hd] at hx

theorem patch_preserves_validity_witness :
    domain.userSample.IsValid = true ∧
    (domain.userSample.UpdateProfile "" "new-avatar").IsValid = true ∧
    (sampleUserUsecase.UpdateProfile 3 "" "new-avatar").ret
      ≠ .error "invalid user data: email and name are required" := by
  have h := patch_preserves_validity domain.userSample "" "new-avatar" (by decide)
  exact ⟨by decide, h.1, h.2.1 sampleUserUsecase 3 rfl⟩

end usecase
